import Mathlib

/-!
# RaceCarGame: a shallow embedding of `src/main.cpp`

The program is a pseudo-3D road renderer.  The definitions below translate the
parts of `main.cpp` that the verified properties are about.

Conventions of the embedding:

* C++ `float` values are exact rationals (`ℚ`); rounding is not modelled.
* C++ `int` values are integers (`ℤ`); every quantity stays far below `2^31`
  (positions are below `2 * N * SEG_LEN = 640000`), so no wrap-around occurs.
* `int(f)` on a float is truncation toward zero, `truncInt`.
* The segment array `lines` is a function from the index to the segment; the
  source only ever indexes it with `0 ≤ i < N`.
* Drawing is a list of draw calls, in the order in which they are issued.
* The body of the road loop is embedded in its two halves.  The first half
  (main.cpp 771-774) is the call of `project` with its arguments,
  `roadProjectCalls`.  The second half (main.cpp 776-815) is the clip test and
  the quads, `roadSteps`; it reads the projection only through the fields of the
  projected segment, so it takes the projected segments as the input `proj` and
  its properties hold for every value the projection can produce.
* Library calls whose effect is outside the game variables (sound, window,
  textures) appear only where a property counts them.
-/

namespace RaceCarGame

/-! ## Constants (main.cpp 13-22, 475, 569) -/

/-- Window width, `const int WIDTH = 1024`. -/
def WIDTH : ℤ := 1024

/-- Window height, `const int HEIGHT = 768`. -/
def HEIGHT : ℤ := 768

/-- Road width in world units, `const int ROAD_W = 2500`. -/
def ROAD_W : ℤ := 2500

/-- Segment length, `const int SEG_LEN = 200`. -/
def SEG_LEN : ℤ := 200

/-- Camera depth, `const float CAM_D = 0.84f`. -/
def CAM_D : ℚ := 84 / 100

/-- Number of lanes, `const int NUM_LANES = 3`. -/
def NUM_LANES : ℤ := 3

/-- Number of segments of the track, `const int N = 1600`. -/
def N : ℕ := 1600

/-- Number of boost charges, `const int MAX_BOOSTS = 3`. -/
def MAX_BOOSTS : ℤ := 3

/-- Conversion `int(f)` of a float to an int: truncation toward zero. -/
def truncInt (q : ℚ) : ℤ := if 0 ≤ q then ⌊q⌋ else ⌈q⌉

/-! ## Rectangles (`sf::FloatRect`) -/

/-- The rectangle type `sf::FloatRect`: left, top, width, height. -/
structure FloatRect where
  left : ℚ
  top : ℚ
  width : ℚ
  height : ℚ
deriving DecidableEq

/-- The default-constructed rectangle `FloatRect()`: all fields zero. -/
def FloatRect.zero : FloatRect := ⟨0, 0, 0, 0⟩

/-- The library test `sf::Rect<T>::intersects` (SFML 2): the edges of both
rectangles are normalised with `min`/`max` (negative sizes are allowed), and the
rectangles intersect when the common region has a strictly positive extent on
both axes. -/
def FloatRect.intersects (r1 r2 : FloatRect) : Bool :=
  let r1MinX := min r1.left (r1.left + r1.width)
  let r1MaxX := max r1.left (r1.left + r1.width)
  let r1MinY := min r1.top (r1.top + r1.height)
  let r1MaxY := max r1.top (r1.top + r1.height)
  let r2MinX := min r2.left (r2.left + r2.width)
  let r2MaxX := max r2.left (r2.left + r2.width)
  let r2MinY := min r2.top (r2.top + r2.height)
  let r2MaxY := max r2.top (r2.top + r2.height)
  let interLeft := max r1MinX r2MinX
  let interTop := max r1MinY r2MinY
  let interRight := min r1MaxX r2MaxX
  let interBottom := min r1MaxY r2MaxY
  decide (interLeft < interRight) && decide (interTop < interBottom)

/-- A point lies strictly inside a rectangle (strictly between its two vertical
edges and strictly between its two horizontal edges). -/
def FloatRect.StrictlyInside (r : FloatRect) (px py : ℚ) : Prop :=
  min r.left (r.left + r.width) < px ∧ px < max r.left (r.left + r.width) ∧
  min r.top (r.top + r.height) < py ∧ py < max r.top (r.top + r.height)

/-- Two rectangles overlap in a region of positive area: some point lies
strictly inside both. -/
def FloatRect.Overlaps (r1 r2 : FloatRect) : Prop :=
  ∃ px py : ℚ, r1.StrictlyInside px py ∧ r2.StrictlyInside px py

/-! ## Collision pass (main.cpp 842-861) -/

/-- The player's screen rectangle (main.cpp 843-845):
`playerScreenX = WIDTH / 2 + playerX * WIDTH / 3`, `playerScreenY = HEIGHT - 110`,
`FloatRect(playerScreenX - 60, playerScreenY - 45, 120, 90)`. -/
def playerRect (playerX : ℚ) : FloatRect :=
  let playerScreenX : ℚ := ((WIDTH / 2 : ℤ) : ℚ) + playerX * WIDTH / 3
  let playerScreenY : ℚ := ((HEIGHT - 110 : ℤ) : ℚ)
  ⟨playerScreenX - 60, playerScreenY - 45, 120, 90⟩

/-- What the collision loop leaves behind: the game-over flag and the number of
times the body of the hit branch ran (`isOver = true; sfxOver.play(); break`). -/
structure CollisionResult where
  isOver : Bool
  signals : ℕ
deriving DecidableEq

/-- The collision loop (main.cpp 847-861) over the collected pairs
`(opponentBounds[i], opponentLanes[i])`, entered with the flag and signal count
`acc`: a pair in the player's lane whose rectangle intersects the player
rectangle sets the flag and leaves the loop (`break`); any other pair is passed
over. -/
def collisionLoop (playerLane : ℤ) (pRect : FloatRect) :
    List (FloatRect × ℤ) → CollisionResult → CollisionResult
  | [], acc => acc
  | (oppBounds, oppLane) :: rest, acc =>
    if oppLane = playerLane then
      if pRect.intersects oppBounds then
        { isOver := true, signals := acc.signals + 1 }
      else collisionLoop playerLane pRect rest acc
    else collisionLoop playerLane pRect rest acc

/-- The collision pass of one frame: the loop runs inside `if (!isOver)`, so it
is entered with the flag clear. -/
def collisionPass (playerLane : ℤ) (pRect : FloatRect)
    (collected : List (FloatRect × ℤ)) : CollisionResult :=
  collisionLoop playerLane pRect collected { isOver := false, signals := 0 }

/-! ## Segments (main.cpp 38-60) -/

/-- What the code reads from an `sf::Sprite`: the size of the bound texture
(`none` when `getTexture()` is null) and the size of its texture rectangle. -/
structure Sprite where
  texture : Option (ℕ × ℕ)
  rectWidth : ℤ
  rectHeight : ℤ
deriving DecidableEq

/-- A default-constructed sprite: no texture, empty texture rectangle. -/
def Sprite.empty : Sprite := ⟨none, 0, 0⟩

/-- One segment of the road, `struct Line`. -/
structure Line where
  x : ℚ
  y : ℚ
  z : ℚ
  X : ℚ
  Y : ℚ
  W : ℚ
  clip : ℚ
  scale : ℚ
  curve : ℚ
  opCar : Sprite
  hasOpponent : Bool
  opponentLane : ℤ
  opponentOffset : ℚ
  scenerySprite : Sprite
  hasScenery : Bool
  sceneryType : ℤ
  sceneryOnLeft : Bool
deriving DecidableEq

/-- The member initialisers of `struct Line`. -/
def Line.init : Line :=
  { x := 0, y := 0, z := 0, X := 0, Y := 0, W := 0, clip := 0, scale := 0, curve := 0,
    opCar := Sprite.empty, hasOpponent := false, opponentLane := 1, opponentOffset := 0,
    scenerySprite := Sprite.empty, hasScenery := false, sceneryType := 0,
    sceneryOnLeft := true }

/-- The projection `Line::project` (main.cpp 55-60).  The quotient
`CAM_D / (z - camZ)` has no value in exact arithmetic when `z - camZ = 0`; that
call is reported as `none`. -/
def Line.project (l : Line) (camX camY camZ : ℤ) : Option Line :=
  if l.z - camZ = 0 then none
  else
    let scale := CAM_D / (l.z - camZ)
    some { l with
      scale := scale
      X := (1 + scale * (l.x - camX)) * WIDTH / 2
      Y := (1 - scale * (l.y - camY)) * HEIGHT / 2
      W := scale * ROAD_W * WIDTH / 2 }

/-! ## Traffic placement (main.cpp 62-136) -/

/-- A draw call issued on the window.  `quad` is `drawQuad` with its colour
layer and the index `seg` of the loop iteration that issued it; `shadow` is the
ground shadow of a traffic sprite; `sprite` is a scaled sprite. -/
inductive DrawCall where
  | quad (seg : ℤ) (layer : ℕ) (isDark : Bool) (x1 y1 w1 x2 y2 w2 : ℤ)
  | shadow (cx cy w h : ℚ) (alpha : ℤ)
  | sprite (left top w h : ℚ)
deriving DecidableEq

/-- Lane width in pixels, `laneWidth = (W * 2.0f) / NUM_LANES` (main.cpp 79). -/
def laneWidth (W : ℚ) : ℚ := (W * 2) / NUM_LANES

/-- The width of a traffic sprite (main.cpp 79-94): 0.55 of the lane width,
boosted by up to 45% within `SEG_LEN * 6` of the player, clamped to
`[8, WIDTH * 0.9]`. -/
def opponentDestW (W dz : ℚ) : ℚ :=
  let LANE_CAR_FRACTION : ℚ := 55 / 100
  let destW := laneWidth W * LANE_CAR_FRACTION
  let CLOSE_BOOST_RANGE : ℚ := ((SEG_LEN * 6 : ℤ) : ℚ)
  let destW :=
    if dz < CLOSE_BOOST_RANGE then
      let t := (CLOSE_BOOST_RANGE - dz) / CLOSE_BOOST_RANGE
      let CLOSE_MAX_BOOST : ℚ := 45 / 100
      destW * (1 + t * CLOSE_MAX_BOOST)
    else destW
  max 8 (min destW (WIDTH * (9 / 10)))

/-- The near boost factor of the traffic width: `1 + t * 0.45` within
`SEG_LEN * 6` of the player, `1` beyond. -/
def closeBoost (dz : ℚ) : ℚ :=
  if dz < ((SEG_LEN * 6 : ℤ) : ℚ) then
    1 + (((SEG_LEN * 6 : ℤ) : ℚ) - dz) / ((SEG_LEN * 6 : ℤ) : ℚ) * (45 / 100)
  else 1

/-- The height of a traffic sprite (main.cpp 97-98): the width times the native
aspect ratio, clamped to `[6, HEIGHT * 0.9]`. -/
def opponentDestH (destW originalWidth originalHeight : ℚ) : ℚ :=
  max 6 (min (destW * (originalHeight / originalWidth)) (HEIGHT * (9 / 10)))

/-- The shadow of a traffic sprite (main.cpp 114-127), drawn when `destW > 8`. -/
def opponentShadow (Y carX destW dz : ℚ) : List DrawCall :=
  if destW > 8 then
    let shadowW := destW * (78 / 100)
    let shadowH := max 3 (destW * (6 / 100))
    let alpha : ℚ := 60 + (1 - min (dz / (SEG_LEN * 12)) 1) * 140
    let alpha := if alpha > 200 then 200 else alpha
    [DrawCall.shadow (carX + destW * (1 / 2)) (Y - shadowH * (1 / 2) + 4) shadowW shadowH
      (truncInt alpha)]
  else []

/-- The member `Line::drawOpponent` (main.cpp 62-136): the rectangle it returns
and the draw calls it issues. -/
def Line.drawOpponent (l : Line) (playerZ : ℤ) : FloatRect × List DrawCall :=
  match l.hasOpponent, l.opCar.texture with
  | true, some (texW, texH) =>
    let originalWidth : ℚ := if l.opCar.rectWidth > 0 then l.opCar.rectWidth else texW
    let originalHeight : ℚ := if l.opCar.rectHeight > 0 then l.opCar.rectHeight else texH
    if originalWidth ≤ 0 ∨ originalHeight ≤ 0 then (FloatRect.zero, [])
    else
      let dz : ℚ := l.z - playerZ
      if dz ≤ 0 then (FloatRect.zero, [])
      else
        let destW := opponentDestW l.W dz
        let destH := opponentDestH destW originalWidth originalHeight
        let laneStart := -l.W + laneWidth l.W * l.opponentLane
        let laneCenter :=
          laneStart + laneWidth l.W * (1 / 2) + l.opponentOffset * laneWidth l.W * (1 / 4)
        let carX := l.X + laneCenter - destW * (1 / 2)
        let carY := l.Y - destH
        if carY > HEIGHT + 200 ∨ carY + destH < -200 ∨ carX + destW < -200 ∨
            carX > WIDTH + 200 then (FloatRect.zero, [])
        else
          (⟨carX, carY, destW, destH⟩,
            opponentShadow l.Y carX destW dz ++ [DrawCall.sprite carX carY destW destH])
  | _, _ => (FloatRect.zero, [])

/-! ## Scenery placement (main.cpp 141-253) -/

/-- The scale formula of band `k` of `drawScenery` (main.cpp 153-207), bands
numbered from the farthest (`0`: beyond `SEG_LEN * 100`) to the nearest (`10`:
up to `SEG_LEN * 1`). -/
def sceneryBand (k : ℕ) (distance : ℚ) : ℚ :=
  if k = 0 then
    2 / 100 + ((SEG_LEN * 120 : ℤ) - distance) / ((SEG_LEN * 20 : ℤ) : ℚ) * (2 / 100)
  else if k = 1 then
    4 / 100 + ((SEG_LEN * 100 : ℤ) - distance) / ((SEG_LEN * 20 : ℤ) : ℚ) * (2 / 100)
  else if k = 2 then
    6 / 100 + ((SEG_LEN * 80 : ℤ) - distance) / ((SEG_LEN * 20 : ℤ) : ℚ) * (3 / 100)
  else if k = 3 then
    9 / 100 + ((SEG_LEN * 60 : ℤ) - distance) / ((SEG_LEN * 15 : ℤ) : ℚ) * (5 / 100)
  else if k = 4 then
    14 / 100 + ((SEG_LEN * 45 : ℤ) - distance) / ((SEG_LEN * 15 : ℤ) : ℚ) * (8 / 100)
  else if k = 5 then
    22 / 100 + ((SEG_LEN * 30 : ℤ) - distance) / ((SEG_LEN * 10 : ℤ) : ℚ) * (13 / 100)
  else if k = 6 then
    35 / 100 + ((SEG_LEN * 20 : ℤ) - distance) / ((SEG_LEN * 8 : ℤ) : ℚ) * (2 / 10)
  else if k = 7 then
    55 / 100 + ((SEG_LEN * 12 : ℤ) - distance) / ((SEG_LEN * 6 : ℤ) : ℚ) * (3 / 10)
  else if k = 8 then
    85 / 100 + ((SEG_LEN * 6 : ℤ) - distance) / ((SEG_LEN * 3 : ℤ) : ℚ) * (45 / 100)
  else if k = 9 then
    13 / 10 + ((SEG_LEN * 3 : ℤ) - distance) / ((SEG_LEN * 2 : ℤ) : ℚ) * (5 / 10)
  else
    18 / 10 + ((SEG_LEN * 1 : ℤ) - distance) / ((SEG_LEN * 1 : ℤ) : ℚ) * (4 / 10)

/-- The chain of distance tests of `drawScenery` (main.cpp 150-207): `none` when
the object is too far to be drawn, otherwise the scale of the selected band. -/
def sceneryScale (distance : ℚ) : Option ℚ :=
  if distance > ((SEG_LEN * 120 : ℤ) : ℚ) then none
  else if distance > ((SEG_LEN * 100 : ℤ) : ℚ) then some (sceneryBand 0 distance)
  else if distance > ((SEG_LEN * 80 : ℤ) : ℚ) then some (sceneryBand 1 distance)
  else if distance > ((SEG_LEN * 60 : ℤ) : ℚ) then some (sceneryBand 2 distance)
  else if distance > ((SEG_LEN * 45 : ℤ) : ℚ) then some (sceneryBand 3 distance)
  else if distance > ((SEG_LEN * 30 : ℤ) : ℚ) then some (sceneryBand 4 distance)
  else if distance > ((SEG_LEN * 20 : ℤ) : ℚ) then some (sceneryBand 5 distance)
  else if distance > ((SEG_LEN * 12 : ℤ) : ℚ) then some (sceneryBand 6 distance)
  else if distance > ((SEG_LEN * 6 : ℤ) : ℚ) then some (sceneryBand 7 distance)
  else if distance > ((SEG_LEN * 3 : ℤ) : ℚ) then some (sceneryBand 8 distance)
  else if distance > ((SEG_LEN * 1 : ℤ) : ℚ) then some (sceneryBand 9 distance)
  else some (sceneryBand 10 distance)

/-- The far end of band `k`, in world units: the boundary between band `k` and
band `k - 1` (for band `0` the visibility limit `SEG_LEN * 120`). -/
def bandHi : ℕ → ℚ
  | 0 => 24000 | 1 => 20000 | 2 => 16000 | 3 => 12000 | 4 => 9000 | 5 => 6000
  | 6 => 4000 | 7 => 2400 | 8 => 1200 | 9 => 600 | _ => 200

/-- The near end of band `k`, in world units: the boundary between band `k` and
band `k + 1` (for band `10` the distance zero). -/
def bandLo : ℕ → ℚ
  | 0 => 20000 | 1 => 16000 | 2 => 12000 | 3 => 9000 | 4 => 6000 | 5 => 4000
  | 6 => 2400 | 7 => 1200 | 8 => 600 | 9 => 200 | _ => 0

/-- The slope of the scale formula of band `k`: the scale gained per unit of
distance toward the camera (the band's scale span over its distance span). -/
def bandSlope : ℕ → ℚ
  | 0 => 1 / 200000 | 1 => 1 / 200000 | 2 => 3 / 400000 | 3 => 1 / 60000 | 4 => 2 / 75000
  | 5 => 13 / 200000 | 6 => 1 / 8000 | 7 => 1 / 4000 | 8 => 3 / 4000 | 9 => 1 / 800
  | _ => 1 / 500

/-- The side offset of a scenery sprite (main.cpp 224-237). -/
def scenerySideOffset (l : Line) (destW : ℚ) : ℚ :=
  let grassDistance : ℚ := 40 + |l.opponentOffset| * 60
  let treeDistance : ℚ := 60 + |l.opponentOffset| * 80
  if l.sceneryType = 2 then l.W + destW * (1 / 2) + 200
  else if l.sceneryType = 3 then -(l.W + destW * (1 / 2) + grassDistance)
  else if l.sceneryOnLeft then -(l.W + destW * (1 / 2) + treeDistance)
  else l.W + destW * (1 / 2) + treeDistance

/-- The member `Line::drawScenery` (main.cpp 141-253): the draw calls it
issues. -/
def Line.drawScenery (l : Line) (playerZ : ℤ) : List DrawCall :=
  match l.hasScenery, l.scenerySprite.texture with
  | true, some (texW, texH) =>
    let distance : ℚ := |l.z - playerZ|
    match sceneryScale distance with
    | none => []
    | some scale0 =>
      let scale := if l.sceneryType = 3 then scale0 * (6 / 10) else scale0
      let originalWidth : ℚ := texW
      let originalHeight : ℚ := texH
      let destW := originalWidth * scale
      let destH := originalHeight * scale
      let sceneryX := l.X + scenerySideOffset l destW
      let sceneryY := l.Y - destH
      if sceneryY > HEIGHT + 300 ∨ sceneryY + destH < -150 ∨ sceneryX + destW < -300 ∨
          sceneryX > WIDTH + 300 ∨ destW < 3 / 2 then []
      else [DrawCall.sprite sceneryX sceneryY destW destH]
  | _, _ => []

/-! ## Track construction (main.cpp 474-491) -/

/-- The segment array `lines`, indexed as in the source (`lines[i]`, always
with `0 ≤ i < N`). -/
abbrev Track := ℤ → Line

/-- One iteration of the construction loop (main.cpp 479-491) on a fresh
segment.  The elevation `sin((i - 750) * 0.02f) * 800` is not a rational
function of `i`; it is the parameter `hill`. -/
def buildLine (hill : ℤ → ℚ) (i : ℤ) : Line :=
  let line : Line := { Line.init with z := ((i * SEG_LEN : ℤ) : ℚ) }
  let line : Line := if i > 300 ∧ i < 700 then { line with curve := 2 / 10 } else line
  let line : Line := if i > 1100 then { line with curve := -(3 / 10) } else line
  if i > 750 ∧ i < 1000 then { line with y := hill i } else line

/-- The track after the construction loop. -/
def buildTrack (hill : ℤ → ℚ) : Track := fun i => buildLine hill i

/-- The depth of every segment is the one given at construction,
`lines[i].z = i * SEG_LEN`; no later statement of the program assigns `z`. -/
def Track.DepthByIndex (lines : Track) : Prop :=
  ∀ i : ℤ, 0 ≤ i → i < N → (lines i).z = ((i * SEG_LEN : ℤ) : ℚ)

/-! ## Position wrap (main.cpp 728-730) -/

/-- The loop `while (pos >= N * SEG_LEN) pos -= N * SEG_LEN;`. -/
def wrapHigh (pos : ℤ) : ℤ :=
  if pos ≥ N * SEG_LEN then wrapHigh (pos - N * SEG_LEN) else pos
termination_by pos.toNat
decreasing_by simp only [N, SEG_LEN] at *; omega

/-- The loop `while (pos < 0) pos += N * SEG_LEN;`. -/
def wrapLow (pos : ℤ) : ℤ :=
  if pos < 0 then wrapLow (pos + N * SEG_LEN) else pos
termination_by (-pos).toNat
decreasing_by simp only [N, SEG_LEN] at *; omega

/-- The wrap normalisation of the camera position: both loops in sequence. -/
def wrapPos (pos : ℤ) : ℤ := wrapLow (wrapHigh pos)

/-! ## Road loop (main.cpp 763-816) -/

/-- The index of the start segment, `startPos = pos / SEG_LEN`. -/
def startPosOf (pos : ℤ) : ℤ := pos.tdiv SEG_LEN

/-- The third argument of `l.project` in the road loop (main.cpp 772):
`startPos * SEG_LEN - (n >= N ? N * SEG_LEN : 0)`. -/
def roadCamZ (startPos n : ℤ) : ℤ :=
  startPos * SEG_LEN - (if n ≥ N then N * SEG_LEN else 0)

/-- One evaluation of `Line::project` by the road loop: the window index `n`,
the array index `n % N` of the segment, and the three arguments. -/
structure ProjectCall where
  n : ℤ
  index : ℤ
  camX : ℤ
  camY : ℤ
  camZ : ℤ
deriving DecidableEq

/-- The depth delta `z - camZ` that a call of `project` divides by. -/
def ProjectCall.depthDelta (lines : Track) (c : ProjectCall) : ℚ :=
  (lines c.index).z - c.camZ

/-- The calls of `project` issued by `count` iterations of the road loop from
window index `n` on, with the running drift `x`, `dx` (main.cpp 770-774).  The
call is the first statement of the body and is not guarded. -/
def roadProjectCallsFrom (lines : Track) (playerX : ℚ) (startPos camH : ℤ) :
    ℕ → ℤ → ℚ → ℚ → List ProjectCall
  | 0, _, _, _ => []
  | count + 1, n, x, dx =>
    { n := n, index := n.tmod N, camX := truncInt (playerX * ROAD_W / 2 - x),
      camY := camH, camZ := roadCamZ startPos n } ::
      roadProjectCallsFrom lines playerX startPos camH count (n + 1) (x + dx)
        (dx + (lines (n.tmod N)).curve)

/-- The calls of `project` issued by the road loop of one frame
(`for (int n = startPos; n < startPos + 800; n++)`). -/
def roadProjectCalls (lines : Track) (playerX : ℚ) (pos : ℤ) : List ProjectCall :=
  let startPos := startPosOf pos
  let camH := truncInt ((lines startPos).y + 1500)
  roadProjectCallsFrom lines playerX startPos camH 800 startPos 0 0

/-- The quads of one painted segment (main.cpp 783-815): ground (layer 0),
shoulder (layer 1), road (layer 2) and, on light stripes of a wide enough road,
the two lane markings (layer 3).  `p` is the copy of the previous segment and
`l` the current segment. -/
def roadQuads (startPos n : ℤ) (p l : Line) : List DrawCall :=
  if n < startPos + 300 then
    let isDark : Bool := decide ((n.tdiv 3).tmod 2 = 0)
    let laneW1 := p.W * 2 / NUM_LANES
    let laneW2 := l.W * 2 / NUM_LANES
    let laneX1 := p.X - p.W
    let laneX2 := l.X - l.W
    let markingWidth := max 1 (truncInt (p.W * (5 / 1000)))
    [ DrawCall.quad n 0 isDark 0 (truncInt p.Y) WIDTH 0 (truncInt l.Y) WIDTH,
      DrawCall.quad n 1 isDark (truncInt p.X) (truncInt p.Y) (truncInt (p.W * (115 / 100)))
        (truncInt l.X) (truncInt l.Y) (truncInt (l.W * (115 / 100))),
      DrawCall.quad n 2 isDark (truncInt p.X) (truncInt p.Y) (truncInt p.W)
        (truncInt l.X) (truncInt l.Y) (truncInt l.W) ] ++
    (if isDark = false ∧ p.W > 50 then
      [ DrawCall.quad n 3 isDark (truncInt (laneX1 + laneW1 * 1)) (truncInt p.Y) markingWidth
          (truncInt (laneX2 + laneW2 * 1)) (truncInt l.Y) markingWidth,
        DrawCall.quad n 3 isDark (truncInt (laneX1 + laneW1 * 2)) (truncInt p.Y) markingWidth
          (truncInt (laneX2 + laneW2 * 2)) (truncInt l.Y) markingWidth ]
    else [])
  else []

/-- What one iteration of the road loop does after the projection: the value
of the cursor `maxy` it found (stored in `l.clip`), whether the segment passed
the test `l.Y >= maxy` and was painted, and the quads it issued. -/
structure PaintStep where
  n : ℤ
  Y : ℚ
  clip : ℤ
  painted : Bool
  quads : List DrawCall
deriving DecidableEq

/-- The part of the road loop after the projection (main.cpp 776-815), for
`count` iterations from window index `n` on with the cursor `maxy`.  `proj n` is
the content of `lines[n % N]` when the loop reads it: the segment as projected
by iteration `n`. -/
def roadStepsFrom (startPos : ℤ) (proj : ℤ → Line) : ℕ → ℤ → ℤ → List PaintStep
  | 0, _, _ => []
  | count + 1, n, maxy =>
    let l := proj n
    if l.Y ≥ maxy then
      { n := n, Y := l.Y, clip := maxy, painted := false, quads := [] } ::
        roadStepsFrom startPos proj count (n + 1) maxy
    else
      let p := if n > 0 then proj (n - 1) else l
      { n := n, Y := l.Y, clip := maxy, painted := true, quads := roadQuads startPos n p l } ::
        roadStepsFrom startPos proj count (n + 1) (truncInt l.Y)

/-- The road loop of one frame: 800 iterations from `startPos` with the cursor
`maxy = HEIGHT`. -/
def roadSteps (startPos : ℤ) (proj : ℤ → Line) : List PaintStep :=
  roadStepsFrom startPos proj 800 startPos HEIGHT

/-- The quads of the road loop in the order in which they are drawn. -/
def roadDraws (startPos : ℤ) (proj : ℤ → Line) : List DrawCall :=
  ((roadSteps startPos proj).map PaintStep.quads).flatten

/-- The segment that issued a quad (`0` for other draw calls). -/
def DrawCall.seg : DrawCall → ℤ
  | DrawCall.quad seg _ _ _ _ _ _ _ _ => seg
  | _ => 0

/-- The cursor found by an iteration, read off the steps before it: the
truncated `Y` of the most recently painted one, or the entry value `maxy` when
none was painted. -/
def cursorAfter (maxy : ℤ) (before : List PaintStep) : ℤ :=
  match (before.filter fun st => st.painted).getLast? with
  | none => maxy
  | some st => truncInt st.Y

/-- A window of projected segments given by the `Y` of its first two segments;
every other segment lies below the screen (`Y = 800`). -/
def clipProbe (y0 y1 : ℚ) : ℤ → Line :=
  fun n => { Line.init with Y := if n = 0 then y0 else if n = 1 then y1 else 800 }

/-- The window of a frame with the camera at the start of the flat track
(`pos = 0`, `playerX = 0`, `camH = 1500`), as the road loop projects it
(main.cpp 771-772: `l.project(0, camH, 0)` while `x` is still 0, that is for
the window indices up to 300).  The first segment has `z - camZ = 0`: its
projection has no value in exact arithmetic, and in the float arithmetic of the
program its `Y` is `+inf`, which the clip test skips; here it has `Y = HEIGHT`,
which the clip test skips as well. -/
def flatRoadProbe : ℤ → Line := fun n =>
  match (buildTrack (fun _ => 0) n).project 0 1500 0 with
  | some l => l
  | none => { buildTrack (fun _ => 0) n with Y := HEIGHT }

/-! ## Game state and the per-frame update (main.cpp 556-746, 842-861) -/

/-- The scalar game variables of `main` (main.cpp 556-578). -/
structure GameState where
  pos : ℤ
  playerLane : ℤ
  playerX : ℚ
  targetX : ℚ
  score : ℤ
  speed : ℤ
  leftPressed : Bool
  rightPressed : Bool
  boostsLeft : ℤ
  boostTimer : ℤ
  isBoosting : Bool
  isOver : Bool
deriving DecidableEq

/-- The initial values of the game variables (main.cpp 556-578). -/
def GameState.initial : GameState :=
  { pos := 0, playerLane := 1, playerX := 0, targetX := 0, score := 0, speed := 0,
    leftPressed := false, rightPressed := false, boostsLeft := MAX_BOOSTS, boostTimer := 0,
    isBoosting := false, isOver := false }

/-- The assignments to the game variables on reset (main.cpp 594-604). -/
def resetGame (s : GameState) : GameState :=
  { s with
    isOver := false, pos := 0, playerLane := 1, playerX := 0, targetX := 0, score := 0,
    boostsLeft := MAX_BOOSTS, isBoosting := false, boostTimer := 0, leftPressed := false,
    rightPressed := false }

/-- The keys the event loop distinguishes. -/
inductive Key where
  | Y
  | N
  | Space
  | other
deriving DecidableEq

/-- The boost activation (main.cpp 675-682) on a press of the space bar: the
new state, and whether the activation branch ran (`sfxBoost.play()`). -/
def pressBoost (s : GameState) : GameState × Bool :=
  if s.isOver = false then
    if s.boostsLeft > 0 ∧ s.isBoosting = false then
      ({ s with isBoosting := true, boostTimer := 0, boostsLeft := s.boostsLeft - 1 }, true)
    else (s, false)
  else (s, false)

/-- The handling of one `KeyPressed` event (main.cpp 591-682): first the
game-over prompt (`Y` resets, `N` closes the window), then the boost
activation. -/
def keyPressed (key : Key) (s : GameState) : GameState :=
  let s1 := if s.isOver = true ∧ key = Key.Y then resetGame s else s
  if key = Key.Space then (pressBoost s1).1 else s1

/-- What one frame reads from outside the game variables: the state of the
lane keys and the outcome of the frame's collision pass (`collisionPass` on the
rectangles collected while drawing). -/
structure FrameInput where
  leftKeyPressed : Bool
  rightKeyPressed : Bool
  collision : Bool
deriving DecidableEq

/-- The update of the game variables in one frame (main.cpp 685-732 and
855).  Nothing is updated when the game is over. -/
def updateFrame (inp : FrameInput) (s : GameState) : GameState :=
  if s.isOver = true then s
  else
    let goLeft : Bool := inp.leftKeyPressed && !s.leftPressed && decide (s.playerLane > 0)
    let lane1 := if goLeft then s.playerLane - 1 else s.playerLane
    let leftPressed1 := if goLeft then true else s.leftPressed
    let leftPressed2 := if inp.leftKeyPressed = false then false else leftPressed1
    let goRight : Bool :=
      inp.rightKeyPressed && !s.rightPressed && decide (lane1 < NUM_LANES - 1)
    let lane2 := if goRight then lane1 + 1 else lane1
    let rightPressed1 := if goRight then true else s.rightPressed
    let rightPressed2 := if inp.rightKeyPressed = false then false else rightPressed1
    let targetX : ℚ := ((lane2 - 1 : ℤ) : ℚ) * (6 / 10)
    let playerX : ℚ := s.playerX + (targetX - s.playerX) * (15 / 100)
    let speed : ℤ := if s.isBoosting then 400 else 200
    let timer1 : ℤ := if s.isBoosting then s.boostTimer + 1 else s.boostTimer
    let expired : Bool := s.isBoosting && decide (timer1 > 120)
    let isBoosting := if expired then false else s.isBoosting
    let boostTimer := if expired then 0 else timer1
    let pos := wrapPos (s.pos + speed)
    { pos := pos, playerLane := lane2, playerX := playerX, targetX := targetX,
      score := pos.tdiv 100, speed := speed, leftPressed := leftPressed2,
      rightPressed := rightPressed2, boostsLeft := s.boostsLeft, boostTimer := boostTimer,
      isBoosting := isBoosting, isOver := inp.collision }

/-- A frame without input: no lane key held, no collision. -/
def idleFrame : FrameInput :=
  { leftKeyPressed := false, rightKeyPressed := false, collision := false }

/-- The frames of a run, in order. -/
def runFrames : List FrameInput → GameState → GameState
  | [], s => s
  | inp :: rest, s => runFrames rest (updateFrame inp s)

/-- What happens between two states of the game: a key press or a frame. -/
inductive GameEvent where
  | key (k : Key)
  | frame (inp : FrameInput)
deriving DecidableEq

/-- The effect of one event on the game variables. -/
def applyEvent (s : GameState) : GameEvent → GameState
  | GameEvent.key k => keyPressed k s
  | GameEvent.frame inp => updateFrame inp s

/-- The states the game variables can take: those reached from the initial
values by some sequence of events. -/
def Reachable (s : GameState) : Prop :=
  ∃ events : List GameEvent, events.foldl applyEvent GameState.initial = s

/-- The left edge of a traffic sprite of width `destW` (main.cpp 101-104):
`carX = X + laneCenter - destW * 0.5f` with the lane centre nudged by a quarter
lane width times the jitter. -/
def opponentCarX (l : Line) (destW : ℚ) : ℚ :=
  let laneStart := -l.W + laneWidth l.W * l.opponentLane
  let laneCenter :=
    laneStart + laneWidth l.W * (1 / 2) + l.opponentOffset * laneWidth l.W * (1 / 4)
  l.X + laneCenter - destW * (1 / 2)

/-- A projected segment with a traffic occupant in lane 1 with jitter 0.8, one
segment ahead of a player at depth zero (inside the near boost range). -/
def nearCarProbe : Line :=
  { Line.init with
    z := 200, X := 512, Y := 600, W := 600, hasOpponent := true, opponentLane := 1,
    opponentOffset := 8 / 10, opCar := { texture := some (100, 50), rectWidth := 100, rectHeight := 50 } }

/-- A projected segment with a traffic occupant in lane 1 with jitter 0.8, ten
segments ahead of a player at depth zero (beyond the near boost range). -/
def farCarProbe : Line :=
  { Line.init with
    z := 2000, X := 512, Y := 600, W := 600, hasOpponent := true, opponentLane := 1,
    opponentOffset := 8 / 10, opCar := { texture := some (100, 50), rectWidth := 100, rectHeight := 50 } }

/-- The native size of the traffic sprite as `drawOpponent` reads it (main.cpp
67-69): the texture rectangle where it is positive, else the texture size;
`none` without a bound texture. -/
def opponentOriginalSize (sp : Sprite) : Option (ℚ × ℚ) :=
  match sp.texture with
  | none => none
  | some (texW, texH) =>
    some (if sp.rectWidth > 0 then (sp.rectWidth : ℚ) else (texW : ℚ),
      if sp.rectHeight > 0 then (sp.rectHeight : ℚ) else (texH : ℚ))

/-- The cull test of `drawOpponent` (main.cpp 109): the rectangle lies entirely
outside the screen padded by 200 pixels. -/
@[reducible] def opponentCulled (carX carY destW destH : ℚ) : Prop :=
  carY > HEIGHT + 200 ∨ carY + destH < -200 ∨ carX + destW < -200 ∨ carX > WIDTH + 200

/-- One iteration of the placement pass (main.cpp 822-840): the window index,
the draw calls of `drawScenery`, the draw calls of `drawOpponent`, and the pair
pushed on `opponentBounds` / `opponentLanes`, if any. -/
structure PlacementStep where
  n : ℤ
  sceneryDraws : List DrawCall
  opponentDraws : List DrawCall
  collected : Option (FloatRect × ℤ)
deriving DecidableEq

/-- The body of the placement loop (main.cpp 823-839) for window index `n`:
scenery first, then the traffic occupant of the near sub-window, whose returned
rectangle is collected when its width is positive. -/
def placementStep (lines : Track) (pos startPos n : ℤ) : PlacementStep :=
  let l := lines (n.tmod N)
  let sceneryDraws :=
    if l.hasScenery = true ∧ l.Y < HEIGHT + 200 ∧ l.Y > -300 then l.drawScenery pos else []
  if n < startPos + 300 ∧ l.hasOpponent = true ∧ l.Y < HEIGHT ∧ l.Y > -100 then
    let oppBounds := (l.drawOpponent pos).1
    { n := n, sceneryDraws := sceneryDraws, opponentDraws := (l.drawOpponent pos).2,
      collected := if oppBounds.width > 0 then some (oppBounds, l.opponentLane) else none }
  else { n := n, sceneryDraws := sceneryDraws, opponentDraws := [], collected := none }

/-- The placement loop for `count` iterations from window index `n` on. -/
def placementStepsFrom (lines : Track) (pos startPos : ℤ) : ℕ → ℤ → List PlacementStep
  | 0, _ => []
  | count + 1, n =>
    placementStep lines pos startPos n :: placementStepsFrom lines pos startPos count (n + 1)

/-- The placement pass of one frame
(`for (int n = startPos; n < startPos + 800; n++)`). -/
def placementSteps (lines : Track) (pos : ℤ) : List PlacementStep :=
  placementStepsFrom lines pos (startPosOf pos) 800 (startPosOf pos)

/-- The pairs collected for the collision pass, in order. -/
def collectedBounds (lines : Track) (pos : ℤ) : List (FloatRect × ℤ) :=
  (placementSteps lines pos).filterMap PlacementStep.collected

/-- The distance the camera travels in a run of events: every frame of a
running game advances the position by the speed it sets (`pos += speed`); key
presses and frames of a finished game do not move the camera. -/
def distanceTravelled : List GameEvent → GameState → ℤ
  | [], _ => 0
  | GameEvent.key k :: rest, s => distanceTravelled rest (keyPressed k s)
  | GameEvent.frame inp :: rest, s =>
    (if s.isOver = true then 0 else (updateFrame inp s).speed) +
      distanceTravelled rest (updateFrame inp s)

/-! ## Random source and population (main.cpp 328-335, 493-554, 606-665, 734-746) -/

/-- The random source `rng`, as the sequence of values it yields: the `t`-th
value drawn, read as a non-negative integer (`ints`) or as a real (`reals`).
Every sequence is a possible outcome. -/
structure RandomSource where
  ints : ℕ → ℕ
  reals : ℕ → ℚ

/-- A draw of `uniform_int_distribution<int>(lo, hi)`: some value of
`lo..hi`. -/
def distInt (rs : RandomSource) (lo hi : ℤ) (t : ℕ) : ℤ :=
  lo + ((rs.ints t : ℤ) % (hi - lo + 1))

/-- The distribution `dist_lane(0, NUM_LANES - 1)`. -/
def dist_lane (rs : RandomSource) (t : ℕ) : ℤ := distInt rs 0 (NUM_LANES - 1) t

/-- The distribution `dist_car_type(0, 1)`. -/
def dist_car_type (rs : RandomSource) (t : ℕ) : ℤ := distInt rs 0 1 t

/-- The distribution `dist_spawn(0, 100)`. -/
def dist_spawn (rs : RandomSource) (t : ℕ) : ℤ := distInt rs 0 100 t

/-- The distribution `dist_offset(-0.8f, 0.8f)`: some value of `[-0.8, 0.8]`. -/
def dist_offset (rs : RandomSource) (t : ℕ) : ℚ := max (-(8 / 10)) (min (rs.reals t) (8 / 10))

/-- The distribution `dist_side(0, 1)`. -/
def dist_side (rs : RandomSource) (t : ℕ) : ℤ := distInt rs 0 1 t

/-- The distribution `dist_weighted_scenery(0, 9)`. -/
def dist_weighted_scenery (rs : RandomSource) (t : ℕ) : ℤ := distInt rs 0 9 t

/-- The textures the population code binds: the sizes of the two traffic
textures and of the four scenery textures, and the flag
`hasSceneryTextures`. -/
structure Assets where
  opponentTextures : ℤ → ℕ × ℕ
  sceneryTextures : ℤ → ℕ × ℕ
  hasSceneryTextures : Bool

/-- The call `sf::Sprite::setTexture(texture)`: the texture is bound, and the
texture rectangle is set to the size of the texture when the sprite had no
texture and an empty rectangle. -/
def Sprite.setTexture (sp : Sprite) (tex : ℕ × ℕ) : Sprite :=
  if sp.texture = none ∧ sp.rectWidth = 0 ∧ sp.rectHeight = 0 then
    { texture := some tex, rectWidth := tex.1, rectHeight := tex.2 }
  else { sp with texture := some tex }

/-- The statements that put a traffic occupant on a segment (main.cpp 498-504,
614-619, 738-743), with the draws `t`, `t + 1`, `t + 2` of the random source. -/
def placeOpponent (rs : RandomSource) (assets : Assets) (t : ℕ) (line : Line) : Line :=
  { line with
    hasOpponent := true
    opponentLane := dist_lane rs t
    opponentOffset := dist_offset rs (t + 1)
    opCar := line.opCar.setTexture (assets.opponentTextures (dist_car_type rs (t + 2))) }

/-- The traffic scatter loop (main.cpp 494-506, 611-621) from index `i` on with
`opponentCount` occupants placed and `t` values drawn: the track and the number
of values drawn at the end. -/
def scatterTrafficFrom (rs : RandomSource) (assets : Assets) (i opponentCount : ℤ) (t : ℕ)
    (lines : Track) : Track × ℕ :=
  if i < N then
    if opponentCount ≥ 8 then (lines, t)
    else
      scatterTrafficFrom rs assets (i + (150 + (dist_spawn rs (t + 3)).tmod 200))
        (opponentCount + 1) (t + 4) (Function.update lines i (placeOpponent rs assets t (lines i)))
  else (lines, t)
termination_by (N - i).toNat
decreasing_by
  have h1 : 0 ≤ dist_spawn rs (t + 3) := by
    unfold dist_spawn distInt
    have := Int.emod_nonneg (rs.ints (t + 3) : ℤ) (show (100 - 0 + 1 : ℤ) ≠ 0 by norm_num)
    linarith
  have h2 := Int.tmod_nonneg 200 h1
  omega

/-- The weighted choice of the scenery kind and side (main.cpp 516-532) with
the draws from `t` on: the kind, the side, and the number of values drawn. -/
def sceneryChoice (rs : RandomSource) (t : ℕ) : ℤ × Bool × ℕ :=
  let weightedChoice := dist_weighted_scenery rs t
  if weightedChoice < 4 then (0, decide (dist_side rs (t + 1) = 0), t + 2)
  else if weightedChoice < 7 then (1, decide (dist_side rs (t + 1) = 0), t + 2)
  else if weightedChoice < 8 then (2, false, t + 1)
  else (3, true, t + 1)

/-- The statements of the first scenery pass that put a scenery occupant on a
segment (main.cpp 512-537, 627-650).  The last one stores the jitter in
`opponentOffset` ("Reuse this for distance variety"). -/
def placeScenery (rs : RandomSource) (assets : Assets) (t : ℕ) (line : Line) : Line :=
  { line with
    hasScenery := true
    sceneryType := (sceneryChoice rs t).1
    sceneryOnLeft := (sceneryChoice rs t).2.1
    scenerySprite :=
      line.scenerySprite.setTexture (assets.sceneryTextures (sceneryChoice rs t).1)
    opponentOffset := dist_offset rs (sceneryChoice rs t).2.2 }

/-- The body of the first scenery pass (main.cpp 511-538, 626-651) at index
`i`: with the draw `t` the chance `dist_spawn(rng) % 100 < 75`, then the
placement.  The track and the number of values drawn after the body. -/
def sceneryBody (rs : RandomSource) (assets : Assets) (i : ℤ) (t : ℕ)
    (lines : Track) : Track × ℕ :=
  if (dist_spawn rs t).tmod 100 < 75 then
    (Function.update lines i (placeScenery rs assets (t + 1) (lines i)),
      (sceneryChoice rs (t + 1)).2.2 + 1)
  else (lines, t + 1)

/-- The first scenery pass (main.cpp 510-539, 625-652) from index `i` on:
`for (...; i < N; i += 20 + dist_spawn(rng) % 40)`. -/
def scatterSceneryFrom (rs : RandomSource) (assets : Assets) (i : ℤ) (t : ℕ)
    (lines : Track) : Track × ℕ :=
  if i < N then
    scatterSceneryFrom rs assets
      (i + (20 + (dist_spawn rs (sceneryBody rs assets i t lines).2).tmod 40))
      ((sceneryBody rs assets i t lines).2 + 1) (sceneryBody rs assets i t lines).1
  else (lines, t)
termination_by (N - i).toNat
decreasing_by
  have h1 : 0 ≤ dist_spawn rs (sceneryBody rs assets i t lines).2 := by
    unfold dist_spawn distInt
    have := Int.emod_nonneg (rs.ints (sceneryBody rs assets i t lines).2 : ℤ)
      (show (100 - 0 + 1 : ℤ) ≠ 0 by norm_num)
    linarith
  have h2 := Int.tmod_nonneg 40 h1
  omega

/-- The statements of the second scenery pass that put a palm on a segment
(main.cpp 544-551, 657-662), with the draws `t`, `t + 1`, `t + 2`. -/
def placePalm (rs : RandomSource) (assets : Assets) (t : ℕ) (line : Line) : Line :=
  { line with
    hasScenery := true
    sceneryType := if (dist_spawn rs t).tmod 2 = 0 then 0 else 1
    sceneryOnLeft := decide (dist_side rs (t + 1) = 0)
    scenerySprite :=
      line.scenerySprite.setTexture
        (assets.sceneryTextures (if (dist_spawn rs t).tmod 2 = 0 then 0 else 1))
    opponentOffset := dist_offset rs (t + 2) }

/-- The body of the second scenery pass (main.cpp 543-552, 656-663) at index
`i`: with the draw `t` the chance `dist_spawn(rng) % 100 < 40`, on a segment
without scenery, then the placement. -/
def palmBody (rs : RandomSource) (assets : Assets) (i : ℤ) (t : ℕ)
    (lines : Track) : Track × ℕ :=
  if (dist_spawn rs t).tmod 100 < 40 ∧ (lines i).hasScenery = false then
    (Function.update lines i (placePalm rs assets (t + 1) (lines i)), t + 4)
  else (lines, t + 1)

/-- The second scenery pass (main.cpp 542-553, 655-664) from index `i` on:
`for (...; i < N; i += 35 + dist_spawn(rng) % 25)`. -/
def scatterPalmsFrom (rs : RandomSource) (assets : Assets) (i : ℤ) (t : ℕ)
    (lines : Track) : Track × ℕ :=
  if i < N then
    scatterPalmsFrom rs assets
      (i + (35 + (dist_spawn rs (palmBody rs assets i t lines).2).tmod 25))
      ((palmBody rs assets i t lines).2 + 1) (palmBody rs assets i t lines).1
  else (lines, t)
termination_by (N - i).toNat
decreasing_by
  have h1 : 0 ≤ dist_spawn rs (palmBody rs assets i t lines).2 := by
    unfold dist_spawn distInt
    have := Int.emod_nonneg (rs.ints (palmBody rs assets i t lines).2 : ℤ)
      (show (100 - 0 + 1 : ℤ) ≠ 0 by norm_num)
    linarith
  have h2 := Int.tmod_nonneg 25 h1
  omega

/-- The population of the track (main.cpp 493-554, 611-665): the traffic
scatter, then the two scenery passes when the scenery textures are loaded. -/
def populate (rs : RandomSource) (assets : Assets) (t : ℕ) (lines : Track) : Track × ℕ :=
  let r1 := scatterTrafficFrom rs assets 400 0 t lines
  if assets.hasSceneryTextures = true then
    let r2 := scatterSceneryFrom rs assets 100 r1.2 r1.1
    scatterPalmsFrom rs assets 50 r2.2 r2.1
  else r1

/-- The loop that clears the occupants on reset (main.cpp 607-610). -/
def clearOccupants (lines : Track) : Track :=
  fun i => { lines i with hasOpponent := false, hasScenery := false }

/-- The body of the live injection loop (main.cpp 737-744) at index `i`: on an
index inside the array without traffic, with the draw `t` the chance
`dist_spawn(rng) % 100 < 30` (not drawn otherwise), then the placement. -/
def injectBody (rs : RandomSource) (assets : Assets) (i : ℤ) (t : ℕ)
    (lines : Track) : Track × ℕ :=
  if i < N ∧ (lines (i.tmod N)).hasOpponent = false then
    if (dist_spawn rs t).tmod 100 < 30 then
      (Function.update lines (i.tmod N) (placeOpponent rs assets (t + 1) (lines (i.tmod N))),
        t + 4)
    else (lines, t + 1)
  else (lines, t)

/-- The live injection loop (main.cpp 736-745) from index `i` on, up to
`bound = pos / SEG_LEN + 700`: `for (...; i < bound; i += 100 + dist_spawn(rng) % 150)`. -/
def injectTrafficFrom (rs : RandomSource) (assets : Assets) (bound i : ℤ) (t : ℕ)
    (lines : Track) : Track × ℕ :=
  if i < bound then
    injectTrafficFrom rs assets bound
      (i + (100 + (dist_spawn rs (injectBody rs assets i t lines).2).tmod 150))
      ((injectBody rs assets i t lines).2 + 1) (injectBody rs assets i t lines).1
  else (lines, t)
termination_by (bound - i).toNat
decreasing_by
  have h1 : 0 ≤ dist_spawn rs (injectBody rs assets i t lines).2 := by
    unfold dist_spawn distInt
    have := Int.emod_nonneg (rs.ints (injectBody rs assets i t lines).2 : ℤ)
      (show (100 - 0 + 1 : ℤ) ≠ 0 by norm_num)
    linarith
  have h2 := Int.tmod_nonneg 150 h1
  omega

/-- The live injection of traffic (main.cpp 735-746), after the position and
score update of the frame. -/
def injectTraffic (rs : RandomSource) (assets : Assets) (pos score : ℤ) (t : ℕ)
    (lines : Track) : Track × ℕ :=
  if score > 50 ∧ score.tmod 100 = 0 then
    injectTrafficFrom rs assets (pos.tdiv SEG_LEN + 700) (pos.tdiv SEG_LEN + 500) t lines
  else (lines, t)

/-! ## The game with its track -/

/-- The values the road loop of a frame writes into a segment: the projection
fields and the clip value (main.cpp 56-59, 776). -/
structure ProjectionCache where
  X : ℚ
  Y : ℚ
  W : ℚ
  clip : ℚ
  scale : ℚ

/-- A segment with its projection fields overwritten. -/
def Line.withCache (l : Line) (c : ProjectionCache) : Line :=
  { l with X := c.X, Y := c.Y, W := c.W, clip := c.clip, scale := c.scale }

/-- The state of the program between events: the game variables, the segment
array, and the number of values drawn from the random source so far. -/
structure World where
  game : GameState
  lines : Track
  drawn : ℕ

/-- The state when the main loop is entered: the constructed and populated
track and the initial game variables. -/
def World.initial (rs : RandomSource) (assets : Assets) (hill : ℤ → ℚ) : World :=
  { game := GameState.initial
    lines := (populate rs assets 0 (buildTrack hill)).1
    drawn := (populate rs assets 0 (buildTrack hill)).2 }

/-- The handling of one `KeyPressed` event on the whole state (main.cpp
591-682): an accepted `Y` also clears and repopulates the track. -/
def worldKey (rs : RandomSource) (assets : Assets) (key : Key) (w : World) : World :=
  if w.game.isOver = true ∧ key = Key.Y then
    { game := keyPressed key w.game
      lines := (populate rs assets w.drawn (clearOccupants w.lines)).1
      drawn := (populate rs assets w.drawn (clearOccupants w.lines)).2 }
  else { w with game := keyPressed key w.game }

/-- One frame on the whole state (main.cpp 685-861): the update of the game
variables, the live injection of traffic, and the projection fields written by
the road loop, which are the input `cache` (every value is allowed). -/
def worldFrame (rs : RandomSource) (assets : Assets) (inp : FrameInput)
    (cache : ℤ → ProjectionCache) (w : World) : World :=
  if w.game.isOver = true then w
  else
    { game := updateFrame inp w.game
      lines := fun i =>
        ((injectTraffic rs assets (updateFrame inp w.game).pos (updateFrame inp w.game).score
          w.drawn w.lines).1 i).withCache (cache i)
      drawn := (injectTraffic rs assets (updateFrame inp w.game).pos
        (updateFrame inp w.game).score w.drawn w.lines).2 }

/-- What happens between two states of the program. -/
inductive WorldEvent where
  | key (k : Key)
  | frame (inp : FrameInput) (cache : ℤ → ProjectionCache)

/-- The effect of one event on the whole state. -/
def applyWorldEvent (rs : RandomSource) (assets : Assets) (w : World) : WorldEvent → World
  | WorldEvent.key k => worldKey rs assets k w
  | WorldEvent.frame inp cache => worldFrame rs assets inp cache w

/-- The states the program can reach with a given random source, textures and
elevation table. -/
def WorldReachable (rs : RandomSource) (assets : Assets) (hill : ℤ → ℚ) (w : World) : Prop :=
  ∃ events : List WorldEvent,
    events.foldl (applyWorldEvent rs assets) (World.initial rs assets hill) = w

/-- The number of segments of the array that carry a traffic occupant. -/
def trafficCount (lines : Track) : ℕ :=
  (Finset.filter (fun i : ℕ => (lines (i : ℤ)).hasOpponent = true) (Finset.range N)).card

/-- The number of segments of the array that carry a scenery occupant. -/
def sceneryCount (lines : Track) : ℕ :=
  (Finset.filter (fun i : ℕ => (lines (i : ℤ)).hasScenery = true) (Finset.range N)).card

/-- A random source whose every integer draw is 80 (and every real draw 0):
every placement chance `dist_spawn(rng) % 100 < 75` or `< 40` fails. -/
def unluckySource : RandomSource := { ints := fun _ => 80, reals := fun _ => 0 }

/-- Textures of some size for every kind, scenery textures loaded. -/
def sampleAssets : Assets :=
  { opponentTextures := fun _ => (100, 50), sceneryTextures := fun _ => (400, 200),
    hasSceneryTextures := true }

/-- A segment carries no traffic occupant, or one with a lane in `0..2` and a
jitter in `[-0.8, 0.8]`. -/
def TrafficInRange (l : Line) : Prop :=
  l.hasOpponent = true →
    (0 ≤ l.opponentLane ∧ l.opponentLane ≤ 2) ∧
    -(8 / 10) ≤ l.opponentOffset ∧ l.opponentOffset ≤ 8 / 10

/-- The relation between a segment after and before a scenery placement: the
occupant flag, the lane, the traffic sprite and the depth are the same, and
traffic in range stays in range. -/
def KeepsTraffic (a b : Line) : Prop :=
  a.hasOpponent = b.hasOpponent ∧ a.opponentLane = b.opponentLane ∧ a.opCar = b.opCar ∧
  a.z = b.z ∧ (TrafficInRange b → TrafficInRange a)

/-- A random source whose every real draw is below the range of `dist_offset`
(so every jitter drawn is -0.8) and whose every integer draw is 0. -/
def leftSource : RandomSource := { ints := fun _ => 0, reals := fun _ => -1 }

/-- A projected segment with a traffic occupant in lane 1 with jitter 0.8, ten
segments ahead of a player at depth zero, low enough on the screen to reach the
player rectangle. -/
def crossingCarProbe : Line :=
  { Line.init with
    z := 2000, X := 512, Y := 700, W := 600, hasOpponent := true, opponentLane := 1,
    opponentOffset := 8 / 10, opCar := { texture := some (100, 50), rectWidth := 100, rectHeight := 50 } }

/-- The segment `crossingCarProbe` after a scenery placement with `leftSource`. -/
def sceneryOnCarProbe : Line := placeScenery leftSource sampleAssets 0 crossingCarProbe


/-- What holds of the program state between events: traffic occupants sit at
indices `400..N-1`, every segment has its construction depth, and the position
is a whole number of segments inside one lap. -/
def World.Inv (w : World) : Prop :=
  (∀ j, (w.lines j).hasOpponent = true → 400 ≤ j ∧ j < N) ∧
  w.lines.DepthByIndex ∧
  0 ≤ w.game.pos ∧ w.game.pos < N * SEG_LEN ∧ w.game.pos % SEG_LEN = 0

/-- A constructed flat track with one scenery occupant, placed on segment 100
by the statements of the first scenery pass. -/
def seamProbeTrack : Track :=
  Function.update (buildTrack fun _ => 0) 100
    (placeScenery leftSource sampleAssets 0 (buildTrack (fun _ => 0) 100))

/-- A flat segment ten segments ahead of a camera at depth zero and height
1500, as projected by `Line.project` (`X = 512`, `Y = 625.92`, `W = 537.6`),
with a grass occupant of jitter 0 and a 400 x 200 texture. -/
def grassProbe : Line :=
  { Line.init with
    z := 2000, X := 512, Y := 15648 / 25, W := 2688 / 5, hasScenery := true, sceneryType := 3,
    sceneryOnLeft := true, opponentOffset := 0,
    scenerySprite := { texture := some (400, 200), rectWidth := 400, rectHeight := 200 } }

/-! # Properties

## Lemmas on rectangles and the collision loop -/

/-- Two open intervals share a point exactly when the larger left end is below
the smaller right end. -/
lemma exists_between_iff (a b c d : ℚ) :
    max a c < min b d ↔ ∃ p : ℚ, a < p ∧ p < b ∧ c < p ∧ p < d := by
  constructor
  · intro h
    obtain ⟨p, hp1, hp2⟩ := exists_between h
    exact ⟨p, lt_of_le_of_lt (le_max_left a c) hp1, lt_of_lt_of_le hp2 (min_le_left b d),
      lt_of_le_of_lt (le_max_right a c) hp1, lt_of_lt_of_le hp2 (min_le_right b d)⟩
  · rintro ⟨p, h1, h2, h3, h4⟩
    exact lt_trans (max_lt h1 h3) (lt_min h2 h4)

/-- The library test agrees with overlap in a region of positive area. -/
lemma intersects_iff_overlaps (r1 r2 : FloatRect) :
    r1.intersects r2 = true ↔ r1.Overlaps r2 := by
  unfold FloatRect.intersects FloatRect.Overlaps FloatRect.StrictlyInside
  simp only [Bool.and_eq_true, decide_eq_true_eq]
  rw [exists_between_iff, exists_between_iff]
  constructor
  · rintro ⟨⟨px, h1, h2, h3, h4⟩, ⟨py, h5, h6, h7, h8⟩⟩
    exact ⟨px, py, ⟨h1, h2, h5, h6⟩, ⟨h3, h4, h7, h8⟩⟩
  · rintro ⟨px, py, ⟨h1, h2, h5, h6⟩, ⟨h3, h4, h7, h8⟩⟩
    exact ⟨⟨px, h1, h2, h3, h4⟩, ⟨py, h5, h6, h7, h8⟩⟩

/-- The loop either passes over every pair and returns its argument, or stops
at a pair in the player's lane that intersects the player rectangle, having
signalled once. -/
lemma collisionLoop_signals (playerLane : ℤ) (pRect : FloatRect)
    (collected : List (FloatRect × ℤ)) (acc : CollisionResult) :
    (collisionLoop playerLane pRect collected acc = acc ∧
      ∀ p ∈ collected, ¬ (p.2 = playerLane ∧ pRect.intersects p.1 = true)) ∨
    (collisionLoop playerLane pRect collected acc =
        { isOver := true, signals := acc.signals + 1 } ∧
      ∃ p ∈ collected, p.2 = playerLane ∧ pRect.intersects p.1 = true) := by
  induction collected with
  | nil => left; simp [collisionLoop]
  | cons hd tl ih =>
    obtain ⟨r, lane⟩ := hd
    by_cases hl : lane = playerLane
    · by_cases hi : pRect.intersects r = true
      · right
        refine ⟨by simp [collisionLoop, hl, hi], (r, lane), by simp, hl, hi⟩
      · rcases ih with ⟨h1, h2⟩ | ⟨h1, p, hp, h2⟩
        · left
          refine ⟨by simp [collisionLoop, hl, hi, h1], ?_⟩
          intro p hp
          rcases List.mem_cons.mp hp with rfl | hp
          · exact fun h => hi h.2
          · exact h2 p hp
        · right
          exact ⟨by simp [collisionLoop, hl, hi, h1], p, List.mem_cons_of_mem _ hp, h2⟩
    · rcases ih with ⟨h1, h2⟩ | ⟨h1, p, hp, h2⟩
      · left
        refine ⟨by simp [collisionLoop, hl, h1], ?_⟩
        intro p hp
        rcases List.mem_cons.mp hp with rfl | hp
        · exact fun h => hl h.1
        · exact h2 p hp
      · right
        exact ⟨by simp [collisionLoop, hl, h1], p, List.mem_cons_of_mem _ hp, h2⟩

/-! ## Collision pass -/

/-- C1: the collision pass sets the game-over flag exactly when some collected
rectangle is tagged with the player's lane and overlaps the player rectangle in
a region of positive area; a list whose rectangles all carry another lane never
sets it; and the hit branch runs at most once per frame (once exactly when the
flag is set). -/
theorem collisionPass_iff (playerLane : ℤ) (pRect : FloatRect)
    (collected : List (FloatRect × ℤ)) :
    ((collisionPass playerLane pRect collected).isOver = true ↔
      ∃ p ∈ collected, p.2 = playerLane ∧ pRect.Overlaps p.1) ∧
    ((∀ p ∈ collected, p.2 ≠ playerLane) →
      (collisionPass playerLane pRect collected).isOver = false) ∧
    (collisionPass playerLane pRect collected).signals ≤ 1 ∧
    ((collisionPass playerLane pRect collected).signals = 1 ↔
      (collisionPass playerLane pRect collected).isOver = true) := by
  unfold collisionPass
  rcases collisionLoop_signals playerLane pRect collected
    { isOver := false, signals := 0 } with ⟨h1, h2⟩ | ⟨h1, p, hp, h2, h3⟩
  · rw [h1]
    refine ⟨⟨by simp, ?_⟩, fun _ => rfl, by simp, by simp⟩
    rintro ⟨p, hp, hl, ho⟩
    exact absurd ⟨hl, (intersects_iff_overlaps _ _).mpr ho⟩ (h2 p hp)
  · rw [h1]
    refine ⟨⟨fun _ => ⟨p, hp, h2, (intersects_iff_overlaps _ _).mp h3⟩, fun _ => rfl⟩,
      fun h => absurd h2 (h p hp), by simp, by simp⟩

/-- C1 on the scenario of the specification: the player in lane 1 at the
centre of the road, one collected rectangle that overlaps the player rectangle.
Tagged with lane 0 it sets nothing; tagged with lane 1 it sets the flag. -/
theorem collisionPass_iff_witness :
    (collisionPass 1 (playerRect 0) [(⟨500, 600, 100, 80⟩, 0)]).isOver = false ∧
    (collisionPass 1 (playerRect 0) [(⟨500, 600, 100, 80⟩, 1)]).isOver = true :=
  ⟨(collisionPass_iff 1 (playerRect 0) [(⟨500, 600, 100, 80⟩, 0)]).2.1
      (by intro p hp; rw [List.mem_singleton.mp hp]; decide),
    (collisionPass_iff 1 (playerRect 0) [(⟨500, 600, 100, 80⟩, 1)]).1.mpr
      ⟨(⟨500, 600, 100, 80⟩, 1), List.mem_singleton.mpr rfl, rfl,
        ⟨550, 650, by norm_num [FloatRect.StrictlyInside, playerRect, WIDTH, HEIGHT],
          by norm_num [FloatRect.StrictlyInside]⟩⟩⟩

/-! ### Projection -/

/-- A projected segment exists when the depth delta is not zero. -/
lemma project_eq_some (l : Line) (camX camY camZ : ℤ) (h : l.z - camZ ≠ 0) :
    l.project camX camY camZ = some { l with
      scale := CAM_D / (l.z - camZ)
      X := (1 + CAM_D / (l.z - camZ) * (l.x - camX)) * WIDTH / 2
      Y := (1 - CAM_D / (l.z - camZ) * (l.y - camY)) * HEIGHT / 2
      W := CAM_D / (l.z - camZ) * ROAD_W * WIDTH / 2 } := by
  simp [Line.project, h]

/-- The projection has no value exactly when the depth delta is zero. -/
lemma project_eq_none_iff (l : Line) (camX camY camZ : ℤ) :
    l.project camX camY camZ = none ↔ l.z - camZ = 0 := by
  unfold Line.project
  split_ifs with h <;> simp [h]

/-- C2: for a segment in front of the camera (`z > camZ`) the projection is
defined and its scale `CAM_D / (z - camZ)` is strictly positive, the half-width
is `W = scale * ROAD_W * WIDTH / 2`, and of two segments in front of the camera
the one with the larger depth delta has the strictly smaller half-width. -/
theorem project_scale_pos_W_decreasing (l1 l2 : Line) (camX1 camY1 camZ1 camX2 camY2 camZ2 : ℤ)
    (h1 : (camZ1 : ℚ) < l1.z) (h12 : l1.z - camZ1 < l2.z - camZ2) :
    ∃ p1 p2 : Line,
      l1.project camX1 camY1 camZ1 = some p1 ∧ l2.project camX2 camY2 camZ2 = some p2 ∧
      p1.scale = CAM_D / (l1.z - camZ1) ∧ p2.scale = CAM_D / (l2.z - camZ2) ∧
      0 < p1.scale ∧ 0 < p2.scale ∧
      p1.W = p1.scale * ROAD_W * WIDTH / 2 ∧ p2.W = p2.scale * ROAD_W * WIDTH / 2 ∧
      0 < p2.W ∧ p2.W < p1.W := by
  have d1 : 0 < l1.z - camZ1 := by linarith
  have d2 : 0 < l2.z - camZ2 := by linarith
  have hc : (0 : ℚ) < CAM_D := by norm_num [CAM_D]
  have s1 : 0 < CAM_D / (l1.z - camZ1) := div_pos hc d1
  have s2 : 0 < CAM_D / (l2.z - camZ2) := div_pos hc d2
  have s12 : CAM_D / (l2.z - camZ2) < CAM_D / (l1.z - camZ1) :=
    div_lt_div_of_pos_left hc d1 h12
  refine ⟨_, _, project_eq_some l1 camX1 camY1 camZ1 (ne_of_gt d1),
    project_eq_some l2 camX2 camY2 camZ2 (ne_of_gt d2), rfl, rfl, s1, s2, rfl, rfl, ?_, ?_⟩
  · simp only [ROAD_W, WIDTH]
    push_cast
    linarith
  · simp only [ROAD_W, WIDTH]
    push_cast
    linarith

/-- C2 at a segment 2000 units and a segment 4000 units ahead of a camera at
depth zero. -/
theorem project_scale_pos_W_decreasing_witness :
    ∃ p1 p2 : Line,
      ({ Line.init with z := 2000 } : Line).project 0 1500 0 = some p1 ∧
      ({ Line.init with z := 4000 } : Line).project 0 1500 0 = some p2 ∧
      p1.scale = CAM_D / (({ Line.init with z := 2000 } : Line).z - (0 : ℤ)) ∧
      p2.scale = CAM_D / (({ Line.init with z := 4000 } : Line).z - (0 : ℤ)) ∧
      0 < p1.scale ∧ 0 < p2.scale ∧
      p1.W = p1.scale * ROAD_W * WIDTH / 2 ∧ p2.W = p2.scale * ROAD_W * WIDTH / 2 ∧
      0 < p2.W ∧ p2.W < p1.W :=
  project_scale_pos_W_decreasing { Line.init with z := 2000 } { Line.init with z := 4000 }
    0 1500 0 0 1500 0 (by norm_num) (by norm_num)

/-! ### Position wrap and the depth delta of the road loop -/

/-- The first wrap loop leaves a position below the track length unchanged. -/
lemma wrapHigh_of_lt (pos : ℤ) (h : pos < N * SEG_LEN) : wrapHigh pos = pos := by
  rw [wrapHigh, if_neg (not_le.mpr h)]

/-- The second wrap loop leaves a non-negative position unchanged. -/
lemma wrapLow_of_nonneg (pos : ℤ) (h : 0 ≤ pos) : wrapLow pos = pos := by
  rw [wrapLow, if_neg (not_lt.mpr h)]

/-- One full lap above the range is taken back by the first wrap loop. -/
lemma wrapPos_add_lap (pos : ℤ) (h0 : 0 ≤ pos) (h1 : pos < N * SEG_LEN) :
    wrapPos (pos + N * SEG_LEN) = pos := by
  unfold wrapPos
  rw [wrapHigh, if_pos (by linarith), add_sub_cancel_right, wrapHigh_of_lt pos h1,
    wrapLow_of_nonneg pos h0]

/-- The wrap normalisation leaves a position inside the range unchanged. -/
lemma wrapPos_of_range (pos : ℤ) (h0 : 0 ≤ pos) (h1 : pos < N * SEG_LEN) :
    wrapPos pos = pos := by
  unfold wrapPos
  rw [wrapHigh_of_lt pos h1, wrapLow_of_nonneg pos h0]

/-- The start segment of a position inside the range is a valid index. -/
lemma startPosOf_range (pos : ℤ) (h0 : 0 ≤ pos) (h1 : pos < N * SEG_LEN) :
    0 ≤ startPosOf pos ∧ startPosOf pos < N := by
  unfold startPosOf
  simp only [N, SEG_LEN] at *
  rw [Int.tdiv_eq_ediv h0 (by norm_num)]
  omega

/-- The depth delta of window index `n`: the segment `lines[n % N]` lies
`(n - startPos) * SEG_LEN` beyond the depth passed to `project`, before and
after the end of the array. -/
lemma depth_delta_window (lines : Track) (hz : lines.DepthByIndex) (startPos n : ℤ)
    (hs0 : 0 ≤ startPos) (hs1 : startPos < N) (hn0 : startPos ≤ n) (hn1 : n < startPos + 800) :
    (lines (n.tmod N)).z - roadCamZ startPos n = (((n - startPos) * SEG_LEN : ℤ) : ℚ) := by
  have hn : 0 ≤ n := le_trans hs0 hn0
  rw [Int.tmod_eq_emod hn (by norm_num [N])]
  have hm0 : 0 ≤ n % (N : ℤ) := Int.emod_nonneg _ (by norm_num [N])
  have hm1 : n % (N : ℤ) < N := Int.emod_lt_of_pos _ (by norm_num [N])
  rw [hz _ hm0 hm1]
  unfold roadCamZ
  simp only [N, SEG_LEN] at *
  by_cases hN : n ≥ (1600 : ℕ)
  · rw [if_pos hN]
    have : n % ((1600 : ℕ) : ℤ) = n - 1600 := by omega
    rw [this]; push_cast; ring
  · rw [if_neg hN]
    have : n % ((1600 : ℕ) : ℤ) = n := by omega
    rw [this]; push_cast; ring

/-- C3: for a camera position inside the track, adding the full track length
and applying the wrap normalisation gives the position back, hence the same
start segment and the same calls of `project`; and for every window index `n`
of the road loop the depth delta `lines[n % N].z - camZ` is
`(n - startPos) * SEG_LEN`, whether or not `n` has passed the end of the
array. -/
theorem track_wrap_round_trip (lines : Track) (hz : lines.DepthByIndex) (pos : ℤ)
    (h0 : 0 ≤ pos) (h1 : pos < N * SEG_LEN) :
    wrapPos (pos + N * SEG_LEN) = pos ∧
    startPosOf (wrapPos (pos + N * SEG_LEN)) = startPosOf pos ∧
    (∀ playerX : ℚ, roadProjectCalls lines playerX (wrapPos (pos + N * SEG_LEN)) =
      roadProjectCalls lines playerX pos) ∧
    ∀ n : ℤ, startPosOf pos ≤ n → n < startPosOf pos + 800 →
      (lines (n.tmod N)).z - roadCamZ (startPosOf pos) n =
        (((n - startPosOf pos) * SEG_LEN : ℤ) : ℚ) := by
  have hw := wrapPos_add_lap pos h0 h1
  obtain ⟨hs0, hs1⟩ := startPosOf_range pos h0 h1
  refine ⟨hw, by rw [hw], fun playerX => by rw [hw], ?_⟩
  intro n hn0 hn1
  exact depth_delta_window lines hz (startPosOf pos) n hs0 hs1 hn0 hn1

/-- The constructed track has depth `i * SEG_LEN` at index `i`. -/
lemma buildTrack_depthByIndex (hill : ℤ → ℚ) : (buildTrack hill).DepthByIndex := by
  intro i _ _
  unfold buildTrack buildLine
  simp only
  split_ifs <;> rfl

/-- C3 on the constructed track, for the camera in the last segment (position
319800, start segment 1599) and the window index 1600 just past the end of the
array. -/
theorem track_wrap_round_trip_witness :
    wrapPos (319800 + N * SEG_LEN) = 319800 ∧
    startPosOf (wrapPos (319800 + N * SEG_LEN)) = startPosOf 319800 ∧
    (∀ playerX : ℚ,
      roadProjectCalls (buildTrack fun _ => 0) playerX (wrapPos (319800 + N * SEG_LEN)) =
        roadProjectCalls (buildTrack fun _ => 0) playerX 319800) ∧
    ∀ n : ℤ, startPosOf 319800 ≤ n → n < startPosOf 319800 + 800 →
      ((buildTrack fun _ => 0) (n.tmod N)).z - roadCamZ (startPosOf 319800) n =
        (((n - startPosOf 319800) * SEG_LEN : ℤ) : ℚ) :=
  track_wrap_round_trip (buildTrack fun _ => 0) (buildTrack_depthByIndex _) 319800
    (by norm_num) (by norm_num [N, SEG_LEN])

/-! ### The calls of `project` in the road loop -/

/-- The `k`-th call issued by the loop from window index `n` on is the call
for window index `n + k`. -/
lemma roadProjectCallsFrom_get (lines : Track) (playerX : ℚ) (startPos camH : ℤ) :
    ∀ (count : ℕ) (n : ℤ) (x dx : ℚ) (k : ℕ), k < count →
      ∃ c : ProjectCall,
        (roadProjectCallsFrom lines playerX startPos camH count n x dx)[k]? = some c ∧
        c.n = n + k ∧ c.index = (n + k).tmod N ∧ c.camY = camH ∧
        c.camZ = roadCamZ startPos (n + k) := by
  intro count
  induction count with
  | zero => intro n x dx k hk; omega
  | succ count ih =>
    intro n x dx k hk
    cases k with
    | zero =>
      exact ⟨⟨n, n.tmod N, truncInt (playerX * ROAD_W / 2 - x), camH, roadCamZ startPos n⟩,
        by simp [roadProjectCallsFrom], by simp, by simp, rfl, by simp⟩
    | succ k =>
      obtain ⟨c, hc, h1, h2, h3, h4⟩ :=
        ih (n + 1) (x + dx) (dx + (lines (n.tmod N)).curve) k (by omega)
      refine ⟨c, by simpa [roadProjectCallsFrom] using hc, ?_, ?_, h3, ?_⟩
      · rw [h1]; push_cast; ring
      · rw [h2]; congr 1; push_cast; ring
      · rw [h4]; congr 1; push_cast; ring

/-- The loop issues one call per iteration. -/
lemma roadProjectCallsFrom_length (lines : Track) (playerX : ℚ) (startPos camH : ℤ) :
    ∀ (count : ℕ) (n : ℤ) (x dx : ℚ),
      (roadProjectCallsFrom lines playerX startPos camH count n x dx).length = count := by
  intro count
  induction count with
  | zero => intro n x dx; rfl
  | succ count ih => intro n x dx; simp [roadProjectCallsFrom, ih]

/-- The calls of `project` of one frame: one per window index, the call for
window offset `k` with depth delta `k * SEG_LEN`. -/
lemma roadProjectCalls_depthDelta (lines : Track) (hz : lines.DepthByIndex) (playerX : ℚ)
    (pos : ℤ) (h0 : 0 ≤ pos) (h1 : pos < N * SEG_LEN) :
    (roadProjectCalls lines playerX pos).length = 800 ∧
    ∀ k : ℕ, k < 800 →
      ∃ c : ProjectCall,
        (roadProjectCalls lines playerX pos)[k]? = some c ∧
        c.n = startPosOf pos + k ∧ c.index = (startPosOf pos + k).tmod N ∧
        c.depthDelta lines = (((k : ℤ) * SEG_LEN : ℤ) : ℚ) ∧
        (c.depthDelta lines = 0 ↔ k = 0) ∧
        (k ≠ 0 → 0 < c.depthDelta lines) ∧
        ((lines c.index).project c.camX c.camY c.camZ = none ↔ k = 0) := by
  obtain ⟨hs0, hs1⟩ := startPosOf_range pos h0 h1
  refine ⟨roadProjectCallsFrom_length _ _ _ _ _ _ _ _, ?_⟩
  intro k hk
  obtain ⟨c, hc, hn, hi, _, hcz⟩ :=
    roadProjectCallsFrom_get lines playerX (startPosOf pos)
      (truncInt ((lines (startPosOf pos)).y + 1500)) 800 (startPosOf pos) 0 0 k hk
  have hd : c.depthDelta lines = (((k : ℤ) * SEG_LEN : ℤ) : ℚ) := by
    unfold ProjectCall.depthDelta
    rw [hi, hcz, depth_delta_window lines hz (startPosOf pos) (startPosOf pos + k) hs0 hs1
      (by omega) (by omega)]
    congr 1; ring
  have hzero : c.depthDelta lines = 0 ↔ k = 0 := by
    rw [hd]
    simp [SEG_LEN]
  refine ⟨c, hc, hn, hi, hd, hzero, ?_, ?_⟩
  · intro hk0
    rw [hd]
    have : 0 < (k : ℤ) * SEG_LEN := by
      have : 0 < (k : ℤ) := by omega
      simp only [SEG_LEN]; omega
    exact_mod_cast this
  · rw [project_eq_none_iff]
    exact hzero

/-- C4 (as amended): in every frame the road loop evaluates `project` once for
each of the 800 window indices, unguarded; the call for window offset `k` has
depth delta `k * SEG_LEN`, so the depth delta is zero, and the projection
without a value, exactly for the first segment of the window (`n = startPos`),
and strictly positive for every other one. -/
theorem road_project_depth_delta (lines : Track) (hz : lines.DepthByIndex) (playerX : ℚ)
    (pos : ℤ) (h0 : 0 ≤ pos) (h1 : pos < N * SEG_LEN) :
    (roadProjectCalls lines playerX pos).length = 800 ∧
    ∀ k : ℕ, k < 800 →
      ∃ c : ProjectCall,
        (roadProjectCalls lines playerX pos)[k]? = some c ∧
        c.n = startPosOf pos + k ∧ c.index = (startPosOf pos + k).tmod N ∧
        c.depthDelta lines = (((k : ℤ) * SEG_LEN : ℤ) : ℚ) ∧
        (c.depthDelta lines = 0 ↔ k = 0) ∧
        (k ≠ 0 → 0 < c.depthDelta lines) ∧
        ((lines c.index).project c.camX c.camY c.camZ = none ↔ k = 0) :=
  roadProjectCalls_depthDelta lines hz playerX pos h0 h1

/-- C4 on the constructed track with the camera at the start of the track. -/
theorem road_project_depth_delta_witness :
    (roadProjectCalls (buildTrack fun _ => 0) 0 0).length = 800 ∧
    ∀ k : ℕ, k < 800 →
      ∃ c : ProjectCall,
        (roadProjectCalls (buildTrack fun _ => 0) 0 0)[k]? = some c ∧
        c.n = startPosOf 0 + k ∧ c.index = (startPosOf 0 + k).tmod N ∧
        c.depthDelta (buildTrack fun _ => 0) = (((k : ℤ) * SEG_LEN : ℤ) : ℚ) ∧
        (c.depthDelta (buildTrack fun _ => 0) = 0 ↔ k = 0) ∧
        (k ≠ 0 → 0 < c.depthDelta (buildTrack fun _ => 0)) ∧
        (((buildTrack fun _ => 0) c.index).project c.camX c.camY c.camZ = none ↔ k = 0) :=
  road_project_depth_delta (buildTrack fun _ => 0) (buildTrack_depthByIndex _) 0 0
    (by norm_num) (by norm_num [N, SEG_LEN])

/-- C4 as stated fails: on the constructed track with the camera at the start
of the track, the first call of `project` issued by the road loop is for the
segment at the camera's own depth; its depth delta is zero and the projection
has no value. -/
theorem road_project_zero_delta_counterexample :
    ∃ c : ProjectCall,
      (roadProjectCalls (buildTrack fun _ => 0) 0 0)[0]? = some c ∧
      c.n = startPosOf 0 ∧
      c.depthDelta (buildTrack fun _ => 0) = 0 ∧
      ((buildTrack fun _ => 0) c.index).project c.camX c.camY c.camZ = none := by
  obtain ⟨_, h⟩ := roadProjectCalls_depthDelta (buildTrack fun _ => 0)
    (buildTrack_depthByIndex _) 0 0 (by norm_num) (by norm_num [N, SEG_LEN])
  obtain ⟨c, hc, hn, _, _, hzero, _, hnone⟩ := h 0 (by norm_num)
  exact ⟨c, hc, by simpa using hn, hzero.mpr rfl, hnone.mpr rfl⟩

/-! ### The clip cursor and the draw order of the road loop -/

/-- Truncation toward zero never exceeds an integer bound that the value is
strictly below. -/
lemma truncInt_le_of_lt (q : ℚ) (m : ℤ) (h : q < m) : truncInt q ≤ m := by
  unfold truncInt
  split_ifs with h0
  · have : (⌊q⌋ : ℚ) < m := lt_of_le_of_lt (Int.floor_le q) h
    exact le_of_lt (by exact_mod_cast this)
  · have h1 : (⌈q⌉ : ℚ) < q + 1 := Int.ceil_lt_add_one q
    have : (⌈q⌉ : ℚ) < (m : ℚ) + 1 := by linarith
    have : ⌈q⌉ < m + 1 := by exact_mod_cast this
    omega

/-- Truncation toward zero does not exceed a non-negative value. -/
lemma truncInt_le_self (q : ℚ) (h : 0 ≤ q) : (truncInt q : ℚ) ≤ q := by
  unfold truncInt
  rw [if_pos h]
  exact Int.floor_le q

/-- An iteration whose segment fails the clip test records a skipped step and
leaves the cursor unchanged. -/
lemma roadStepsFrom_skip (startPos : ℤ) (proj : ℤ → Line) (count : ℕ) (n maxy : ℤ)
    (h : (proj n).Y ≥ maxy) :
    roadStepsFrom startPos proj (count + 1) n maxy =
      { n := n, Y := (proj n).Y, clip := maxy, painted := false, quads := [] } ::
        roadStepsFrom startPos proj count (n + 1) maxy := by
  rw [roadStepsFrom]
  simp only [h, if_true]

/-- An iteration whose segment passes the clip test records a painted step
and moves the cursor to the truncated `Y` of the segment. -/
lemma roadStepsFrom_paint (startPos : ℤ) (proj : ℤ → Line) (count : ℕ) (n maxy : ℤ)
    (h : ¬ (proj n).Y ≥ maxy) :
    roadStepsFrom startPos proj (count + 1) n maxy =
      { n := n, Y := (proj n).Y, clip := maxy, painted := true,
        quads := roadQuads startPos n (if n > 0 then proj (n - 1) else proj n) (proj n) } ::
        roadStepsFrom startPos proj count (n + 1) (truncInt (proj n).Y) := by
  rw [roadStepsFrom]
  simp only [h, if_false]

/-- The step of window offset `k` is the step of window index `n + k` and
records the projected `Y` of that segment. -/
lemma roadStepsFrom_get (startPos : ℤ) (proj : ℤ → Line) :
    ∀ (count : ℕ) (n maxy : ℤ) (k : ℕ), k < count →
      ∃ st : PaintStep, (roadStepsFrom startPos proj count n maxy)[k]? = some st ∧
        st.n = n + k ∧ st.Y = (proj (n + k)).Y ∧
        (st.painted = false ↔ st.Y ≥ st.clip) ∧
        (st.painted = true →
          st.quads = roadQuads startPos st.n
            (if st.n > 0 then proj (st.n - 1) else proj st.n) (proj st.n)) ∧
        (st.painted = false → st.quads = []) := by
  intro count
  induction count with
  | zero => intro n maxy k hk; omega
  | succ count ih =>
    intro n maxy k hk
    cases k with
    | zero =>
      by_cases hY : (proj n).Y ≥ maxy
      · exact ⟨⟨n, (proj n).Y, maxy, false, []⟩, by simp [roadStepsFrom_skip, hY], by simp,
          by simp, by simpa using hY, by simp, by simp⟩
      · exact ⟨⟨n, (proj n).Y, maxy, true, roadQuads startPos n
          (if n > 0 then proj (n - 1) else proj n) (proj n)⟩,
          by simp [roadStepsFrom_paint, hY], by simp, by simp, by simpa using hY, by simp,
          by simp⟩
    | succ k =>
      by_cases hY : (proj n).Y ≥ maxy
      · obtain ⟨st, hst, h1, h2, h3⟩ := ih (n + 1) maxy k (by omega)
        refine ⟨st, by simpa [roadStepsFrom_skip, hY] using hst, ?_, ?_, h3⟩
        · rw [h1]; push_cast; ring
        · rw [h2]; congr 2; push_cast; ring
      · obtain ⟨st, hst, h1, h2, h3⟩ := ih (n + 1) (truncInt (proj n).Y) k (by omega)
        refine ⟨st, by simpa [roadStepsFrom_paint, hY] using hst, ?_, ?_, h3⟩
        · rw [h1]; push_cast; ring
        · rw [h2]; congr 2; push_cast; ring

/-- The loop records one step per iteration. -/
lemma roadStepsFrom_length (startPos : ℤ) (proj : ℤ → Line) :
    ∀ (count : ℕ) (n maxy : ℤ), (roadStepsFrom startPos proj count n maxy).length = count := by
  intro count
  induction count with
  | zero => intro n maxy; rfl
  | succ count ih =>
    intro n maxy
    by_cases hY : (proj n).Y ≥ maxy
    · simp [roadStepsFrom_skip, hY, ih]
    · simp [roadStepsFrom_paint, hY, ih]

/-- Reading the cursor off a list of steps, the first step can be absorbed in
the entry value. -/
lemma cursorAfter_cons (maxy : ℤ) (hd : PaintStep) (tl : List PaintStep) :
    cursorAfter maxy (hd :: tl) =
      cursorAfter (if hd.painted then truncInt hd.Y else maxy) tl := by
  unfold cursorAfter
  by_cases hp : hd.painted = true
  · simp only [List.filter_cons, hp, if_true]
    cases hf : (tl.filter fun st => st.painted) with
    | nil => simp
    | cons a as =>
      rw [List.getLast?_cons_cons]
      cases h : (a :: as).getLast? with
      | none => simp at h
      | some x => rfl
  · simp [List.filter_cons, hp]

/-- The cursor that an iteration finds is the one read off the steps before
it. -/
lemma roadStepsFrom_clip (startPos : ℤ) (proj : ℤ → Line) :
    ∀ (count : ℕ) (n maxy : ℤ) (k : ℕ) (st : PaintStep),
      (roadStepsFrom startPos proj count n maxy)[k]? = some st →
      st.clip = cursorAfter maxy ((roadStepsFrom startPos proj count n maxy).take k) := by
  intro count
  induction count with
  | zero => intro n maxy k st h; simp [roadStepsFrom] at h
  | succ count ih =>
    intro n maxy k st h
    cases k with
    | zero =>
      by_cases hY : (proj n).Y ≥ maxy
      · rw [roadStepsFrom_skip _ _ _ _ _ hY] at h
        simp at h
        subst h
        simp [cursorAfter]
      · rw [roadStepsFrom_paint _ _ _ _ _ hY] at h
        simp at h
        subst h
        simp [cursorAfter]
    | succ k =>
      by_cases hY : (proj n).Y ≥ maxy
      · rw [roadStepsFrom_skip _ _ _ _ _ hY] at h ⊢
        simp only [List.getElem?_cons_succ] at h
        rw [List.take_succ_cons, cursorAfter_cons]
        simpa using ih (n + 1) maxy k st h
      · rw [roadStepsFrom_paint _ _ _ _ _ hY] at h ⊢
        simp only [List.getElem?_cons_succ] at h
        rw [List.take_succ_cons, cursorAfter_cons]
        simpa using ih (n + 1) (truncInt (proj n).Y) k st h

/-- Every painted step has its `Y` strictly below the entry value of the
cursor. -/
lemma roadStepsFrom_painted_lt (startPos : ℤ) (proj : ℤ → Line) :
    ∀ (count : ℕ) (n maxy : ℤ) (st : PaintStep),
      st ∈ roadStepsFrom startPos proj count n maxy → st.painted = true → st.Y < maxy := by
  intro count
  induction count with
  | zero => intro n maxy st h; simp [roadStepsFrom] at h
  | succ count ih =>
    intro n maxy st h hp
    by_cases hY : (proj n).Y ≥ maxy
    · rw [roadStepsFrom_skip _ _ _ _ _ hY] at h
      rcases List.mem_cons.mp h with rfl | h
      · simp at hp
      · exact ih (n + 1) maxy st h hp
    · rw [roadStepsFrom_paint _ _ _ _ _ hY] at h
      have hlt : (proj n).Y < maxy := not_le.mp hY
      rcases List.mem_cons.mp h with rfl | h
      · exact hlt
      · have := ih (n + 1) (truncInt (proj n).Y) st h hp
        have h2 : ((truncInt (proj n).Y : ℤ) : ℚ) ≤ (maxy : ℚ) := by
          exact_mod_cast truncInt_le_of_lt _ _ hlt
        linarith

/-- Of two painted steps, the later one has its `Y` strictly below the
truncated `Y` of the earlier one. -/
lemma roadStepsFrom_painted_pairwise (startPos : ℤ) (proj : ℤ → Line) :
    ∀ (count : ℕ) (n maxy : ℤ),
      ((roadStepsFrom startPos proj count n maxy).filter fun st => st.painted).Pairwise
        (fun a b => b.Y < ((truncInt a.Y : ℤ) : ℚ)) := by
  intro count
  induction count with
  | zero => intro n maxy; simp [roadStepsFrom]
  | succ count ih =>
    intro n maxy
    by_cases hY : (proj n).Y ≥ maxy
    · rw [roadStepsFrom_skip _ _ _ _ _ hY]
      simpa [List.filter_cons] using ih (n + 1) maxy
    · rw [roadStepsFrom_paint _ _ _ _ _ hY]
      simp only [List.filter_cons, if_true, List.pairwise_cons]
      refine ⟨?_, ih (n + 1) (truncInt (proj n).Y)⟩
      intro b hb
      have hb' := List.mem_filter.mp hb
      exact roadStepsFrom_painted_lt startPos proj count (n + 1) _ b hb'.1 (by simpa using hb'.2)

/-- C6 (as amended): the road loop runs 800 iterations; the iteration of window
offset `k` finds the cursor equal to `HEIGHT` when no earlier segment of the
frame was painted and otherwise equal to the projected `Y` of the most recently
painted segment truncated toward zero, and skips its segment exactly when the
projected `Y` is not strictly below that cursor.  Hence every painted `Y` is
strictly below `HEIGHT` and strictly below the truncated `Y` of every segment
painted before it, and strictly below the `Y` itself of every segment painted
before it whose `Y` is not negative. -/
theorem clip_cursor_rule (startPos : ℤ) (proj : ℤ → Line) :
    (roadSteps startPos proj).length = 800 ∧
    (∀ k : ℕ, k < 800 →
      ∃ st : PaintStep, (roadSteps startPos proj)[k]? = some st ∧
        st.n = startPos + k ∧ st.Y = (proj (startPos + k)).Y ∧
        st.clip = cursorAfter HEIGHT ((roadSteps startPos proj).take k) ∧
        (st.painted = false ↔ st.Y ≥ st.clip)) ∧
    (∀ st ∈ roadSteps startPos proj, st.painted = true → st.Y < HEIGHT) ∧
    ((roadSteps startPos proj).filter fun st => st.painted).Pairwise
      (fun a b => b.Y < ((truncInt a.Y : ℤ) : ℚ)) ∧
    ((roadSteps startPos proj).filter fun st => st.painted).Pairwise
      (fun a b => 0 ≤ a.Y → b.Y < a.Y) := by
  refine ⟨roadStepsFrom_length _ _ _ _ _, ?_, ?_, ?_, ?_⟩
  · intro k hk
    obtain ⟨st, hst, h1, h2, h3, _⟩ := roadStepsFrom_get startPos proj 800 startPos HEIGHT k hk
    exact ⟨st, hst, h1, h2, roadStepsFrom_clip startPos proj 800 startPos HEIGHT k st hst, h3⟩
  · intro st hst hp
    exact roadStepsFrom_painted_lt startPos proj 800 startPos HEIGHT st hst hp
  · exact roadStepsFrom_painted_pairwise startPos proj 800 startPos HEIGHT
  · refine (roadStepsFrom_painted_pairwise startPos proj 800 startPos HEIGHT).imp ?_
    intro a b hab ha
    exact lt_of_lt_of_le hab (truncInt_le_self a.Y ha)

/-- The first two steps of the road loop on a window whose first segment is
painted. -/
lemma roadSteps_two (proj : ℤ → Line) (h0 : ¬ (proj 0).Y ≥ HEIGHT) :
    ∃ rest : List PaintStep,
      roadSteps 0 proj =
        { n := 0, Y := (proj 0).Y, clip := HEIGHT, painted := true,
          quads := roadQuads 0 0 (proj 0) (proj 0) } ::
        { n := 1, Y := (proj 1).Y, clip := truncInt (proj 0).Y,
          painted := decide ((proj 1).Y < truncInt (proj 0).Y),
          quads := if (proj 1).Y < truncInt (proj 0).Y
            then roadQuads 0 1 (proj 0) (proj 1) else [] } :: rest := by
  unfold roadSteps
  rw [show (800 : ℕ) = 798 + 1 + 1 from rfl, roadStepsFrom_paint _ _ _ _ _ h0]
  by_cases h1 : (proj (0 + 1)).Y ≥ truncInt (proj 0).Y
  · rw [roadStepsFrom_skip _ _ _ _ _ h1]
    simp only [zero_add] at h1 ⊢
    exact ⟨roadStepsFrom 0 proj 798 (1 + 1) (truncInt (proj 0).Y), by simp [not_lt.mpr h1]⟩
  · rw [roadStepsFrom_paint _ _ _ _ _ h1]
    simp only [zero_add] at h1 ⊢
    exact ⟨roadStepsFrom 0 proj 798 (1 + 1) (truncInt (proj 1).Y), by simp [not_le.mp h1]⟩

/-- C6 as stated fails in both directions.  With projected `Y` 100.7 then
100.5, the second segment is strictly below `HEIGHT` and strictly below the
only painted `Y`, yet it is skipped (the cursor is 100).  With projected `Y`
-0.5 then -0.3, both segments are painted although the second `Y` is above the
first (the cursor is 0). -/
theorem clip_cursor_counterexample :
    (∃ st0 st1 : PaintStep,
      (roadSteps 0 (clipProbe (1007 / 10) (1005 / 10)))[0]? = some st0 ∧
      (roadSteps 0 (clipProbe (1007 / 10) (1005 / 10)))[1]? = some st1 ∧
      st0.painted = true ∧ st1.painted = false ∧ st1.Y < st0.Y ∧ st1.Y < HEIGHT) ∧
    (∃ st0 st1 : PaintStep,
      (roadSteps 0 (clipProbe (-1 / 2) (-3 / 10)))[0]? = some st0 ∧
      (roadSteps 0 (clipProbe (-1 / 2) (-3 / 10)))[1]? = some st1 ∧
      st0.painted = true ∧ st1.painted = true ∧ st0.Y < st1.Y) := by
  constructor
  · obtain ⟨rest, h⟩ := roadSteps_two (clipProbe (1007 / 10) (1005 / 10))
      (by norm_num [clipProbe, Line.init, HEIGHT])
    rw [h]
    refine ⟨_, _, List.getElem?_cons_zero,
      by rw [List.getElem?_cons_succ, List.getElem?_cons_zero], rfl, ?_, ?_, ?_⟩
    · have : truncInt (1007 / 10) = 100 := by unfold truncInt; norm_num
      simp [clipProbe, Line.init, this]
      norm_num
    · norm_num [clipProbe, Line.init]
    · norm_num [clipProbe, Line.init, HEIGHT]
  · obtain ⟨rest, h⟩ := roadSteps_two (clipProbe (-1 / 2) (-3 / 10))
      (by norm_num [clipProbe, Line.init, HEIGHT])
    rw [h]
    refine ⟨_, _, List.getElem?_cons_zero,
      by rw [List.getElem?_cons_succ, List.getElem?_cons_zero], rfl, ?_, ?_⟩
    · have : truncInt (-1 / 2) = 0 := by unfold truncInt; norm_num
      simp [clipProbe, Line.init, this]
      norm_num
    · norm_num [clipProbe, Line.init]

/-- Every quad of a segment carries the window index of that segment. -/
lemma roadQuads_seg (startPos n : ℤ) (p l : Line) :
    ∀ d ∈ roadQuads startPos n p l, d.seg = n := by
  intro d hd
  unfold roadQuads at hd
  by_cases h1 : n < startPos + 300
  · rw [if_pos h1] at hd
    rcases List.mem_append.mp hd with h | h
    · simp only [List.mem_cons, List.mem_singleton, List.not_mem_nil, or_false] at h
      rcases h with rfl | rfl | rfl <;> rfl
    · split_ifs at h
      · simp only [List.mem_cons, List.mem_singleton, List.not_mem_nil, or_false] at h
        rcases h with rfl | rfl <;> rfl
      · simp at h
  · rw [if_neg h1] at hd
    simp at hd

/-- A segment inside the near sub-window issues its ground, shoulder and road
quads. -/
lemma roadQuads_ne_nil (startPos n : ℤ) (p l : Line) (h : n < startPos + 300) :
    ∃ isDark : Bool, ∃ rest : List DrawCall,
      roadQuads startPos n p l =
        DrawCall.quad n 0 isDark 0 (truncInt p.Y) WIDTH 0 (truncInt l.Y) WIDTH ::
        DrawCall.quad n 1 isDark (truncInt p.X) (truncInt p.Y) (truncInt (p.W * (115 / 100)))
          (truncInt l.X) (truncInt l.Y) (truncInt (l.W * (115 / 100))) ::
        DrawCall.quad n 2 isDark (truncInt p.X) (truncInt p.Y) (truncInt p.W)
          (truncInt l.X) (truncInt l.Y) (truncInt l.W) :: rest := by
  unfold roadQuads
  rw [if_pos h]
  exact ⟨_, _, rfl⟩

/-- What a step of the loop records: its window index is not before the first
index of the loop, a skipped step has no quads, and a painted step has the
quads of its segment. -/
lemma roadStepsFrom_mem (startPos : ℤ) (proj : ℤ → Line) :
    ∀ (count : ℕ) (n maxy : ℤ) (st : PaintStep),
      st ∈ roadStepsFrom startPos proj count n maxy →
      n ≤ st.n ∧ (st.painted = false → st.quads = []) ∧
      (st.painted = true →
        st.quads = roadQuads startPos st.n
          (if st.n > 0 then proj (st.n - 1) else proj st.n) (proj st.n)) := by
  intro count
  induction count with
  | zero => intro n maxy st h; simp [roadStepsFrom] at h
  | succ count ih =>
    intro n maxy st h
    by_cases hY : (proj n).Y ≥ maxy
    · rw [roadStepsFrom_skip _ _ _ _ _ hY] at h
      rcases List.mem_cons.mp h with rfl | h
      · simp
      · obtain ⟨h1, h2⟩ := ih (n + 1) maxy st h
        exact ⟨by omega, h2⟩
    · rw [roadStepsFrom_paint _ _ _ _ _ hY] at h
      rcases List.mem_cons.mp h with rfl | h
      · simp
      · obtain ⟨h1, h2⟩ := ih (n + 1) _ st h
        exact ⟨by omega, h2⟩

/-- The quads of the loop from window index `n` on belong to segments from `n`
on and are issued in the order of the window index. -/
lemma roadStepsFrom_draws_sorted (startPos : ℤ) (proj : ℤ → Line) :
    ∀ (count : ℕ) (n maxy : ℤ),
      (∀ d ∈ ((roadStepsFrom startPos proj count n maxy).map PaintStep.quads).flatten,
        n ≤ d.seg) ∧
      (((roadStepsFrom startPos proj count n maxy).map PaintStep.quads).flatten).Pairwise
        (fun a b => a.seg ≤ b.seg) := by
  intro count
  induction count with
  | zero => intro n maxy; simp [roadStepsFrom]
  | succ count ih =>
    intro n maxy
    by_cases hY : (proj n).Y ≥ maxy
    · rw [roadStepsFrom_skip _ _ _ _ _ hY]
      obtain ⟨h1, h2⟩ := ih (n + 1) maxy
      simp only [List.map_cons, List.flatten_cons, List.nil_append]
      exact ⟨fun d hd => by have := h1 d hd; omega, h2⟩
    · rw [roadStepsFrom_paint _ _ _ _ _ hY]
      obtain ⟨h1, h2⟩ := ih (n + 1) (truncInt (proj n).Y)
      simp only [List.map_cons, List.flatten_cons]
      constructor
      · intro d hd
        rcases List.mem_append.mp hd with hd | hd
        · exact le_of_eq (roadQuads_seg _ _ _ _ d hd).symm
        · have := h1 d hd; omega
      · rw [List.pairwise_append]
        refine ⟨?_, h2, ?_⟩
        · rw [List.pairwise_iff_forall_sublist]
          intro a b hab
          have ha := roadQuads_seg _ _ _ _ a (hab.subset (by simp))
          have hb := roadQuads_seg _ _ _ _ b (hab.subset (by simp))
          rw [ha, hb]
        · intro a ha b hb
          have ha' := roadQuads_seg _ _ _ _ a ha
          have := h1 b hb
          omega

/-- The projected `Y` of the flat-track window behind its first segment:
`HEIGHT / 2 * (1 + CAM_D * 1500 / (n * SEG_LEN))`. -/
lemma flatRoadProbe_Y (n : ℤ) (h0 : 0 < n) :
    (flatRoadProbe n).Y = 384 + 12096 / (5 * (n : ℚ)) := by
  have hn : (n : ℚ) ≠ 0 := by
    have : (0 : ℚ) < (n : ℚ) := by exact_mod_cast h0
    exact ne_of_gt this
  have hz : (buildTrack (fun _ => 0) n).z = ((n * SEG_LEN : ℤ) : ℚ) := by
    unfold buildTrack buildLine
    simp only
    split_ifs <;> rfl
  have hy : (buildTrack (fun _ => 0) n).y = 0 := by
    unfold buildTrack buildLine
    simp only
    split_ifs <;> rfl
  have hne : ¬ ((buildTrack (fun _ => 0) n).z - ((0 : ℤ) : ℚ) = 0) := by
    rw [hz]
    simp [SEG_LEN, hn]
  unfold flatRoadProbe Line.project
  simp only
  rw [if_neg hne]
  simp only [hz, hy]
  simp only [CAM_D, HEIGHT, SEG_LEN]
  push_cast
  field_simp
  ring

/-- The first segment of the flat-track window has `Y = HEIGHT`. -/
lemma flatRoadProbe_Y_zero : (flatRoadProbe 0).Y = HEIGHT := by
  have hz : (buildTrack (fun _ => 0) 0).z - ((0 : ℤ) : ℚ) = 0 := by
    unfold buildTrack buildLine
    simp [Line.init]
  unfold flatRoadProbe Line.project
  simp only
  rw [if_pos hz]

/-- The road loop on the flat-track window: the segments 0 to 6 are skipped,
the segments 7 and 8 are painted. -/
lemma roadSteps_flat :
    ∃ rest : List PaintStep,
      roadSteps 0 flatRoadProbe =
        { n := 0, Y := (flatRoadProbe 0).Y, clip := HEIGHT, painted := false, quads := [] } ::
        { n := 1, Y := (flatRoadProbe 1).Y, clip := HEIGHT, painted := false, quads := [] } ::
        { n := 2, Y := (flatRoadProbe 2).Y, clip := HEIGHT, painted := false, quads := [] } ::
        { n := 3, Y := (flatRoadProbe 3).Y, clip := HEIGHT, painted := false, quads := [] } ::
        { n := 4, Y := (flatRoadProbe 4).Y, clip := HEIGHT, painted := false, quads := [] } ::
        { n := 5, Y := (flatRoadProbe 5).Y, clip := HEIGHT, painted := false, quads := [] } ::
        { n := 6, Y := (flatRoadProbe 6).Y, clip := HEIGHT, painted := false, quads := [] } ::
        { n := 7, Y := (flatRoadProbe 7).Y, clip := HEIGHT, painted := true,
          quads := roadQuads 0 7 (flatRoadProbe 6) (flatRoadProbe 7) } ::
        { n := 8, Y := (flatRoadProbe 8).Y, clip := 729, painted := true,
          quads := roadQuads 0 8 (flatRoadProbe 7) (flatRoadProbe 8) } :: rest := by
  have h0 : (flatRoadProbe 0).Y ≥ ((HEIGHT : ℤ) : ℚ) := by rw [flatRoadProbe_Y_zero]
  have h1 : (flatRoadProbe 1).Y ≥ ((HEIGHT : ℤ) : ℚ) := by
    rw [flatRoadProbe_Y 1 (by norm_num)]; norm_num [HEIGHT]
  have h2 : (flatRoadProbe 2).Y ≥ ((HEIGHT : ℤ) : ℚ) := by
    rw [flatRoadProbe_Y 2 (by norm_num)]; norm_num [HEIGHT]
  have h3 : (flatRoadProbe 3).Y ≥ ((HEIGHT : ℤ) : ℚ) := by
    rw [flatRoadProbe_Y 3 (by norm_num)]; norm_num [HEIGHT]
  have h4 : (flatRoadProbe 4).Y ≥ ((HEIGHT : ℤ) : ℚ) := by
    rw [flatRoadProbe_Y 4 (by norm_num)]; norm_num [HEIGHT]
  have h5 : (flatRoadProbe 5).Y ≥ ((HEIGHT : ℤ) : ℚ) := by
    rw [flatRoadProbe_Y 5 (by norm_num)]; norm_num [HEIGHT]
  have h6 : (flatRoadProbe 6).Y ≥ ((HEIGHT : ℤ) : ℚ) := by
    rw [flatRoadProbe_Y 6 (by norm_num)]; norm_num [HEIGHT]
  have h7 : ¬ (flatRoadProbe 7).Y ≥ ((HEIGHT : ℤ) : ℚ) := by
    rw [flatRoadProbe_Y 7 (by norm_num)]; norm_num [HEIGHT]
  have t7 : truncInt (flatRoadProbe 7).Y = 729 := by
    rw [flatRoadProbe_Y 7 (by norm_num)]
    unfold truncInt
    norm_num
  have h8 : ¬ (flatRoadProbe 8).Y ≥ ((729 : ℤ) : ℚ) := by
    rw [flatRoadProbe_Y 8 (by norm_num)]; norm_num
  unfold roadSteps
  rw [show (800 : ℕ) = 791 + 1 + 1 + 1 + 1 + 1 + 1 + 1 + 1 + 1 from rfl,
    roadStepsFrom_skip _ _ _ _ _ h0, show (0 : ℤ) + 1 = 1 from rfl,
    roadStepsFrom_skip _ _ _ _ _ h1, show (1 : ℤ) + 1 = 2 from rfl,
    roadStepsFrom_skip _ _ _ _ _ h2, show (2 : ℤ) + 1 = 3 from rfl,
    roadStepsFrom_skip _ _ _ _ _ h3, show (3 : ℤ) + 1 = 4 from rfl,
    roadStepsFrom_skip _ _ _ _ _ h4, show (4 : ℤ) + 1 = 5 from rfl,
    roadStepsFrom_skip _ _ _ _ _ h5, show (5 : ℤ) + 1 = 6 from rfl,
    roadStepsFrom_skip _ _ _ _ _ h6, show (6 : ℤ) + 1 = 7 from rfl,
    roadStepsFrom_paint _ _ _ _ _ h7, show (7 : ℤ) + 1 = 8 from rfl, t7,
    roadStepsFrom_paint _ _ _ _ _ h8]
  exact ⟨_, rfl⟩

/-- C5 (what the code does): the road loop paints from the camera outward.  Of
two quads whose segments differ, the quad of the nearer segment (smaller window
index) is issued strictly before the quad of the farther one, not after it;
every quad drawn belongs to a painted segment of the near sub-window
(`startPos ≤ n < startPos + 300`), and every painted segment of that
sub-window issues its ground, shoulder and road quads. -/
theorem road_draw_order (startPos : ℤ) (proj : ℤ → Line) :
    (∀ (i j : ℕ) (a b : DrawCall),
      (roadDraws startPos proj)[i]? = some a → (roadDraws startPos proj)[j]? = some b →
      a.seg < b.seg → i < j) ∧
    (∀ d ∈ roadDraws startPos proj,
      ∃ st ∈ roadSteps startPos proj, st.painted = true ∧ d ∈ st.quads ∧ d.seg = st.n ∧
        startPos ≤ st.n ∧ st.n < startPos + 300) ∧
    (∀ st ∈ roadSteps startPos proj, st.painted = true → st.n < startPos + 300 →
      st.quads ≠ [] ∧ (∀ d ∈ st.quads, d ∈ roadDraws startPos proj ∧ d.seg = st.n)) := by
  refine ⟨?_, ?_, ?_⟩
  · intro i j a b hi hj hab
    obtain ⟨hi', rfl⟩ := List.getElem?_eq_some.mp hi
    obtain ⟨hj', rfl⟩ := List.getElem?_eq_some.mp hj
    by_contra hij
    rcases Nat.lt_or_ge j i with h | h
    · have := List.pairwise_iff_getElem.mp
        (roadStepsFrom_draws_sorted startPos proj 800 startPos HEIGHT).2 j i hj' hi' h
      exact absurd hab (not_lt.mpr this)
    · have hij' : i = j := by omega
      subst hij'
      exact lt_irrefl _ hab
  · intro d hd
    unfold roadDraws at hd
    obtain ⟨qs, hqs, hdq⟩ := List.mem_flatten.mp hd
    obtain ⟨st, hst, rfl⟩ := List.mem_map.mp hqs
    obtain ⟨h1, h2, h3⟩ := roadStepsFrom_mem startPos proj 800 startPos HEIGHT st hst
    have hp : st.painted = true := by
      by_contra hp
      rw [h2 (by simpa using hp)] at hdq
      simp at hdq
    have hn : st.n < startPos + 300 := by
      by_contra hn
      rw [h3 hp] at hdq
      unfold roadQuads at hdq
      rw [if_neg hn] at hdq
      simp at hdq
    refine ⟨st, hst, hp, hdq, ?_, h1, hn⟩
    rw [h3 hp] at hdq
    exact roadQuads_seg _ _ _ _ d hdq
  · intro st hst hp hn
    obtain ⟨_, _, h3⟩ := roadStepsFrom_mem startPos proj 800 startPos HEIGHT st hst
    obtain ⟨isDark, rest, hq⟩ := roadQuads_ne_nil startPos st.n
      (if st.n > 0 then proj (st.n - 1) else proj st.n) (proj st.n) hn
    refine ⟨by rw [h3 hp, hq]; simp, ?_⟩
    intro d hd
    refine ⟨List.mem_flatten.mpr ⟨st.quads, List.mem_map.mpr ⟨st, hst, rfl⟩, hd⟩, ?_⟩
    rw [h3 hp] at hd
    exact roadQuads_seg _ _ _ _ d hd

/-- C5 on the frame with the camera at the start of the flat track: the
segments 0 to 6 fail the clip test and are skipped; segment 7 (projected `Y`
729.6) and segment 8 (projected `Y` 686.4) are painted; the ground quad of the
nearer segment 7 is drawn at position 0 and the ground quad of the farther
segment 8 at position 3, and wherever these two quads occur in the draw order,
the quad of segment 7 comes strictly before the quad of segment 8. -/
theorem road_draw_order_witness :
    ∃ st0 st7 st8 : PaintStep, ∃ a b : DrawCall,
      (roadSteps 0 flatRoadProbe)[0]? = some st0 ∧ st0.painted = false ∧
      (roadSteps 0 flatRoadProbe)[7]? = some st7 ∧ st7.painted = true ∧ st7.n = 7 ∧
      st7.Y = 3648 / 5 ∧
      (roadSteps 0 flatRoadProbe)[8]? = some st8 ∧ st8.painted = true ∧ st8.n = 8 ∧
      st8.Y = 3432 / 5 ∧
      (roadDraws 0 flatRoadProbe)[0]? = some a ∧ (roadDraws 0 flatRoadProbe)[3]? = some b ∧
      a.seg = st7.n ∧ b.seg = st8.n ∧
      ∀ i j : ℕ, (roadDraws 0 flatRoadProbe)[i]? = some a →
        (roadDraws 0 flatRoadProbe)[j]? = some b → i < j := by
  obtain ⟨rest, h⟩ := roadSteps_flat
  obtain ⟨d7, r7, hq7⟩ := roadQuads_ne_nil 0 7 (flatRoadProbe 6) (flatRoadProbe 7) (by norm_num)
  obtain ⟨d8, r8, hq8⟩ := roadQuads_ne_nil 0 8 (flatRoadProbe 7) (flatRoadProbe 8) (by norm_num)
  have hr7 : r7 = [] := by
    have e : (Int.tdiv 7 3).tmod 2 = 0 := by decide
    have := hq7
    unfold roadQuads at this
    simp [e] at this
    exact this.2
  subst hr7
  have hd0 : (roadDraws 0 flatRoadProbe)[0]? = some
      (DrawCall.quad 7 0 d7 0 (truncInt (flatRoadProbe 6).Y) WIDTH 0
        (truncInt (flatRoadProbe 7).Y) WIDTH) := by
    unfold roadDraws
    rw [h]
    simp only [List.map_cons, List.flatten_cons, hq7, List.nil_append]
    rfl
  have hd3 : (roadDraws 0 flatRoadProbe)[3]? = some
      (DrawCall.quad 8 0 d8 0 (truncInt (flatRoadProbe 7).Y) WIDTH 0
        (truncInt (flatRoadProbe 8).Y) WIDTH) := by
    unfold roadDraws
    rw [h]
    simp only [List.map_cons, List.flatten_cons, hq7, hq8, List.nil_append]
    rfl
  refine ⟨{ n := 0, Y := (flatRoadProbe 0).Y, clip := HEIGHT, painted := false, quads := [] },
    { n := 7, Y := (flatRoadProbe 7).Y, clip := HEIGHT, painted := true,
      quads := roadQuads 0 7 (flatRoadProbe 6) (flatRoadProbe 7) },
    { n := 8, Y := (flatRoadProbe 8).Y, clip := 729, painted := true,
      quads := roadQuads 0 8 (flatRoadProbe 7) (flatRoadProbe 8) }, _, _,
    ?_, rfl, ?_, rfl, rfl, ?_, ?_, rfl, rfl, ?_, hd0, hd3, rfl, rfl, ?_⟩
  · rw [h]; rfl
  · rw [h]; simp only [List.getElem?_cons_succ, List.getElem?_cons_zero]
  · show (flatRoadProbe 7).Y = 3648 / 5
    rw [flatRoadProbe_Y 7 (by norm_num)]; norm_num
  · rw [h]; simp only [List.getElem?_cons_succ, List.getElem?_cons_zero]
  · show (flatRoadProbe 8).Y = 3432 / 5
    rw [flatRoadProbe_Y 8 (by norm_num)]; norm_num
  · intro i j hi hj
    exact (road_draw_order 0 flatRoadProbe).1 i j _ _ hi hj (by norm_num [DrawCall.seg])

/-! ### Traffic width curve -/

/-- The clamp of the traffic width is monotone. -/
lemma clampW_mono (a b : ℚ) (h : a ≤ b) :
    max 8 (min a ((WIDTH : ℚ) * (9 / 10))) ≤ max 8 (min b ((WIDTH : ℚ) * (9 / 10))) :=
  max_le_max le_rfl (min_le_min h le_rfl)

/-- The traffic width is the clamp of the lane fraction times the near boost
factor. -/
lemma opponentDestW_eq (W dz : ℚ) :
    opponentDestW W dz =
      max 8 (min (laneWidth W * (55 / 100) * closeBoost dz) ((WIDTH : ℚ) * (9 / 10))) := by
  unfold opponentDestW closeBoost
  simp only
  split_ifs <;> simp

/-- The near boost factor is at least one and does not grow with the
distance. -/
lemma closeBoost_antitone (d1 d2 : ℚ) (h : d1 ≤ d2) :
    1 ≤ closeBoost d2 ∧ closeBoost d2 ≤ closeBoost d1 := by
  unfold closeBoost
  have e : (((SEG_LEN * 6 : ℤ)) : ℚ) = 1200 := by norm_num [SEG_LEN]
  rw [e]
  split_ifs with h2 h1 h1
  · constructor
    · have : 0 ≤ (1200 - d2) / 1200 * (45 / 100) := by
        apply mul_nonneg (div_nonneg (by linarith) (by norm_num)) (by norm_num)
      linarith
    · have : (1200 - d2) / 1200 ≤ (1200 - d1) / 1200 :=
        div_le_div_of_nonneg_right (by linarith) (by norm_num)
      linarith
  · exact absurd (lt_of_le_of_lt h h2) h1
  · constructor
    · exact le_rfl
    · have : 0 ≤ (1200 - d1) / 1200 * (45 / 100) := by
        apply mul_nonneg (div_nonneg (by linarith) (by norm_num)) (by norm_num)
      linarith
  · exact ⟨le_rfl, le_rfl⟩

/-- C7: the traffic width and height always lie in their clamp ranges,
`8 ≤ destW ≤ 0.9 * WIDTH` and `6 ≤ destH ≤ 0.9 * HEIGHT`; and for two traffic
occupants projected with the camera at the player's depth, at distances
`0 < dz1 ≤ dz2` from the player, the half-width is
`W = CAM_D * ROAD_W * WIDTH / 2 / dz` and the width of the nearer one is at
least the width of the farther one. -/
theorem opponentDestW_antitone_bounded :
    (∀ W dz : ℚ, 8 ≤ opponentDestW W dz ∧ opponentDestW W dz ≤ (WIDTH : ℚ) * (9 / 10)) ∧
    (∀ destW originalWidth originalHeight : ℚ,
      6 ≤ opponentDestH destW originalWidth originalHeight ∧
      opponentDestH destW originalWidth originalHeight ≤ (HEIGHT : ℚ) * (9 / 10)) ∧
    (∀ (l1 l2 : Line) (camX1 camY1 camX2 camY2 playerZ : ℤ),
      0 < l1.z - playerZ → l1.z - playerZ ≤ l2.z - playerZ →
      ∃ p1 p2 : Line,
        l1.project camX1 camY1 playerZ = some p1 ∧ l2.project camX2 camY2 playerZ = some p2 ∧
        p1.W = CAM_D * ROAD_W * WIDTH / 2 / (l1.z - playerZ) ∧
        p2.W = CAM_D * ROAD_W * WIDTH / 2 / (l2.z - playerZ) ∧
        opponentDestW p2.W (l2.z - playerZ) ≤ opponentDestW p1.W (l1.z - playerZ)) := by
  refine ⟨?_, ?_, ?_⟩
  · intro W dz
    rw [opponentDestW_eq]
    refine ⟨le_max_left _ _, max_le ?_ (min_le_right _ _)⟩
    norm_num [WIDTH]
  · intro destW ow oh
    unfold opponentDestH
    refine ⟨le_max_left _ _, max_le ?_ (min_le_right _ _)⟩
    norm_num [HEIGHT]
  · intro l1 l2 camX1 camY1 camX2 camY2 playerZ h1 h12
    have h2 : 0 < l2.z - playerZ := lt_of_lt_of_le h1 h12
    have hc : (0 : ℚ) < CAM_D := by norm_num [CAM_D]
    have hW1 : CAM_D / (l1.z - playerZ) * ROAD_W * WIDTH / 2 =
        CAM_D * ROAD_W * WIDTH / 2 / (l1.z - playerZ) := by ring
    have hW2 : CAM_D / (l2.z - playerZ) * ROAD_W * WIDTH / 2 =
        CAM_D * ROAD_W * WIDTH / 2 / (l2.z - playerZ) := by ring
    refine ⟨_, _, project_eq_some l1 camX1 camY1 playerZ (ne_of_gt h1),
      project_eq_some l2 camX2 camY2 playerZ (ne_of_gt h2), hW1, hW2, ?_⟩
    simp only []
    rw [hW1, hW2, opponentDestW_eq, opponentDestW_eq]
    apply clampW_mono
    have hk : (0 : ℚ) < CAM_D * ROAD_W * WIDTH / 2 := by norm_num [CAM_D, ROAD_W, WIDTH]
    have hw : CAM_D * ROAD_W * WIDTH / 2 / (l2.z - playerZ) ≤
        CAM_D * ROAD_W * WIDTH / 2 / (l1.z - playerZ) :=
      div_le_div_of_nonneg_left (le_of_lt hk) h1 h12
    have hw2 : 0 ≤ CAM_D * ROAD_W * WIDTH / 2 / (l2.z - playerZ) :=
      le_of_lt (div_pos hk h2)
    obtain ⟨hb1, hb2⟩ := closeBoost_antitone _ _ h12
    have hl : laneWidth (CAM_D * ROAD_W * WIDTH / 2 / (l2.z - playerZ)) * (55 / 100) ≤
        laneWidth (CAM_D * ROAD_W * WIDTH / 2 / (l1.z - playerZ)) * (55 / 100) := by
      unfold laneWidth
      norm_num [NUM_LANES]
      linarith
    have hl0 : 0 ≤ laneWidth (CAM_D * ROAD_W * WIDTH / 2 / (l2.z - playerZ)) * (55 / 100) := by
      unfold laneWidth
      norm_num [NUM_LANES]
      linarith
    exact mul_le_mul hl hb2 (by linarith) (le_trans hl0 hl)

/-- C7 for an occupant 600 units and an occupant 2000 units ahead of a player
at depth zero. -/
theorem opponentDestW_antitone_bounded_witness :
    ∃ p1 p2 : Line,
      ({ Line.init with z := 600 } : Line).project 0 1500 0 = some p1 ∧
      ({ Line.init with z := 2000 } : Line).project 0 1500 0 = some p2 ∧
      p1.W = CAM_D * ROAD_W * WIDTH / 2 / (({ Line.init with z := 600 } : Line).z - (0 : ℤ)) ∧
      p2.W = CAM_D * ROAD_W * WIDTH / 2 / (({ Line.init with z := 2000 } : Line).z - (0 : ℤ)) ∧
      opponentDestW p2.W (({ Line.init with z := 2000 } : Line).z - (0 : ℤ)) ≤
        opponentDestW p1.W (({ Line.init with z := 600 } : Line).z - (0 : ℤ)) :=
  opponentDestW_antitone_bounded.2.2 { Line.init with z := 600 } { Line.init with z := 2000 }
    0 1500 0 1500 0 (by norm_num) (by norm_num)

/-! ### Scenery scale curve -/

/-- The band boundaries as multiples of `SEG_LEN`. -/
lemma segLen_cast (m : ℤ) : (((SEG_LEN * m : ℤ)) : ℚ) = 200 * (m : ℚ) := by
  simp [SEG_LEN]

/-- Within one band the scale difference is the slope times the distance
difference. -/
lemma sceneryBand_sub (k : ℕ) (hk : k ≤ 10) (d1 d2 : ℚ) :
    sceneryBand k d1 - sceneryBand k d2 = (d2 - d1) * bandSlope k := by
  interval_cases k <;>
    simp only [sceneryBand, bandSlope, ↓reduceIte, OfNat.ofNat_ne_zero, OfNat.ofNat_ne_one,
      Nat.reduceEqDiff, one_ne_zero] <;>
    norm_num [SEG_LEN] <;> ring

/-- Every slope lies between zero and `1 / 500`. -/
lemma bandSlope_bounds (k : ℕ) (hk : k ≤ 10) : 0 ≤ bandSlope k ∧ bandSlope k ≤ 1 / 500 := by
  interval_cases k <;> simp only [bandSlope] <;> norm_num

/-- The far end of a band is the near end of the band before it. -/
lemma bandHi_succ (k : ℕ) (hk : k < 10) : bandHi (k + 1) = bandLo k := by
  interval_cases k <;> rfl

/-- Each band has its near end before its far end. -/
lemma bandLo_le_bandHi (k : ℕ) (hk : k ≤ 10) : bandLo k ≤ bandHi k := by
  interval_cases k <;> simp only [bandLo, bandHi] <;> norm_num

/-- The two formulas that meet at a band boundary agree there. -/
lemma sceneryBand_boundary (k : ℕ) (hk : k < 10) :
    sceneryBand (k + 1) (bandLo k) = sceneryBand k (bandLo k) := by
  interval_cases k <;>
    simp only [sceneryBand, bandLo, ↓reduceIte, OfNat.ofNat_ne_zero, OfNat.ofNat_ne_one,
      Nat.reduceEqDiff, one_ne_zero, Nat.reduceAdd] <;>
    norm_num [SEG_LEN]

/-- Bands nearer to the camera end nearer to the camera. -/
lemma bandHi_antitone (k m : ℕ) (hk : k + m ≤ 10) : bandHi (k + m) ≤ bandHi k := by
  induction m with
  | zero => exact le_rfl
  | succ m ih =>
    have h1 : bandHi (k + m + 1) = bandLo (k + m) := bandHi_succ (k + m) (by omega)
    have h2 := bandLo_le_bandHi (k + m) (by omega)
    have h3 := ih (by omega)
    rw [← add_assoc, h1]
    linarith

/-- Across bands: from a nearer point in band `k + m` to a farther point in
band `k`, the scale does not grow and falls by at most `1 / 500` per unit. -/
lemma sceneryBand_chain (m : ℕ) :
    ∀ (k : ℕ) (d1 d2 : ℚ), k + m ≤ 10 → d1 ≤ d2 → d1 ≤ bandHi (k + m) →
      (0 < m → bandLo k ≤ d2) →
      0 ≤ sceneryBand (k + m) d1 - sceneryBand k d2 ∧
      sceneryBand (k + m) d1 - sceneryBand k d2 ≤ (d2 - d1) / 500 := by
  induction m with
  | zero =>
    intro k d1 d2 hk h12 _ _
    obtain ⟨s0, s1⟩ := bandSlope_bounds k (by omega)
    rw [add_zero, sceneryBand_sub k (by omega)]
    constructor
    · exact mul_nonneg (by linarith) s0
    · calc (d2 - d1) * bandSlope k ≤ (d2 - d1) * (1 / 500) :=
            mul_le_mul_of_nonneg_left s1 (by linarith)
        _ = (d2 - d1) / 500 := by ring
  | succ m ih =>
    intro k d1 d2 hk h12 h1 h2
    have hb : bandHi (k + 1) = bandLo k := bandHi_succ k (by omega)
    have e : k + (m + 1) = (k + 1) + m := by omega
    rw [e] at h1 ⊢
    have h1b : d1 ≤ bandLo k := by
      have := bandHi_antitone (k + 1) m (by omega)
      rw [← hb]; linarith
    have hlo : bandLo k ≤ d2 := h2 (by omega)
    obtain ⟨a0, a1⟩ := ih (k + 1) d1 (bandLo k) (by omega) h1b h1
      (fun _ => by rw [← hb]; exact bandLo_le_bandHi (k + 1) (by omega))
    obtain ⟨s0, s1⟩ := bandSlope_bounds k (by omega)
    have hc := sceneryBand_boundary k (by omega)
    have hs := sceneryBand_sub k (by omega) (bandLo k) d2
    have b0 : 0 ≤ (d2 - bandLo k) * bandSlope k := mul_nonneg (by linarith) s0
    have b1 : (d2 - bandLo k) * bandSlope k ≤ (d2 - bandLo k) * (1 / 500) :=
      mul_le_mul_of_nonneg_left s1 (by linarith)
    constructor <;> linarith

/-- The chain of distance tests selects, for a distance in `[0, SEG_LEN * 120]`,
a band that contains the distance. -/
lemma sceneryScale_band (d : ℚ) (h0 : 0 ≤ d) (h : d ≤ 24000) :
    ∃ k, k ≤ 10 ∧ bandLo k ≤ d ∧ d ≤ bandHi k ∧
      sceneryScale d = some (sceneryBand k d) := by
  unfold sceneryScale
  have c120 : ¬ d > ((SEG_LEN * 120 : ℤ) : ℚ) := by rw [segLen_cast]; norm_num; linarith
  rw [if_neg c120]
  by_cases c100 : d > ((SEG_LEN * 100 : ℤ) : ℚ)
  · rw [if_pos c100]; rw [segLen_cast] at c100
    exact ⟨0, by norm_num, by norm_num [bandLo] at *; linarith, by norm_num [bandHi] at *; linarith, rfl⟩
  rw [if_neg c100]; rw [segLen_cast] at c100
  by_cases c80 : d > ((SEG_LEN * 80 : ℤ) : ℚ)
  · rw [if_pos c80]; rw [segLen_cast] at c80
    exact ⟨1, by norm_num, by norm_num [bandLo] at *; linarith, by norm_num [bandHi] at *; linarith, rfl⟩
  rw [if_neg c80]; rw [segLen_cast] at c80
  by_cases c60 : d > ((SEG_LEN * 60 : ℤ) : ℚ)
  · rw [if_pos c60]; rw [segLen_cast] at c60
    exact ⟨2, by norm_num, by norm_num [bandLo] at *; linarith, by norm_num [bandHi] at *; linarith, rfl⟩
  rw [if_neg c60]; rw [segLen_cast] at c60
  by_cases c45 : d > ((SEG_LEN * 45 : ℤ) : ℚ)
  · rw [if_pos c45]; rw [segLen_cast] at c45
    exact ⟨3, by norm_num, by norm_num [bandLo] at *; linarith, by norm_num [bandHi] at *; linarith, rfl⟩
  rw [if_neg c45]; rw [segLen_cast] at c45
  by_cases c30 : d > ((SEG_LEN * 30 : ℤ) : ℚ)
  · rw [if_pos c30]; rw [segLen_cast] at c30
    exact ⟨4, by norm_num, by norm_num [bandLo] at *; linarith, by norm_num [bandHi] at *; linarith, rfl⟩
  rw [if_neg c30]; rw [segLen_cast] at c30
  by_cases c20 : d > ((SEG_LEN * 20 : ℤ) : ℚ)
  · rw [if_pos c20]; rw [segLen_cast] at c20
    exact ⟨5, by norm_num, by norm_num [bandLo] at *; linarith, by norm_num [bandHi] at *; linarith, rfl⟩
  rw [if_neg c20]; rw [segLen_cast] at c20
  by_cases c12 : d > ((SEG_LEN * 12 : ℤ) : ℚ)
  · rw [if_pos c12]; rw [segLen_cast] at c12
    exact ⟨6, by norm_num, by norm_num [bandLo] at *; linarith, by norm_num [bandHi] at *; linarith, rfl⟩
  rw [if_neg c12]; rw [segLen_cast] at c12
  by_cases c6 : d > ((SEG_LEN * 6 : ℤ) : ℚ)
  · rw [if_pos c6]; rw [segLen_cast] at c6
    exact ⟨7, by norm_num, by norm_num [bandLo] at *; linarith, by norm_num [bandHi] at *; linarith, rfl⟩
  rw [if_neg c6]; rw [segLen_cast] at c6
  by_cases c3 : d > ((SEG_LEN * 3 : ℤ) : ℚ)
  · rw [if_pos c3]; rw [segLen_cast] at c3
    exact ⟨8, by norm_num, by norm_num [bandLo] at *; linarith, by norm_num [bandHi] at *; linarith, rfl⟩
  rw [if_neg c3]; rw [segLen_cast] at c3
  by_cases c1 : d > ((SEG_LEN * 1 : ℤ) : ℚ)
  · rw [if_pos c1]; rw [segLen_cast] at c1
    exact ⟨9, by norm_num, by norm_num [bandLo] at *; linarith, by norm_num [bandHi] at *; linarith, rfl⟩
  rw [if_neg c1]; rw [segLen_cast] at c1
  exact ⟨10, by norm_num, by norm_num [bandLo] at *; linarith, by norm_num [bandHi] at *; linarith, rfl⟩

/-- On `[0, SEG_LEN * 120]` the scale is defined, does not grow with the
distance, and falls by at most `1 / 500` per unit of distance. -/
lemma sceneryScale_lipschitz (d1 d2 : ℚ) (h0 : 0 ≤ d1) (h12 : d1 ≤ d2) (h2 : d2 ≤ 24000) :
    ∃ s1 s2 : ℚ, sceneryScale d1 = some s1 ∧ sceneryScale d2 = some s2 ∧
      0 ≤ s1 - s2 ∧ s1 - s2 ≤ (d2 - d1) / 500 := by
  obtain ⟨k1, hk1, lo1, hi1, e1⟩ := sceneryScale_band d1 h0 (le_trans h12 h2)
  obtain ⟨k2, hk2, lo2, hi2, e2⟩ := sceneryScale_band d2 (le_trans h0 h12) h2
  refine ⟨_, _, e1, e2, ?_⟩
  rcases Nat.lt_or_ge k1 k2 with h | h
  · have hb : bandHi k2 ≤ bandLo k1 := by
      have h3 := bandHi_antitone (k1 + 1) (k2 - (k1 + 1)) (by omega)
      have h4 : k1 + 1 + (k2 - (k1 + 1)) = k2 := by omega
      rw [h4, bandHi_succ k1 (by omega)] at h3
      exact h3
    have hd : d1 = d2 := le_antisymm h12 (by linarith)
    subst hd
    have : sceneryBand k1 d1 = sceneryBand k2 d1 := by
      rw [e1] at e2
      exact Option.some.inj e2
    rw [this]
    constructor <;> linarith
  · have h4 : k2 + (k1 - k2) = k1 := by omega
    have := sceneryBand_chain (k1 - k2) k2 d1 d2 (by omega) h12 (by rw [h4]; exact hi1)
      (fun _ => lo2)
    rw [h4] at this
    exact this

/-- C8: at each of the ten boundaries between two adjacent scale bands of
`drawScenery` (100, 80, 60, 45, 30, 20, 12, 6, 3 and 1 times `SEG_LEN`) the
formula of the band below the boundary and the formula of the band above it
give the same scale (0.04, 0.06, 0.09, 0.14, 0.22, 0.35, 0.55, 0.85, 1.3, 1.8);
and the curve has no jump on `[0, 120 * SEG_LEN]`: it is defined there, does not
grow with the distance, and between two distances it changes by at most 1/500
of their difference. -/
theorem scenery_scale_continuous :
    (sceneryBand 1 ((SEG_LEN * 100 : ℤ) : ℚ) = 4 / 100 ∧
      sceneryBand 0 ((SEG_LEN * 100 : ℤ) : ℚ) = 4 / 100) ∧
    (sceneryBand 2 ((SEG_LEN * 80 : ℤ) : ℚ) = 6 / 100 ∧
      sceneryBand 1 ((SEG_LEN * 80 : ℤ) : ℚ) = 6 / 100) ∧
    (sceneryBand 3 ((SEG_LEN * 60 : ℤ) : ℚ) = 9 / 100 ∧
      sceneryBand 2 ((SEG_LEN * 60 : ℤ) : ℚ) = 9 / 100) ∧
    (sceneryBand 4 ((SEG_LEN * 45 : ℤ) : ℚ) = 14 / 100 ∧
      sceneryBand 3 ((SEG_LEN * 45 : ℤ) : ℚ) = 14 / 100) ∧
    (sceneryBand 5 ((SEG_LEN * 30 : ℤ) : ℚ) = 22 / 100 ∧
      sceneryBand 4 ((SEG_LEN * 30 : ℤ) : ℚ) = 22 / 100) ∧
    (sceneryBand 6 ((SEG_LEN * 20 : ℤ) : ℚ) = 35 / 100 ∧
      sceneryBand 5 ((SEG_LEN * 20 : ℤ) : ℚ) = 35 / 100) ∧
    (sceneryBand 7 ((SEG_LEN * 12 : ℤ) : ℚ) = 55 / 100 ∧
      sceneryBand 6 ((SEG_LEN * 12 : ℤ) : ℚ) = 55 / 100) ∧
    (sceneryBand 8 ((SEG_LEN * 6 : ℤ) : ℚ) = 85 / 100 ∧
      sceneryBand 7 ((SEG_LEN * 6 : ℤ) : ℚ) = 85 / 100) ∧
    (sceneryBand 9 ((SEG_LEN * 3 : ℤ) : ℚ) = 13 / 10 ∧
      sceneryBand 8 ((SEG_LEN * 3 : ℤ) : ℚ) = 13 / 10) ∧
    (sceneryBand 10 ((SEG_LEN * 1 : ℤ) : ℚ) = 18 / 10 ∧
      sceneryBand 9 ((SEG_LEN * 1 : ℤ) : ℚ) = 18 / 10) ∧
    (∀ d1 d2 : ℚ, 0 ≤ d1 → d1 ≤ d2 → d2 ≤ ((SEG_LEN * 120 : ℤ) : ℚ) →
      ∃ s1 s2 : ℚ, sceneryScale d1 = some s1 ∧ sceneryScale d2 = some s2 ∧
        0 ≤ s1 - s2 ∧ s1 - s2 ≤ (d2 - d1) / 500) := by
  have hl : ∀ d1 d2 : ℚ, 0 ≤ d1 → d1 ≤ d2 → d2 ≤ ((SEG_LEN * 120 : ℤ) : ℚ) →
      ∃ s1 s2 : ℚ, sceneryScale d1 = some s1 ∧ sceneryScale d2 = some s2 ∧
        0 ≤ s1 - s2 ∧ s1 - s2 ≤ (d2 - d1) / 500 := by
    intro d1 d2 h0 h12 h2
    exact sceneryScale_lipschitz d1 d2 h0 h12 (by rw [segLen_cast] at h2; norm_num at h2; exact h2)
  refine ⟨⟨?_, ?_⟩, ⟨?_, ?_⟩, ⟨?_, ?_⟩, ⟨?_, ?_⟩, ⟨?_, ?_⟩, ⟨?_, ?_⟩, ⟨?_, ?_⟩, ⟨?_, ?_⟩,
    ⟨?_, ?_⟩, ⟨?_, ?_⟩, hl⟩
  all_goals
    simp only [sceneryBand, ↓reduceIte, OfNat.ofNat_ne_zero, OfNat.ofNat_ne_one,
      Nat.reduceEqDiff, one_ne_zero]
    norm_num [SEG_LEN]

/-- C8 between the distances 3900 and 4100, on either side of the boundary
`20 * SEG_LEN`. -/
theorem scenery_scale_continuous_witness :
    ∃ s1 s2 : ℚ, sceneryScale 3900 = some s1 ∧ sceneryScale 4100 = some s2 ∧
      0 ≤ s1 - s2 ∧ s1 - s2 ≤ (4100 - 3900) / 500 :=
  scenery_scale_continuous.2.2.2.2.2.2.2.2.2.2 3900 4100 (by norm_num) (by norm_num)
    (by norm_num [SEG_LEN])

/-! ### Boost -/

/-- The boost variables after one frame of a running game. -/
lemma updateFrame_boost (inp : FrameInput) (s : GameState) (hs : s.isOver = false) :
    (updateFrame inp s).isOver = inp.collision ∧
    (updateFrame inp s).boostsLeft = s.boostsLeft ∧
    (updateFrame inp s).speed = (if s.isBoosting then 400 else 200) ∧
    (updateFrame inp s).isBoosting =
      (if s.isBoosting && decide (s.boostTimer + 1 > 120) then false else s.isBoosting) ∧
    (updateFrame inp s).boostTimer =
      (if s.isBoosting then (if s.boostTimer + 1 > 120 then 0 else s.boostTimer + 1)
        else s.boostTimer) := by
  unfold updateFrame
  rw [if_neg (by simp [hs])]
  refine ⟨rfl, rfl, rfl, ?_, ?_⟩
  · cases hb : s.isBoosting <;> simp
  · cases hb : s.isBoosting <;> simp

/-- A run of frames splits at any point. -/
lemma runFrames_append (a b : List FrameInput) (s : GameState) :
    runFrames (a ++ b) s = runFrames b (runFrames a s) := by
  induction a generalizing s with
  | nil => rfl
  | cons x a ih => simp [runFrames, ih]

/-- While the boost timer has not passed 120, every frame without collision
keeps the boost on, counts the timer up by one and sets the boosted speed. -/
lemma runFrames_boosting (inps : List FrameInput) :
    ∀ (s : GameState) (t : ℤ), (∀ inp ∈ inps, inp.collision = false) →
      s.isOver = false → s.isBoosting = true → s.boostTimer = t → 0 ≤ t →
      t + inps.length ≤ 120 →
      (runFrames inps s).isOver = false ∧ (runFrames inps s).isBoosting = true ∧
      (runFrames inps s).boostTimer = t + inps.length ∧
      (inps ≠ [] → (runFrames inps s).speed = 400) := by
  induction inps with
  | nil => intro s t _ h1 h2 h3 _ _; simp [runFrames, h1, h2, h3]
  | cons inp rest ih =>
    intro s t hc h1 h2 h3 h0 hlen
    obtain ⟨u1, _, u3, u4, u5⟩ := updateFrame_boost inp s h1
    have hc0 : inp.collision = false := hc inp (by simp)
    simp only [List.length_cons, Nat.cast_add, Nat.cast_one] at hlen
    have ht : ¬ (t + 1 > 120) := by
      have : (0 : ℤ) ≤ rest.length := Int.natCast_nonneg _
      omega
    rw [h2, h3] at u4 u5
    simp only [ht, decide_False, Bool.and_false, if_true, if_false] at u4 u5
    rw [h2] at u3
    obtain ⟨r1, r2, r3, r4⟩ := ih (updateFrame inp s) (t + 1)
      (fun i hi => hc i (List.mem_cons_of_mem _ hi)) (by rw [u1, hc0]) (by simpa using u4)
      (by simpa using u5) (by omega) (by omega)
    refine ⟨r1, r2, ?_, ?_⟩
    · rw [runFrames, r3]; simp only [List.length_cons, Nat.cast_add, Nat.cast_one]; ring
    · intro _
      rw [runFrames]
      cases rest with
      | nil => simpa [runFrames] using u3
      | cons x xs => exact r4 (by simp)

/-- The frame that finds the boost timer at 120 still sets the boosted speed
and ends the boost; the frame after it sets the normal speed. -/
lemma updateFrame_boost_end (inp inp2 : FrameInput) (s : GameState) (h1 : s.isOver = false)
    (h2 : s.isBoosting = true) (h3 : s.boostTimer = 120) (hc : inp.collision = false) :
    (updateFrame inp s).speed = 400 ∧ (updateFrame inp s).isBoosting = false ∧
    (updateFrame inp2 (updateFrame inp s)).speed = 200 := by
  obtain ⟨u1, _, u3, u4, _⟩ := updateFrame_boost inp s h1
  rw [h2] at u3
  rw [h2, h3] at u4
  have hb : (updateFrame inp s).isBoosting = false := by simpa using u4
  obtain ⟨_, _, v3, _, _⟩ := updateFrame_boost inp2 (updateFrame inp s) (by rw [u1, hc])
  rw [hb] at v3
  exact ⟨by simpa using u3, hb, by simpa using v3⟩

/-- An accepted activation leaves the game running and boosting with the
timer at zero. -/
lemma pressBoost_accepted (s : GameState) (h : (pressBoost s).2 = true) :
    s.isOver = false ∧ s.boostsLeft > 0 ∧ s.isBoosting = false ∧
    (pressBoost s).1 =
      { s with isBoosting := true, boostTimer := 0, boostsLeft := s.boostsLeft - 1 } := by
  unfold pressBoost at h ⊢
  split_ifs at h ⊢ with h1 h2
  · exact ⟨h1, h2.1, h2.2, rfl⟩

/-- C9 (what the code does): after an accepted activation, every frame without
collision up to and including the 121st sets the speed to the boosted tier 400,
and the 122nd frame sets it to the normal tier 200; the boost lasts 121 frames,
not 120. -/
theorem boost_lasts_121_frames (s : GameState) (hacc : (pressBoost s).2 = true)
    (inps : List FrameInput) (hc : ∀ inp ∈ inps, inp.collision = false)
    (hlen : inps.length = 122) :
    (∀ k : ℕ, 1 ≤ k → k ≤ 121 → (runFrames (inps.take k) (pressBoost s).1).speed = 400) ∧
    (runFrames (inps.take 122) (pressBoost s).1).speed = 200 := by
  obtain ⟨a1, _, _, a4⟩ := pressBoost_accepted s hacc
  have hs0 : (pressBoost s).1.isOver = false := by rw [a4]; exact a1
  have hs1 : (pressBoost s).1.isBoosting = true := by rw [a4]
  have hs2 : (pressBoost s).1.boostTimer = 0 := by rw [a4]
  have hct : ∀ k, ∀ inp ∈ inps.take k, inp.collision = false :=
    fun k inp hi => hc inp (List.mem_of_mem_take hi)
  have h120 := runFrames_boosting (inps.take 120) (pressBoost s).1 0 (hct 120) hs0 hs1 hs2
    le_rfl (by simp [hlen])
  have hl120 : (inps.take 120).length = 120 := by simp [hlen]
  rw [hl120] at h120
  obtain ⟨b1, b2, b3, _⟩ := h120
  obtain ⟨x, hx⟩ : ∃ x, inps[120]? = some x :=
    ⟨_, List.getElem?_eq_getElem (by omega)⟩
  obtain ⟨y, hy⟩ : ∃ y, inps[121]? = some y :=
    ⟨_, List.getElem?_eq_getElem (by omega)⟩
  have t121 : inps.take 121 = inps.take 120 ++ [x] := by
    rw [List.take_succ, hx]; rfl
  have t122 : inps.take 122 = inps.take 120 ++ [x] ++ [y] := by
    rw [List.take_succ, hy, t121]; rfl
  have hxc : x.collision = false := hc x (List.getElem?_mem hx)
  obtain ⟨e1, _, e3⟩ := updateFrame_boost_end x y (runFrames (inps.take 120) (pressBoost s).1)
    b1 b2 (by simpa using b3) hxc
  constructor
  · intro k hk1 hk2
    rcases Nat.lt_or_ge k 121 with h | h
    · have := runFrames_boosting (inps.take k) (pressBoost s).1 0 (hct k) hs0 hs1 hs2
        le_rfl (by simp [hlen]; omega)
      exact this.2.2.2 (by
        intro hnil
        have : (inps.take k).length = 0 := by rw [hnil]; rfl
        simp [hlen] at this
        omega)
    · have hk : k = 121 := by omega
      subst hk
      rw [t121, runFrames_append]
      simpa [runFrames] using e1
  · rw [t122, runFrames_append, runFrames_append]
    simpa [runFrames] using e3

/-- C9 on the initial state: the space bar is accepted, and with 122 frames
without input the speed is 400 after the 120th and the 121st frame and 200
after the 122nd. -/
theorem boost_lasts_121_frames_witness :
    (pressBoost GameState.initial).2 = true ∧
    (runFrames (List.replicate 120 idleFrame) (pressBoost GameState.initial).1).speed = 400 ∧
    (runFrames (List.replicate 121 idleFrame) (pressBoost GameState.initial).1).speed = 400 ∧
    (runFrames (List.replicate 122 idleFrame) (pressBoost GameState.initial).1).speed = 200 := by
  have hacc : (pressBoost GameState.initial).2 = true := by
    simp [pressBoost, GameState.initial, MAX_BOOSTS]
  have h := boost_lasts_121_frames GameState.initial hacc (List.replicate 122 idleFrame)
    (fun inp hi => by rw [List.eq_of_mem_replicate hi]; rfl) (by simp)
  have h120 := h.1 120 (by norm_num) (by norm_num)
  have h121 := h.1 121 (by norm_num) (by norm_num)
  have h122 := h.2
  simp only [List.take_replicate] at h120 h121 h122
  exact ⟨hacc, h120, h121, h122⟩

/-- A key press keeps the number of boost charges between 0 and 3. -/
lemma keyPressed_boostsLeft (k : Key) (s : GameState)
    (h : 0 ≤ s.boostsLeft ∧ s.boostsLeft ≤ 3) :
    0 ≤ (keyPressed k s).boostsLeft ∧ (keyPressed k s).boostsLeft ≤ 3 := by
  unfold keyPressed pressBoost
  simp only
  split_ifs <;> simp_all [resetGame, MAX_BOOSTS]
  all_goals omega

/-- A frame does not change the number of boost charges. -/
lemma updateFrame_boostsLeft (inp : FrameInput) (s : GameState) :
    (updateFrame inp s).boostsLeft = s.boostsLeft := by
  unfold updateFrame
  split_ifs <;> rfl

/-- The number of boost charges stays between 0 and 3 along every sequence of
events. -/
lemma foldl_boostsLeft (events : List GameEvent) :
    ∀ s : GameState, 0 ≤ s.boostsLeft ∧ s.boostsLeft ≤ 3 →
      0 ≤ (events.foldl applyEvent s).boostsLeft ∧
      (events.foldl applyEvent s).boostsLeft ≤ 3 := by
  induction events with
  | nil => intro s h; exact h
  | cons e rest ih =>
    intro s h
    rw [List.foldl_cons]
    apply ih
    cases e with
    | key k => exact keyPressed_boostsLeft k s h
    | frame inp =>
      show 0 ≤ (updateFrame inp s).boostsLeft ∧ (updateFrame inp s).boostsLeft ≤ 3
      rw [updateFrame_boostsLeft]; exact h

/-- C10: a press of the space bar activates a boost exactly when the game is
not over, a charge is left and no boost is in progress; an accepted press takes
exactly one charge (and starts the boost with the timer at zero); a refused
press, in particular one with no charge left, changes nothing; and in every
reachable state the number of charges is between 0 and 3. -/
theorem boost_charges (s : GameState) :
    ((pressBoost s).2 = true ↔
      (s.isOver = false ∧ s.boostsLeft > 0 ∧ s.isBoosting = false)) ∧
    keyPressed Key.Space s = (pressBoost s).1 ∧
    ((pressBoost s).2 = true →
      (pressBoost s).1.boostsLeft = s.boostsLeft - 1 ∧
      (pressBoost s).1.isBoosting = true ∧ (pressBoost s).1.boostTimer = 0) ∧
    ((pressBoost s).2 = false → (pressBoost s).1 = s) ∧
    (s.boostsLeft = 0 → (pressBoost s).2 = false) ∧
    (Reachable s → 0 ≤ s.boostsLeft ∧ s.boostsLeft ≤ 3) := by
  refine ⟨?_, ?_, ?_, ?_, ?_, ?_⟩
  · constructor
    · intro h
      obtain ⟨a1, a2, a3, _⟩ := pressBoost_accepted s h
      exact ⟨a1, a2, a3⟩
    · rintro ⟨a1, a2, a3⟩
      simp [pressBoost, a1, a2, a3]
  · unfold keyPressed
    by_cases ho : s.isOver = true
    · simp [pressBoost, ho]
    · simp [ho]
  · intro h
    obtain ⟨_, _, _, a4⟩ := pressBoost_accepted s h
    rw [a4]
    exact ⟨rfl, rfl, rfl⟩
  · intro h
    unfold pressBoost at h ⊢
    split_ifs at h ⊢ <;> simp_all
  · intro h0
    unfold pressBoost
    split_ifs with h1 h2
    · omega
    · rfl
    · rfl
  · rintro ⟨events, rfl⟩
    exact foldl_boostsLeft events GameState.initial (by simp [GameState.initial, MAX_BOOSTS])

/-- C10 on the state reached from the initial state by one press of the space
bar. -/
theorem boost_charges_witness :
    0 ≤ (keyPressed Key.Space GameState.initial).boostsLeft ∧
    (keyPressed Key.Space GameState.initial).boostsLeft ≤ 3 :=
  (boost_charges (keyPressed Key.Space GameState.initial)).2.2.2.2.2
    ⟨[GameEvent.key Key.Space], rfl⟩

/-! ### Reset -/

/-- C11: from every game-over state, the key `Y` yields a state with score 0,
camera position 0, three boost charges, the player in the middle lane, lateral
offset and target 0, no boost in progress with the timer at 0, and the game-over
flag cleared. -/
theorem reset_restores_defaults (s : GameState) (h : s.isOver = true) :
    (keyPressed Key.Y s).score = 0 ∧ (keyPressed Key.Y s).pos = 0 ∧
    (keyPressed Key.Y s).boostsLeft = 3 ∧ (keyPressed Key.Y s).boostsLeft = MAX_BOOSTS ∧
    (keyPressed Key.Y s).playerLane = 1 ∧
    (keyPressed Key.Y s).playerX = 0 ∧ (keyPressed Key.Y s).targetX = 0 ∧
    (keyPressed Key.Y s).isBoosting = false ∧ (keyPressed Key.Y s).boostTimer = 0 ∧
    (keyPressed Key.Y s).isOver = false ∧
    (keyPressed Key.Y s).leftPressed = false ∧ (keyPressed Key.Y s).rightPressed = false := by
  simp [keyPressed, h, resetGame, MAX_BOOSTS]

/-- C11 on the game-over state reached from the initial state by a boost and a
frame that ends in a collision. -/
theorem reset_restores_defaults_witness :
    (keyPressed Key.Y
      (updateFrame { leftKeyPressed := false, rightKeyPressed := true, collision := true }
        (keyPressed Key.Space GameState.initial))).boostsLeft = 3 :=
  (reset_restores_defaults
    (updateFrame { leftKeyPressed := false, rightKeyPressed := true, collision := true }
      (keyPressed Key.Space GameState.initial))
    (by simp [updateFrame, keyPressed, pressBoost, GameState.initial, MAX_BOOSTS])).2.2.1

/-! ### The result of `drawOpponent` -/

/-- The body of `drawOpponent` after the native size has been read. -/
lemma drawOpponent_eq (l : Line) (playerZ : ℤ) :
    l.drawOpponent playerZ =
      match l.hasOpponent, opponentOriginalSize l.opCar with
      | true, some (ow, oh) =>
        if ow ≤ 0 ∨ oh ≤ 0 then (FloatRect.zero, [])
        else if l.z - playerZ ≤ 0 then (FloatRect.zero, [])
        else if opponentCulled (opponentCarX l (opponentDestW l.W (l.z - playerZ)))
            (l.Y - opponentDestH (opponentDestW l.W (l.z - playerZ)) ow oh)
            (opponentDestW l.W (l.z - playerZ))
            (opponentDestH (opponentDestW l.W (l.z - playerZ)) ow oh) then (FloatRect.zero, [])
        else
          (⟨opponentCarX l (opponentDestW l.W (l.z - playerZ)),
            l.Y - opponentDestH (opponentDestW l.W (l.z - playerZ)) ow oh,
            opponentDestW l.W (l.z - playerZ),
            opponentDestH (opponentDestW l.W (l.z - playerZ)) ow oh⟩,
          opponentShadow l.Y (opponentCarX l (opponentDestW l.W (l.z - playerZ)))
              (opponentDestW l.W (l.z - playerZ)) (l.z - playerZ) ++
            [DrawCall.sprite (opponentCarX l (opponentDestW l.W (l.z - playerZ)))
              (l.Y - opponentDestH (opponentDestW l.W (l.z - playerZ)) ow oh)
              (opponentDestW l.W (l.z - playerZ))
              (opponentDestH (opponentDestW l.W (l.z - playerZ)) ow oh)])
      | _, _ => (FloatRect.zero, []) := by
  unfold Line.drawOpponent opponentOriginalSize opponentCulled opponentCarX
  cases l.hasOpponent with
  | false => rfl
  | true =>
    cases l.opCar.texture with
    | none => rfl
    | some tex => rfl

/-- The two outcomes of `drawOpponent`: it returns the zero rectangle and draws
nothing, or the occupant has a bound texture of positive native size, lies
strictly ahead of the player and is not culled, and the call draws the sprite
(after an optional shadow) in the rectangle it returns. -/
lemma drawOpponent_cases (l : Line) (playerZ : ℤ) :
    l.drawOpponent playerZ = (FloatRect.zero, []) ∨
    ∃ ow oh : ℚ,
      l.hasOpponent = true ∧ opponentOriginalSize l.opCar = some (ow, oh) ∧
      0 < ow ∧ 0 < oh ∧ 0 < l.z - playerZ ∧
      ¬ opponentCulled (opponentCarX l (opponentDestW l.W (l.z - playerZ)))
        (l.Y - opponentDestH (opponentDestW l.W (l.z - playerZ)) ow oh)
        (opponentDestW l.W (l.z - playerZ))
        (opponentDestH (opponentDestW l.W (l.z - playerZ)) ow oh) ∧
      l.drawOpponent playerZ =
        (⟨opponentCarX l (opponentDestW l.W (l.z - playerZ)),
          l.Y - opponentDestH (opponentDestW l.W (l.z - playerZ)) ow oh,
          opponentDestW l.W (l.z - playerZ),
          opponentDestH (opponentDestW l.W (l.z - playerZ)) ow oh⟩,
        opponentShadow l.Y (opponentCarX l (opponentDestW l.W (l.z - playerZ)))
            (opponentDestW l.W (l.z - playerZ)) (l.z - playerZ) ++
          [DrawCall.sprite (opponentCarX l (opponentDestW l.W (l.z - playerZ)))
            (l.Y - opponentDestH (opponentDestW l.W (l.z - playerZ)) ow oh)
            (opponentDestW l.W (l.z - playerZ))
            (opponentDestH (opponentDestW l.W (l.z - playerZ)) ow oh)]) := by
  rw [drawOpponent_eq]
  cases hO : l.hasOpponent with
  | false => left; rfl
  | true =>
    cases hS : opponentOriginalSize l.opCar with
    | none => left; rfl
    | some sz =>
      obtain ⟨ow, oh⟩ := sz
      simp only
      by_cases h1 : ow ≤ 0 ∨ oh ≤ 0
      · left; rw [if_pos h1]
      · rw [if_neg h1]
        by_cases h2 : l.z - (playerZ : ℚ) ≤ 0
        · left; rw [if_pos h2]
        · rw [if_neg h2]
          push_neg at h1 h2
          by_cases h3 : opponentCulled (opponentCarX l (opponentDestW l.W (l.z - playerZ)))
              (l.Y - opponentDestH (opponentDestW l.W (l.z - playerZ)) ow oh)
              (opponentDestW l.W (l.z - playerZ))
              (opponentDestH (opponentDestW l.W (l.z - playerZ)) ow oh)
          · left; rw [if_pos h3]
          · right
            rw [if_neg h3]
            exact ⟨ow, oh, trivial, rfl, h1.1, h1.2, h2, h3, rfl⟩

/-- The width and height of every returned traffic rectangle that is not the
zero rectangle respect the clamp floors. -/
lemma opponentDest_floor (W dz ow oh : ℚ) :
    8 ≤ opponentDestW W dz ∧ 6 ≤ opponentDestH (opponentDestW W dz) ow oh := by
  constructor
  · rw [opponentDestW_eq]; exact le_max_left _ _
  · unfold opponentDestH; exact le_max_left _ _

/-- Every step of the placement loop is the body of the loop at some window
index. -/
lemma placementStepsFrom_mem (lines : Track) (pos startPos : ℤ) :
    ∀ (count : ℕ) (n : ℤ) (st : PlacementStep),
      st ∈ placementStepsFrom lines pos startPos count n →
      ∃ m : ℤ, n ≤ m ∧ m < n + count ∧ st = placementStep lines pos startPos m := by
  intro count
  induction count with
  | zero => intro n st h; simp [placementStepsFrom] at h
  | succ count ih =>
    intro n st h
    rw [placementStepsFrom] at h
    rcases List.mem_cons.mp h with rfl | h
    · exact ⟨n, le_rfl, by push_cast; omega, rfl⟩
    · obtain ⟨m, h1, h2, h3⟩ := ih (n + 1) st h
      exact ⟨m, by omega, by push_cast; omega, h3⟩

/-- The traffic half of a step of the placement loop: either `drawOpponent` is
not called, or it is called on the segment of the step, its draw calls are the
step's, and its rectangle is collected when the width is positive. -/
lemma placementStep_traffic (lines : Track) (pos startPos n : ℤ) :
    ((placementStep lines pos startPos n).opponentDraws = [] ∧
      (placementStep lines pos startPos n).collected = none) ∨
    ((n < startPos + 300 ∧ (lines (n.tmod N)).hasOpponent = true ∧
        (lines (n.tmod N)).Y < HEIGHT ∧ (lines (n.tmod N)).Y > -100) ∧
      (placementStep lines pos startPos n).opponentDraws =
        ((lines (n.tmod N)).drawOpponent pos).2 ∧
      (placementStep lines pos startPos n).collected =
        if ((lines (n.tmod N)).drawOpponent pos).1.width > 0
        then some (((lines (n.tmod N)).drawOpponent pos).1, (lines (n.tmod N)).opponentLane)
        else none) := by
  unfold placementStep
  by_cases hc : n < startPos + 300 ∧ (lines (n.tmod N)).hasOpponent = true ∧
      (lines (n.tmod N)).Y < HEIGHT ∧ (lines (n.tmod N)).Y > -100
  · right
    simp only [if_pos hc]
    exact ⟨hc, trivial, trivial⟩
  · left
    simp only [if_neg hc]
    exact ⟨trivial, trivial⟩

/-- The step of the placement loop carries its window index. -/
lemma placementStep_n (lines : Track) (pos startPos n : ℤ) :
    (placementStep lines pos startPos n).n = n := by
  unfold placementStep
  simp only
  split_ifs <;> rfl

/-- C14: `drawOpponent` returns the zero rectangle (equivalently, a rectangle
of width 0) exactly when it draws nothing, and it draws nothing exactly when
there is no occupant, no bound texture, a non-positive native width or height,
a distance `dz ≤ 0`, or a rectangle entirely outside the padded screen.
Otherwise it returns the rectangle `(carX, carY, destW, destH)` in which it drew
the sprite, with `destW ≥ 8`, `destH ≥ 6` and the bottom edge on the projected
ground `Y`.  Hence a step of the placement pass collects a rectangle exactly
when `drawOpponent` was called and drew, and the collected pair is the drawn
rectangle with the lane of its segment. -/
theorem drawOpponent_result (l : Line) (playerZ : ℤ) :
    ((l.drawOpponent playerZ).1 = FloatRect.zero ↔ (l.drawOpponent playerZ).2 = []) ∧
    ((l.drawOpponent playerZ).1.width = 0 ↔ (l.drawOpponent playerZ).2 = []) ∧
    (0 < (l.drawOpponent playerZ).1.width ↔ (l.drawOpponent playerZ).2 ≠ []) ∧
    ((l.drawOpponent playerZ).2 = [] ↔
      (l.hasOpponent = false ∨ l.opCar.texture = none ∨
        ∃ ow oh : ℚ, opponentOriginalSize l.opCar = some (ow, oh) ∧
          (ow ≤ 0 ∨ oh ≤ 0 ∨ l.z - playerZ ≤ 0 ∨
            opponentCulled (opponentCarX l (opponentDestW l.W (l.z - playerZ)))
              (l.Y - opponentDestH (opponentDestW l.W (l.z - playerZ)) ow oh)
              (opponentDestW l.W (l.z - playerZ))
              (opponentDestH (opponentDestW l.W (l.z - playerZ)) ow oh)))) ∧
    ((l.drawOpponent playerZ).2 ≠ [] →
      8 ≤ (l.drawOpponent playerZ).1.width ∧ 6 ≤ (l.drawOpponent playerZ).1.height ∧
      (l.drawOpponent playerZ).1.top + (l.drawOpponent playerZ).1.height = l.Y ∧
      (l.drawOpponent playerZ).1.width = opponentDestW l.W (l.z - playerZ) ∧
      (l.drawOpponent playerZ).1.left = opponentCarX l (opponentDestW l.W (l.z - playerZ)) ∧
      DrawCall.sprite (l.drawOpponent playerZ).1.left (l.drawOpponent playerZ).1.top
        (l.drawOpponent playerZ).1.width (l.drawOpponent playerZ).1.height ∈
          (l.drawOpponent playerZ).2) ∧
    (∀ (lines : Track) (pos : ℤ), ∀ st ∈ placementSteps lines pos,
      (st.collected = none ↔ st.opponentDraws = []) ∧
      ∀ (r : FloatRect) (lane : ℤ), st.collected = some (r, lane) →
        DrawCall.sprite r.left r.top r.width r.height ∈ st.opponentDraws ∧
        lane = (lines (st.n.tmod N)).opponentLane ∧ 8 ≤ r.width) := by
  have key : ∀ (l : Line) (playerZ : ℤ),
      ((l.drawOpponent playerZ).1 = FloatRect.zero ∧ (l.drawOpponent playerZ).2 = []) ∨
      ((l.drawOpponent playerZ).2 ≠ [] ∧
        8 ≤ (l.drawOpponent playerZ).1.width ∧ 6 ≤ (l.drawOpponent playerZ).1.height ∧
        (l.drawOpponent playerZ).1.top + (l.drawOpponent playerZ).1.height = l.Y ∧
        (l.drawOpponent playerZ).1.width = opponentDestW l.W (l.z - playerZ) ∧
        (l.drawOpponent playerZ).1.left = opponentCarX l (opponentDestW l.W (l.z - playerZ)) ∧
        DrawCall.sprite (l.drawOpponent playerZ).1.left (l.drawOpponent playerZ).1.top
          (l.drawOpponent playerZ).1.width (l.drawOpponent playerZ).1.height ∈
            (l.drawOpponent playerZ).2) := by
    intro l playerZ
    rcases drawOpponent_cases l playerZ with h | ⟨ow, oh, _, _, _, _, _, _, h⟩
    · left; rw [h]; exact ⟨rfl, rfl⟩
    · right
      rw [h]
      obtain ⟨f1, f2⟩ := opponentDest_floor l.W (l.z - playerZ) ow oh
      refine ⟨by simp, f1, f2, by simp, rfl, rfl, by simp⟩
  have zw : ∀ (l : Line) (playerZ : ℤ),
      (0 < (l.drawOpponent playerZ).1.width ↔ (l.drawOpponent playerZ).2 ≠ []) := by
    intro l playerZ
    rcases key l playerZ with ⟨h1, h2⟩ | ⟨h1, h2, _⟩
    · rw [h1, h2]; simp [FloatRect.zero]
    · exact ⟨fun _ => h1, fun _ => by linarith⟩
  refine ⟨?_, ?_, zw l playerZ, ?_, ?_, ?_⟩
  · rcases key l playerZ with ⟨h1, h2⟩ | ⟨h1, h2, _⟩
    · simp [h1, h2]
    · constructor
      · intro h; rw [h] at h2; norm_num [FloatRect.zero] at h2
      · intro h; exact absurd h h1
  · rcases key l playerZ with ⟨h1, h2⟩ | ⟨h1, h2, _⟩
    · simp [h1, h2, FloatRect.zero]
    · constructor
      · intro h; rw [h] at h2; norm_num at h2
      · intro h; exact absurd h h1
  · rw [drawOpponent_eq]
    cases hO : l.hasOpponent with
    | false => simp
    | true =>
      cases hT : l.opCar.texture with
      | none => simp [opponentOriginalSize, hT]
      | some tex =>
        obtain ⟨texW, texH⟩ := tex
        have hS : ∃ ow oh : ℚ, opponentOriginalSize l.opCar = some (ow, oh) := by
          simp [opponentOriginalSize, hT]
        obtain ⟨ow, oh, hS⟩ := hS
        rw [hS]
        simp only
        by_cases h1 : ow ≤ 0 ∨ oh ≤ 0
        · rw [if_pos h1]
          simp only [true_iff]
          right; right
          exact ⟨ow, oh, rfl, by tauto⟩
        · rw [if_neg h1]
          by_cases h2 : l.z - (playerZ : ℚ) ≤ 0
          · rw [if_pos h2]
            simp only [true_iff]
            right; right
            exact ⟨ow, oh, rfl, by tauto⟩
          · rw [if_neg h2]
            by_cases h3 : opponentCulled (opponentCarX l (opponentDestW l.W (l.z - playerZ)))
                (l.Y - opponentDestH (opponentDestW l.W (l.z - playerZ)) ow oh)
                (opponentDestW l.W (l.z - playerZ))
                (opponentDestH (opponentDestW l.W (l.z - playerZ)) ow oh)
            · rw [if_pos h3]
              simp only [true_iff]
              right; right
              exact ⟨ow, oh, rfl, by tauto⟩
            · rw [if_neg h3]
              simp only [List.append_eq_nil, List.cons_ne_nil, and_false, false_iff, reduceCtorEq,
                false_or, not_exists, not_and]
              intro ow2 oh2 he
              have := Option.some.inj he
              simp only [Prod.mk.injEq] at this
              obtain ⟨rfl, rfl⟩ := this
              tauto
  · intro h
    rcases key l playerZ with ⟨_, h2⟩ | ⟨_, h2⟩
    · exact absurd h2 h
    · exact h2
  · intro lines pos st hst
    obtain ⟨m, _, _, rfl⟩ := placementStepsFrom_mem lines pos _ _ _ st hst
    rcases placementStep_traffic lines pos (startPosOf pos) m with ⟨e1, e2⟩ | ⟨_, e1, e2⟩
    · rw [e1, e2]
      exact ⟨by simp, by intro r lane he; simp at he⟩
    · rw [e1, e2]
      by_cases hw : ((lines (m.tmod N)).drawOpponent pos).1.width > 0
      · rw [if_pos hw]
        refine ⟨by simpa using (zw _ _).mp hw, ?_⟩
        intro r lane he
        simp only [Option.some.injEq, Prod.mk.injEq] at he
        obtain ⟨rfl, rfl⟩ := he
        rcases key (lines (m.tmod N)) pos with ⟨_, h2⟩ | ⟨_, h2, _, _, _, _, h7⟩
        · exact absurd h2 ((zw _ _).mp hw)
        · exact ⟨h7, by rw [placementStep_n], h2⟩
      · rw [if_neg hw]
        refine ⟨by simpa using fun h => hw ((zw _ _).mpr h), ?_⟩
        intro r lane he
        simp at he

/-! ### Traffic sprite and lane slot -/

/-- The probe beyond the near boost range is drawn in the rectangle
`(482, 490, 220, 110)`. -/
lemma farCarProbe_rect : (farCarProbe.drawOpponent 0).1 = ⟨482, 490, 220, 110⟩ ∧
    (farCarProbe.drawOpponent 0).2 ≠ [] := by
  have hW : opponentDestW 600 2000 = 220 := by
    rw [opponentDestW_eq]
    norm_num [laneWidth, closeBoost, NUM_LANES, SEG_LEN, WIDTH]
  have hH : opponentDestH 220 100 50 = 110 := by
    norm_num [opponentDestH, HEIGHT]
  rw [drawOpponent_eq]
  simp only [farCarProbe, Line.init, opponentOriginalSize]
  norm_num [hW, hH, opponentCarX, laneWidth, NUM_LANES, HEIGHT, WIDTH]
  rw [if_neg (by norm_num [opponentCulled, HEIGHT, WIDTH])]
  simp

/-- The probe inside the near boost range is drawn in the rectangle
`(440.75, 448.75, 302.5, 151.25)`. -/
lemma nearCarProbe_rect :
    (nearCarProbe.drawOpponent 0).1 = ⟨1763 / 4, 1795 / 4, 605 / 2, 605 / 4⟩ ∧
    (nearCarProbe.drawOpponent 0).2 ≠ [] := by
  have hW : opponentDestW 600 200 = 605 / 2 := by
    rw [opponentDestW_eq]
    norm_num [laneWidth, closeBoost, NUM_LANES, SEG_LEN, WIDTH]
  have hH : opponentDestH (605 / 2) 100 50 = 605 / 4 := by
    norm_num [opponentDestH, HEIGHT]
  rw [drawOpponent_eq]
  simp only [nearCarProbe, Line.init, opponentOriginalSize]
  norm_num [hW, hH, opponentCarX, laneWidth, NUM_LANES, HEIGHT, WIDTH]
  rw [if_neg (by norm_num [opponentCulled, HEIGHT, WIDTH])]
  simp

/-- C20: for a traffic occupant at least `6 * SEG_LEN` ahead of the player (no
near boost), with jitter in `[-0.8, 0.8]`, `W > 0` and `0.55 * laneWidth` inside
the clamp range `[8, 0.9 * WIDTH]`, the width is `0.55 * laneWidth` and the
extent `[carX, carX + destW]` lies within the lane slot
`[X - W + laneWidth * lane, X - W + laneWidth * (lane + 1)]`, for every lane;
this holds in particular for the rectangle that `drawOpponent` returns when it
draws.  Inside the near boost range there is an occupant, meeting the same
conditions on lane, jitter, `W` and the clamp range, that is drawn beyond the
right edge of its lane slot. -/
theorem opponent_within_lane_slot :
    (∀ (l : Line) (playerZ : ℤ),
      -(8 / 10) ≤ l.opponentOffset → l.opponentOffset ≤ 8 / 10 → 0 < l.W →
      (((SEG_LEN * 6 : ℤ)) : ℚ) ≤ l.z - playerZ →
      8 ≤ laneWidth l.W * (55 / 100) → laneWidth l.W * (55 / 100) ≤ (WIDTH : ℚ) * (9 / 10) →
      opponentDestW l.W (l.z - playerZ) = laneWidth l.W * (55 / 100) ∧
      l.X - l.W + laneWidth l.W * l.opponentLane ≤
        opponentCarX l (opponentDestW l.W (l.z - playerZ)) ∧
      opponentCarX l (opponentDestW l.W (l.z - playerZ)) + opponentDestW l.W (l.z - playerZ) ≤
        l.X - l.W + laneWidth l.W * (l.opponentLane + 1) ∧
      ((l.drawOpponent playerZ).2 ≠ [] →
        l.X - l.W + laneWidth l.W * l.opponentLane ≤ (l.drawOpponent playerZ).1.left ∧
        (l.drawOpponent playerZ).1.left + (l.drawOpponent playerZ).1.width ≤
          l.X - l.W + laneWidth l.W * (l.opponentLane + 1))) ∧
    (0 ≤ nearCarProbe.opponentLane ∧ nearCarProbe.opponentLane ≤ 2 ∧
      -(8 / 10) ≤ nearCarProbe.opponentOffset ∧ nearCarProbe.opponentOffset ≤ 8 / 10 ∧
      0 < nearCarProbe.W ∧ 0 < nearCarProbe.z - (0 : ℤ) ∧
      nearCarProbe.z - (0 : ℤ) < (((SEG_LEN * 6 : ℤ)) : ℚ) ∧
      8 ≤ laneWidth nearCarProbe.W * (55 / 100) ∧
      laneWidth nearCarProbe.W * (55 / 100) ≤ (WIDTH : ℚ) * (9 / 10) ∧
      (nearCarProbe.drawOpponent 0).2 ≠ [] ∧
      nearCarProbe.X - nearCarProbe.W +
          laneWidth nearCarProbe.W * (nearCarProbe.opponentLane + 1) <
        (nearCarProbe.drawOpponent 0).1.left + (nearCarProbe.drawOpponent 0).1.width) := by
  constructor
  · intro l playerZ ho1 ho2 hW hdz hc1 hc2
    have hlw : 0 < laneWidth l.W := by
      unfold laneWidth; norm_num [NUM_LANES]; linarith
    have hb : closeBoost (l.z - playerZ) = 1 := by
      unfold closeBoost
      rw [if_neg (not_lt.mpr hdz)]
    have hD : opponentDestW l.W (l.z - playerZ) = laneWidth l.W * (55 / 100) := by
      rw [opponentDestW_eq, hb, mul_one, min_eq_left hc2, max_eq_right hc1]
    have h1 : l.X - l.W + laneWidth l.W * l.opponentLane ≤
        opponentCarX l (opponentDestW l.W (l.z - playerZ)) := by
      rw [hD]
      unfold opponentCarX
      simp only
      nlinarith [mul_nonneg (le_of_lt hlw) (by linarith : (0 : ℚ) ≤ l.opponentOffset + 8 / 10)]
    have h2 : opponentCarX l (opponentDestW l.W (l.z - playerZ)) +
        opponentDestW l.W (l.z - playerZ) ≤
        l.X - l.W + laneWidth l.W * (l.opponentLane + 1) := by
      rw [hD]
      unfold opponentCarX
      simp only
      nlinarith [mul_nonneg (le_of_lt hlw) (by linarith : (0 : ℚ) ≤ 8 / 10 - l.opponentOffset)]
    refine ⟨hD, h1, h2, ?_⟩
    intro hd
    rcases drawOpponent_cases l playerZ with h | ⟨ow, oh, _, _, _, _, _, _, h⟩
    · rw [h] at hd; exact absurd rfl hd
    · rw [h]
      exact ⟨h1, h2⟩
  · obtain ⟨hr, hd⟩ := nearCarProbe_rect
    rw [hr]
    refine ⟨?_, ?_, ?_, ?_, ?_, ?_, ?_, ?_, ?_, hd, ?_⟩ <;>
      norm_num [nearCarProbe, Line.init, laneWidth, NUM_LANES, SEG_LEN, WIDTH]

/-- C20 on the probe ten segments ahead of the player: it is drawn, inside its
lane slot `[312, 712]`. -/
theorem opponent_within_lane_slot_witness :
    farCarProbe.X - farCarProbe.W + laneWidth farCarProbe.W * farCarProbe.opponentLane ≤
      (farCarProbe.drawOpponent 0).1.left ∧
    (farCarProbe.drawOpponent 0).1.left + (farCarProbe.drawOpponent 0).1.width ≤
      farCarProbe.X - farCarProbe.W + laneWidth farCarProbe.W * (farCarProbe.opponentLane + 1) :=
  (opponent_within_lane_slot.1 farCarProbe 0
    (by norm_num [farCarProbe, Line.init]) (by norm_num [farCarProbe, Line.init])
    (by norm_num [farCarProbe, Line.init]) (by norm_num [farCarProbe, Line.init, SEG_LEN])
    (by norm_num [farCarProbe, Line.init, laneWidth, NUM_LANES])
    (by norm_num [farCarProbe, Line.init, laneWidth, NUM_LANES, WIDTH])).2.2.2
    farCarProbe_rect.2

/-- C14 on the probe ten segments ahead of the player, which is drawn. -/
theorem drawOpponent_result_witness :
    8 ≤ (farCarProbe.drawOpponent 0).1.width ∧ 6 ≤ (farCarProbe.drawOpponent 0).1.height ∧
    (farCarProbe.drawOpponent 0).1.top + (farCarProbe.drawOpponent 0).1.height = farCarProbe.Y ∧
    (farCarProbe.drawOpponent 0).1.width =
      opponentDestW farCarProbe.W (farCarProbe.z - (0 : ℤ)) ∧
    (farCarProbe.drawOpponent 0).1.left =
      opponentCarX farCarProbe (opponentDestW farCarProbe.W (farCarProbe.z - (0 : ℤ))) ∧
    DrawCall.sprite (farCarProbe.drawOpponent 0).1.left (farCarProbe.drawOpponent 0).1.top
      (farCarProbe.drawOpponent 0).1.width (farCarProbe.drawOpponent 0).1.height ∈
        (farCarProbe.drawOpponent 0).2 :=
  (drawOpponent_result farCarProbe 0).2.2.2.2.1 farCarProbe_rect.2

/-! ### Lateral smoothing -/

/-- The lane and the lateral position after one frame of a running game: the
lane moves by at most one and stays in `0..2`, the target is the lane centre,
and the lateral position moves 15% of the way to the target. -/
lemma updateFrame_lateral (inp : FrameInput) (s : GameState) (hs : s.isOver = false) :
    (updateFrame inp s).targetX = (((updateFrame inp s).playerLane - 1 : ℤ) : ℚ) * (6 / 10) ∧
    (updateFrame inp s).playerX =
      s.playerX + ((updateFrame inp s).targetX - s.playerX) * (15 / 100) ∧
    (0 ≤ s.playerLane ∧ s.playerLane ≤ 2 →
      0 ≤ (updateFrame inp s).playerLane ∧ (updateFrame inp s).playerLane ≤ 2) := by
  unfold updateFrame
  rw [if_neg (by simp [hs])]
  refine ⟨rfl, rfl, ?_⟩
  intro h
  simp only [NUM_LANES]
  constructor
  · split_ifs <;> simp_all <;> omega
  · split_ifs <;> simp_all <;> omega

/-- A key press keeps the lane in `0..2` and the lateral position in
`[-0.6, 0.6]`. -/
lemma keyPressed_lateral (k : Key) (s : GameState)
    (h : (0 ≤ s.playerLane ∧ s.playerLane ≤ 2) ∧ -(6 / 10) ≤ s.playerX ∧ s.playerX ≤ 6 / 10) :
    (0 ≤ (keyPressed k s).playerLane ∧ (keyPressed k s).playerLane ≤ 2) ∧
    -(6 / 10) ≤ (keyPressed k s).playerX ∧ (keyPressed k s).playerX ≤ 6 / 10 := by
  unfold keyPressed pressBoost
  simp only
  split_ifs
  all_goals simp_all [resetGame]
  all_goals norm_num

/-- A frame keeps the lane in `0..2` and the lateral position in
`[-0.6, 0.6]`. -/
lemma updateFrame_lateral_bounds (inp : FrameInput) (s : GameState)
    (h : (0 ≤ s.playerLane ∧ s.playerLane ≤ 2) ∧ -(6 / 10) ≤ s.playerX ∧ s.playerX ≤ 6 / 10) :
    (0 ≤ (updateFrame inp s).playerLane ∧ (updateFrame inp s).playerLane ≤ 2) ∧
    -(6 / 10) ≤ (updateFrame inp s).playerX ∧ (updateFrame inp s).playerX ≤ 6 / 10 := by
  by_cases hs : s.isOver = true
  · have : updateFrame inp s = s := by unfold updateFrame; rw [if_pos hs]
    rw [this]; exact h
  · obtain ⟨e1, e2, e3⟩ := updateFrame_lateral inp s (by simpa using hs)
    obtain ⟨l0, l2⟩ := e3 h.1
    refine ⟨⟨l0, l2⟩, ?_⟩
    rw [e2, e1]
    have c0 : (0 : ℚ) ≤ (((updateFrame inp s).playerLane : ℤ) : ℚ) := by exact_mod_cast l0
    have c2 : (((updateFrame inp s).playerLane : ℤ) : ℚ) ≤ 2 := by exact_mod_cast l2
    push_cast
    constructor <;> linarith [h.2.1, h.2.2]

/-- The lane stays in `0..2` and the lateral position in `[-0.6, 0.6]` along
every sequence of events. -/
lemma foldl_lateral (events : List GameEvent) :
    ∀ s : GameState,
      ((0 ≤ s.playerLane ∧ s.playerLane ≤ 2) ∧ -(6 / 10) ≤ s.playerX ∧ s.playerX ≤ 6 / 10) →
      ((0 ≤ (events.foldl applyEvent s).playerLane ∧ (events.foldl applyEvent s).playerLane ≤ 2) ∧
        -(6 / 10) ≤ (events.foldl applyEvent s).playerX ∧
        (events.foldl applyEvent s).playerX ≤ 6 / 10) := by
  induction events with
  | nil => intro s h; exact h
  | cons e rest ih =>
    intro s h
    rw [List.foldl_cons]
    apply ih
    cases e with
    | key k => exact keyPressed_lateral k s h
    | frame inp => exact updateFrame_lateral_bounds inp s h

/-- C17: on every update frame the gap between the frame's target and the
lateral position shrinks to exactly 0.85 of what it was when the frame read the
position: it keeps its sign, does not overshoot, and vanishes only if it was
already zero.  The target is `(playerLane - 1) * 0.6`; and in every reachable
state the lane is in `0..2` and the lateral position in `[-0.6, 0.6]`. -/
theorem lateral_smoothing (inp : FrameInput) (s : GameState) (hs : s.isOver = false) :
    (updateFrame inp s).targetX - (updateFrame inp s).playerX =
      (85 / 100) * ((updateFrame inp s).targetX - s.playerX) ∧
    (0 < (updateFrame inp s).targetX - s.playerX →
      0 < (updateFrame inp s).targetX - (updateFrame inp s).playerX ∧
      s.playerX < (updateFrame inp s).playerX ∧
      (updateFrame inp s).playerX < (updateFrame inp s).targetX) ∧
    ((updateFrame inp s).targetX - s.playerX < 0 →
      (updateFrame inp s).targetX - (updateFrame inp s).playerX < 0 ∧
      (updateFrame inp s).playerX < s.playerX ∧
      (updateFrame inp s).targetX < (updateFrame inp s).playerX) ∧
    ((updateFrame inp s).targetX - (updateFrame inp s).playerX = 0 ↔
      (updateFrame inp s).targetX - s.playerX = 0) ∧
    (updateFrame inp s).targetX = (((updateFrame inp s).playerLane - 1 : ℤ) : ℚ) * (6 / 10) ∧
    (Reachable s →
      (0 ≤ s.playerLane ∧ s.playerLane ≤ 2) ∧ -(6 / 10) ≤ s.playerX ∧ s.playerX ≤ 6 / 10) := by
  obtain ⟨e1, e2, _⟩ := updateFrame_lateral inp s hs
  have hg : (updateFrame inp s).targetX - (updateFrame inp s).playerX =
      (85 / 100) * ((updateFrame inp s).targetX - s.playerX) := by
    rw [e2]; ring
  refine ⟨hg, ?_, ?_, ?_, e1, ?_⟩
  · intro h
    refine ⟨by rw [hg]; positivity, ?_, ?_⟩
    · rw [e2]; linarith
    · linarith [hg]
  · intro h
    refine ⟨by rw [hg]; linarith, ?_, ?_⟩
    · rw [e2]; linarith
    · linarith [hg]
  · rw [hg]
    constructor
    · intro h
      have := mul_eq_zero.mp h
      rcases this with h | h
      · norm_num at h
      · exact h
    · intro h; rw [h]; ring
  · rintro ⟨events, rfl⟩
    exact foldl_lateral events GameState.initial (by norm_num [GameState.initial])

/-- C17 on the first frame of a game with the right key held: the player moves
to lane 2 and the gap to the new target 0.6 shrinks to 0.51. -/
theorem lateral_smoothing_witness :
    (updateFrame { leftKeyPressed := false, rightKeyPressed := true, collision := false }
        GameState.initial).targetX -
      (updateFrame { leftKeyPressed := false, rightKeyPressed := true, collision := false }
        GameState.initial).playerX =
    (85 / 100) *
      ((updateFrame { leftKeyPressed := false, rightKeyPressed := true, collision := false }
        GameState.initial).targetX - GameState.initial.playerX) :=
  (lateral_smoothing { leftKeyPressed := false, rightKeyPressed := true, collision := false }
    GameState.initial rfl).1

/-! ### Score and position -/

/-- The wrap normalisation of a position less than one lap and one boosted
step above zero is the remainder modulo the track length. -/
lemma wrapPos_eq_emod (p : ℤ) (h0 : 0 ≤ p) (h1 : p < 2 * (N * SEG_LEN)) :
    wrapPos p = p % (N * SEG_LEN) := by
  by_cases h : p < N * SEG_LEN
  · rw [wrapPos_of_range p h0 h]
    simp only [N, SEG_LEN] at *
    omega
  · have := wrapPos_add_lap (p - N * SEG_LEN) (by linarith) (by linarith)
    rw [sub_add_cancel] at this
    rw [this]
    simp only [N, SEG_LEN] at *
    omega

/-- The position, score and speed after one frame of a running game. -/
lemma updateFrame_pos (inp : FrameInput) (s : GameState) (hs : s.isOver = false) :
    (updateFrame inp s).pos = wrapPos (s.pos + (updateFrame inp s).speed) ∧
    (updateFrame inp s).score = (updateFrame inp s).pos.tdiv 100 ∧
    ((updateFrame inp s).speed = 200 ∨ (updateFrame inp s).speed = 400) := by
  unfold updateFrame
  rw [if_neg (by simp [hs])]
  refine ⟨rfl, rfl, ?_⟩
  simp only
  split_ifs
  · right; rfl
  · left; rfl

/-- A key press other than an accepted `Y` leaves position and score
unchanged. -/
lemma keyPressed_pos (k : Key) (s : GameState) (hk : k ≠ Key.Y) :
    (keyPressed k s).pos = s.pos ∧ (keyPressed k s).score = s.score := by
  unfold keyPressed pressBoost
  simp only [hk, and_false, if_false]
  split_ifs <;> exact ⟨rfl, rfl⟩

/-- Without a reset, the position is the distance travelled modulo the track
length and the score is the position divided by 100. -/
lemma foldl_position (events : List GameEvent) :
    ∀ (s : GameState) (d0 : ℤ), (∀ e ∈ events, e ≠ GameEvent.key Key.Y) → 0 ≤ d0 →
      s.pos = d0 % (N * SEG_LEN) → s.score = s.pos.tdiv 100 →
      0 ≤ d0 + distanceTravelled events s ∧
      (events.foldl applyEvent s).pos = (d0 + distanceTravelled events s) % (N * SEG_LEN) ∧
      (events.foldl applyEvent s).score = (events.foldl applyEvent s).pos.tdiv 100 := by
  induction events with
  | nil =>
    intro s d0 _ h0 hp hsc
    simp only [distanceTravelled, add_zero, List.foldl_nil]
    exact ⟨h0, hp, hsc⟩
  | cons e rest ih =>
    intro s d0 hno h0 hp hsc
    have hno' : ∀ e ∈ rest, e ≠ GameEvent.key Key.Y :=
      fun x hx => hno x (List.mem_cons_of_mem _ hx)
    cases e with
    | key k =>
      have hk : k ≠ Key.Y := by
        intro h
        exact hno (GameEvent.key k) (by simp) (by rw [h])
      obtain ⟨k1, k2⟩ := keyPressed_pos k s hk
      simp only [distanceTravelled, List.foldl_cons, applyEvent]
      exact ih (keyPressed k s) d0 hno' h0 (by rw [k1]; exact hp) (by rw [k1, k2]; exact hsc)
    | frame inp =>
      simp only [distanceTravelled, List.foldl_cons, applyEvent]
      by_cases hs : s.isOver = true
      · have hu : updateFrame inp s = s := by unfold updateFrame; rw [if_pos hs]
        rw [hu, if_pos hs, zero_add]
        exact ih s d0 hno' h0 hp hsc
      · rw [if_neg hs, ← add_assoc]
        obtain ⟨u1, u2, u3⟩ := updateFrame_pos inp s (by simpa using hs)
        have hL : (0 : ℤ) < N * SEG_LEN := by norm_num [N, SEG_LEN]
        have hp0 : 0 ≤ s.pos := by rw [hp]; exact Int.emod_nonneg _ (ne_of_gt hL)
        have hp1 : s.pos < N * SEG_LEN := by rw [hp]; exact Int.emod_lt_of_pos _ hL
        have hsp : 0 ≤ (updateFrame inp s).speed ∧ (updateFrame inp s).speed ≤ 400 := by
          rcases u3 with h | h <;> rw [h] <;> norm_num
        apply ih (updateFrame inp s) (d0 + (updateFrame inp s).speed) hno' (by linarith)
        · rw [u1, wrapPos_eq_emod _ (by linarith) (by simp only [N, SEG_LEN] at *; omega), hp]
          simp only [N, SEG_LEN]
          omega
        · exact u2

/-- A run of idle frames of a running game without boost travels 200 units per
frame and stays running without boost. -/
lemma idle_run (k : ℕ) :
    ∀ s : GameState, s.isOver = false → s.isBoosting = false →
      distanceTravelled (List.replicate k (GameEvent.frame idleFrame)) s = 200 * k := by
  induction k with
  | zero => intro s _ _; simp [distanceTravelled]
  | succ k ih =>
    intro s h1 h2
    obtain ⟨u1, _, u3, u4, _⟩ := updateFrame_boost idleFrame s h1
    rw [List.replicate_succ, distanceTravelled, if_neg (by simp [h1]), u3, h2,
      ih (updateFrame idleFrame s) (by rw [u1]; rfl) (by rw [u4, h2]; rfl)]
    push_cast
    ring

/-- C12 (as amended): during uninterrupted play (no reset) the position is the
total distance travelled modulo the track length `N * SEG_LEN` and the score
is the position divided by 100; so the score equals the distance travelled
divided by 100 as long as that distance is below the track length, and a frame
that does not take the camera past the end of the track does not lower the
score. -/
theorem score_of_position (events : List GameEvent)
    (hno : ∀ e ∈ events, e ≠ GameEvent.key Key.Y) :
    0 ≤ distanceTravelled events GameState.initial ∧
    (events.foldl applyEvent GameState.initial).pos =
      distanceTravelled events GameState.initial % (N * SEG_LEN) ∧
    (events.foldl applyEvent GameState.initial).score =
      (distanceTravelled events GameState.initial % (N * SEG_LEN)).tdiv 100 ∧
    (distanceTravelled events GameState.initial < N * SEG_LEN →
      (events.foldl applyEvent GameState.initial).score =
        (distanceTravelled events GameState.initial).tdiv 100) ∧
    (∀ inp : FrameInput, (events.foldl applyEvent GameState.initial).isOver = false →
      (events.foldl applyEvent GameState.initial).pos +
          (updateFrame inp (events.foldl applyEvent GameState.initial)).speed < N * SEG_LEN →
      (events.foldl applyEvent GameState.initial).score ≤
        (updateFrame inp (events.foldl applyEvent GameState.initial)).score) := by
  obtain ⟨h0, h1, h2⟩ := foldl_position events GameState.initial 0 hno le_rfl
    (by simp [GameState.initial]) (by simp [GameState.initial])
  rw [zero_add] at h0 h1
  have hL : (0 : ℤ) < N * SEG_LEN := by norm_num [N, SEG_LEN]
  refine ⟨h0, h1, by rw [h2, h1], ?_, ?_⟩
  · intro hlt
    rw [h2, h1, Int.emod_eq_of_lt h0 hlt]
  · intro inp hs hlt
    obtain ⟨u1, u2, u3⟩ := updateFrame_pos inp _ hs
    have hp0 : 0 ≤ (events.foldl applyEvent GameState.initial).pos := by
      rw [h1]; exact Int.emod_nonneg _ (ne_of_gt hL)
    have hsp : 0 ≤ (updateFrame inp (events.foldl applyEvent GameState.initial)).speed := by
      rcases u3 with h | h <;> rw [h] <;> norm_num
    rw [u2, u1, wrapPos_of_range _ (by linarith) hlt, h2,
      Int.tdiv_eq_ediv hp0 (by norm_num), Int.tdiv_eq_ediv (by linarith) (by norm_num)]
    omega

/-- C12 on a run of three idle frames: position 600, score 6. -/
theorem score_of_position_witness :
    ((List.replicate 3 (GameEvent.frame idleFrame)).foldl applyEvent GameState.initial).pos =
      distanceTravelled (List.replicate 3 (GameEvent.frame idleFrame)) GameState.initial %
        (N * SEG_LEN) :=
  (score_of_position (List.replicate 3 (GameEvent.frame idleFrame))
    (fun e he => by rw [List.eq_of_mem_replicate he]; simp)).2.1

/-- C12 as stated fails: after 1599 idle frames the score is 3198; the 1600th
frame takes the camera past the end of the track, the position wraps to 0 and
the score falls to 0, while the distance travelled is 320000 (which divided by
100 is 3200). -/
theorem score_wraps_counterexample :
    ((List.replicate 1599 (GameEvent.frame idleFrame)).foldl applyEvent
      GameState.initial).score = 3198 ∧
    ((List.replicate 1600 (GameEvent.frame idleFrame)).foldl applyEvent
      GameState.initial).score = 0 ∧
    distanceTravelled (List.replicate 1600 (GameEvent.frame idleFrame)) GameState.initial =
      320000 := by
  have hno : ∀ k : ℕ, ∀ e ∈ List.replicate k (GameEvent.frame idleFrame),
      e ≠ GameEvent.key Key.Y := fun k e he => by rw [List.eq_of_mem_replicate he]; simp
  have hd : ∀ k : ℕ, distanceTravelled (List.replicate k (GameEvent.frame idleFrame))
      GameState.initial = 200 * k := fun k => idle_run k GameState.initial rfl rfl
  obtain ⟨_, a1, a2⟩ := foldl_position (List.replicate 1599 (GameEvent.frame idleFrame))
    GameState.initial 0 (hno 1599) le_rfl (by simp [GameState.initial])
    (by simp [GameState.initial])
  obtain ⟨_, b1, b2⟩ := foldl_position (List.replicate 1600 (GameEvent.frame idleFrame))
    GameState.initial 0 (hno 1600) le_rfl (by simp [GameState.initial])
    (by simp [GameState.initial])
  rw [zero_add, hd] at a1 b1
  refine ⟨?_, ?_, ?_⟩
  · rw [a2, a1]; norm_num [N, SEG_LEN]; decide
  · rw [b2, b1]; norm_num [N, SEG_LEN]
  · rw [hd]; norm_num

/-! ### Population of the track -/

/-- A draw of `dist_spawn` is not negative. -/
lemma dist_spawn_nonneg (rs : RandomSource) (t : ℕ) : 0 ≤ dist_spawn rs t := by
  unfold dist_spawn distInt
  have := Int.emod_nonneg (rs.ints t : ℤ) (show (100 - 0 + 1 : ℤ) ≠ 0 by norm_num)
  linarith

/-- A draw of `dist_lane` is a lane. -/
lemma dist_lane_range (rs : RandomSource) (t : ℕ) : 0 ≤ dist_lane rs t ∧ dist_lane rs t ≤ 2 := by
  unfold dist_lane distInt
  simp only [NUM_LANES]
  have h1 := Int.emod_nonneg (rs.ints t : ℤ) (show (3 - 1 - 0 + 1 : ℤ) ≠ 0 by norm_num)
  have h2 := Int.emod_lt_of_pos (rs.ints t : ℤ) (show (0 : ℤ) < 3 - 1 - 0 + 1 by norm_num)
  constructor <;> omega

/-- A draw of `dist_offset` lies in `[-0.8, 0.8]`. -/
lemma dist_offset_range (rs : RandomSource) (t : ℕ) :
    -(8 / 10) ≤ dist_offset rs t ∧ dist_offset rs t ≤ 8 / 10 := by
  unfold dist_offset
  exact ⟨le_max_left _ _, max_le (by norm_num) (min_le_right _ _)⟩

/-- What the traffic scatter does to the track: the segments it changes form a
set `S` of indices from `i` on inside the array, at most `8 - opponentCount` of
them, each changed by `placeOpponent`; the start index is among them when the
loop runs at all. -/
lemma scatterTrafficFrom_spec (rs : RandomSource) (assets : Assets) :
    ∀ (m : ℕ) (i opponentCount : ℤ) (t : ℕ) (lines : Track), (N - i).toNat ≤ m →
      ∃ S : Finset ℤ,
        ((S.card : ℤ) + opponentCount ≤ 8 ∨ S = ∅) ∧
        (i < N → opponentCount < 8 → i ∈ S) ∧
        (∀ j ∈ S, i ≤ j ∧ j < N ∧
          ∃ t' : ℕ, (scatterTrafficFrom rs assets i opponentCount t lines).1 j =
            placeOpponent rs assets t' (lines j)) ∧
        (∀ j, j ∉ S → (scatterTrafficFrom rs assets i opponentCount t lines).1 j = lines j) := by
  intro m
  induction m with
  | zero =>
    intro i c t lines hm
    have hi : ¬ i < N := by omega
    refine ⟨∅, Or.inr rfl, fun h => absurd h hi, by simp, ?_⟩
    intro j _
    rw [scatterTrafficFrom, if_neg hi]
  | succ m ih =>
    intro i c t lines hm
    by_cases hi : i < N
    · by_cases hc : c ≥ 8
      · refine ⟨∅, Or.inr rfl, fun _ h => absurd hc (not_le.mpr h), by simp, ?_⟩
        intro j _
        rw [scatterTrafficFrom, if_pos hi, if_pos hc]
      · have hstep := Int.tmod_nonneg 200 (dist_spawn_nonneg rs (t + 3))
        obtain ⟨S, hS1, _, hS3, hS4⟩ := ih (i + (150 + (dist_spawn rs (t + 3)).tmod 200)) (c + 1)
          (t + 4) (Function.update lines i (placeOpponent rs assets t (lines i))) (by omega)
        have hiS : i ∉ S := fun h => by have := (hS3 i h).1; omega
        refine ⟨insert i S, ?_, fun _ _ => Finset.mem_insert_self i S, ?_, ?_⟩
        · left
          rw [Finset.card_insert_of_not_mem hiS]
          rcases hS1 with h | h
          · push_cast; omega
          · rw [h]; simp; omega
        · intro j hj
          rw [scatterTrafficFrom, if_pos hi, if_neg hc]
          rcases Finset.mem_insert.mp hj with rfl | hj
          · refine ⟨le_rfl, hi, t, ?_⟩
            rw [hS4 j hiS, Function.update_same]
          · obtain ⟨h1, h2, t', h3⟩ := hS3 j hj
            refine ⟨by omega, h2, t', ?_⟩
            rw [h3, Function.update_noteq (by omega)]
        · intro j hj
          rw [scatterTrafficFrom, if_pos hi, if_neg hc]
          have h1 : j ≠ i := fun h => hj (by rw [h]; exact Finset.mem_insert_self i S)
          have h2 : j ∉ S := fun h => hj (Finset.mem_insert_of_mem h)
          rw [hS4 j h2, Function.update_noteq h1]
    · refine ⟨∅, Or.inr rfl, fun h => absurd h hi, by simp, ?_⟩
      intro j _
      rw [scatterTrafficFrom, if_neg hi]

/-- The body of the first scenery pass changes at most the segment `i`, by
`placeScenery`. -/
lemma sceneryBody_spec (rs : RandomSource) (assets : Assets) (i : ℤ) (t : ℕ) (lines : Track)
    (j : ℤ) :
    (sceneryBody rs assets i t lines).1 j = lines j ∨
      (j = i ∧ ∃ t' : ℕ, (sceneryBody rs assets i t lines).1 j =
        placeScenery rs assets t' (lines j)) := by
  unfold sceneryBody
  by_cases hc : (dist_spawn rs t).tmod 100 < 75
  · rw [if_pos hc]
    by_cases hj : j = i
    · right
      subst hj
      exact ⟨rfl, t + 1, by simp⟩
    · left
      simp [Function.update_noteq hj]
  · rw [if_neg hc]
    left; rfl

/-- The body of the second scenery pass changes at most the segment `i`, which
had no scenery, by `placePalm`. -/
lemma palmBody_spec (rs : RandomSource) (assets : Assets) (i : ℤ) (t : ℕ) (lines : Track)
    (j : ℤ) :
    (palmBody rs assets i t lines).1 j = lines j ∨
      (j = i ∧ (lines j).hasScenery = false ∧ ∃ t' : ℕ,
        (palmBody rs assets i t lines).1 j = placePalm rs assets t' (lines j)) := by
  unfold palmBody
  by_cases hc : (dist_spawn rs t).tmod 100 < 40 ∧ (lines i).hasScenery = false
  · rw [if_pos hc]
    by_cases hj : j = i
    · right
      subst hj
      exact ⟨rfl, hc.2, t + 1, by simp⟩
    · left
      simp [Function.update_noteq hj]
  · rw [if_neg hc]
    left; rfl

/-- The body of the live injection loop changes at most the segment `i`, inside
the array, by `placeOpponent`. -/
lemma injectBody_spec (rs : RandomSource) (assets : Assets) (i : ℤ) (t : ℕ) (lines : Track)
    (h0 : 0 ≤ i) (j : ℤ) :
    (injectBody rs assets i t lines).1 j = lines j ∨
      (j = i ∧ i < N ∧ ∃ t' : ℕ, (injectBody rs assets i t lines).1 j =
        placeOpponent rs assets t' (lines j)) := by
  unfold injectBody
  by_cases hc : i < N ∧ (lines (i.tmod N)).hasOpponent = false
  · rw [if_pos hc]
    have hmod : i.tmod N = i := by
      rw [Int.tmod_eq_emod h0 (by norm_num [N])]
      exact Int.emod_eq_of_lt h0 hc.1
    by_cases hd : (dist_spawn rs t).tmod 100 < 30
    · rw [if_pos hd, hmod]
      by_cases hj : j = i
      · right
        subst hj
        exact ⟨rfl, hc.1, t + 1, by simp⟩
      · left
        simp [Function.update_noteq hj]
    · rw [if_neg hd]
      left; rfl
  · rw [if_neg hc]
    left; rfl

/-- What the first scenery pass does to the track: every segment is unchanged
or, at an index from `i` on inside the array, changed by `placeScenery`. -/
lemma scatterSceneryFrom_spec (rs : RandomSource) (assets : Assets) :
    ∀ (m : ℕ) (i : ℤ) (t : ℕ) (lines : Track), (N - i).toNat ≤ m →
      ∀ j : ℤ, (scatterSceneryFrom rs assets i t lines).1 j = lines j ∨
        (i ≤ j ∧ j < N ∧ ∃ t' : ℕ,
          (scatterSceneryFrom rs assets i t lines).1 j = placeScenery rs assets t' (lines j)) := by
  intro m
  induction m with
  | zero =>
    intro i t lines hm j
    have hi : ¬ i < N := by omega
    left
    rw [scatterSceneryFrom, if_neg hi]
  | succ m ih =>
    intro i t lines hm j
    by_cases hi : i < N
    · rw [scatterSceneryFrom, if_pos hi]
      have hstep := Int.tmod_nonneg 40
        (dist_spawn_nonneg rs (sceneryBody rs assets i t lines).2)
      rcases ih (i + (20 + (dist_spawn rs (sceneryBody rs assets i t lines).2).tmod 40))
        ((sceneryBody rs assets i t lines).2 + 1) (sceneryBody rs assets i t lines).1
        (by omega) j with h | ⟨h1, h2, t', h3⟩
      · rw [h]
        rcases sceneryBody_spec rs assets i t lines j with hb | ⟨hj, t', hb⟩
        · left; exact hb
        · right; exact ⟨by omega, by omega, t', hb⟩
      · rcases sceneryBody_spec rs assets i t lines j with hb | ⟨hj, _⟩
        · right
          rw [hb] at h3
          exact ⟨by omega, h2, t', h3⟩
        · omega
    · left
      rw [scatterSceneryFrom, if_neg hi]

/-- What the second scenery pass does to the track: every segment is unchanged
or, at an index from `i` on inside the array that had no scenery, changed by
`placePalm`. -/
lemma scatterPalmsFrom_spec (rs : RandomSource) (assets : Assets) :
    ∀ (m : ℕ) (i : ℤ) (t : ℕ) (lines : Track), (N - i).toNat ≤ m →
      ∀ j : ℤ, (scatterPalmsFrom rs assets i t lines).1 j = lines j ∨
        (i ≤ j ∧ j < N ∧ (lines j).hasScenery = false ∧ ∃ t' : ℕ,
          (scatterPalmsFrom rs assets i t lines).1 j = placePalm rs assets t' (lines j)) := by
  intro m
  induction m with
  | zero =>
    intro i t lines hm j
    have hi : ¬ i < N := by omega
    left
    rw [scatterPalmsFrom, if_neg hi]
  | succ m ih =>
    intro i t lines hm j
    by_cases hi : i < N
    · rw [scatterPalmsFrom, if_pos hi]
      have hstep := Int.tmod_nonneg 25 (dist_spawn_nonneg rs (palmBody rs assets i t lines).2)
      rcases ih (i + (35 + (dist_spawn rs (palmBody rs assets i t lines).2).tmod 25))
        ((palmBody rs assets i t lines).2 + 1) (palmBody rs assets i t lines).1
        (by omega) j with h | ⟨h1, h2, h4, t', h3⟩
      · rw [h]
        rcases palmBody_spec rs assets i t lines j with hb | ⟨hj, hs, t', hb⟩
        · left; exact hb
        · right; exact ⟨by omega, by omega, hs, t', hb⟩
      · rcases palmBody_spec rs assets i t lines j with hb | ⟨hj, _⟩
        · right
          rw [hb] at h3 h4
          exact ⟨by omega, h2, h4, t', h3⟩
        · omega
    · left
      rw [scatterPalmsFrom, if_neg hi]

/-- What the live injection does to the track: every segment is unchanged or,
at an index from `i` on inside the array, changed by `placeOpponent`. -/
lemma injectTrafficFrom_spec (rs : RandomSource) (assets : Assets) (bound : ℤ) :
    ∀ (m : ℕ) (i : ℤ) (t : ℕ) (lines : Track), (bound - i).toNat ≤ m → 0 ≤ i →
      ∀ j : ℤ, (injectTrafficFrom rs assets bound i t lines).1 j = lines j ∨
        (i ≤ j ∧ j < N ∧ ∃ t' : ℕ,
          (injectTrafficFrom rs assets bound i t lines).1 j =
            placeOpponent rs assets t' (lines j)) := by
  intro m
  induction m with
  | zero =>
    intro i t lines hm _ j
    have hi : ¬ i < bound := by omega
    left
    rw [injectTrafficFrom, if_neg hi]
  | succ m ih =>
    intro i t lines hm h0 j
    by_cases hi : i < bound
    · rw [injectTrafficFrom, if_pos hi]
      have hstep := Int.tmod_nonneg 150 (dist_spawn_nonneg rs (injectBody rs assets i t lines).2)
      rcases ih (i + (100 + (dist_spawn rs (injectBody rs assets i t lines).2).tmod 150))
        ((injectBody rs assets i t lines).2 + 1) (injectBody rs assets i t lines).1
        (by omega) (by omega) j with h | ⟨h1, h2, t', h3⟩
      · rw [h]
        rcases injectBody_spec rs assets i t lines h0 j with hb | ⟨hj, hN, t', hb⟩
        · left; exact hb
        · right; exact ⟨by omega, by omega, t', hb⟩
      · rcases injectBody_spec rs assets i t lines h0 j with hb | ⟨hj, _⟩
        · right
          rw [hb] at h3
          exact ⟨by omega, h2, t', h3⟩
        · omega
    · left
      rw [injectTrafficFrom, if_neg hi]

/-- A placed traffic occupant has a lane in `0..2` and a jitter in
`[-0.8, 0.8]`. -/
lemma placeOpponent_inRange (rs : RandomSource) (assets : Assets) (t : ℕ) (l : Line) :
    TrafficInRange (placeOpponent rs assets t l) :=
  fun _ => ⟨dist_lane_range rs t, dist_offset_range rs (t + 1)⟩

/-- Placing scenery keeps a traffic occupant in range: the lane is untouched
and the overwritten jitter is a draw of `dist_offset`. -/
lemma placeScenery_inRange (rs : RandomSource) (assets : Assets) (t : ℕ) (l : Line)
    (h : TrafficInRange l) : TrafficInRange (placeScenery rs assets t l) :=
  fun ho => ⟨(h ho).1, dist_offset_range rs _⟩

/-- Placing a palm keeps a traffic occupant in range. -/
lemma placePalm_inRange (rs : RandomSource) (assets : Assets) (t : ℕ) (l : Line)
    (h : TrafficInRange l) : TrafficInRange (placePalm rs assets t l) :=
  fun ho => ⟨(h ho).1, dist_offset_range rs _⟩

/-- Placing scenery keeps the traffic of the segment. -/
lemma placeScenery_keeps (rs : RandomSource) (assets : Assets) (t : ℕ) (l : Line) :
    KeepsTraffic (placeScenery rs assets t l) l :=
  ⟨rfl, rfl, rfl, rfl, placeScenery_inRange rs assets t l⟩

/-- Placing a palm keeps the traffic of the segment. -/
lemma placePalm_keeps (rs : RandomSource) (assets : Assets) (t : ℕ) (l : Line) :
    KeepsTraffic (placePalm rs assets t l) l :=
  ⟨rfl, rfl, rfl, rfl, placePalm_inRange rs assets t l⟩

/-- Keeping the traffic composes. -/
lemma KeepsTraffic.trans {a b c : Line} (h1 : KeepsTraffic a b) (h2 : KeepsTraffic b c) :
    KeepsTraffic a c :=
  ⟨h1.1.trans h2.1, h1.2.1.trans h2.2.1, h1.2.2.1.trans h2.2.2.1,
    h1.2.2.2.1.trans h2.2.2.2.1, fun h => h1.2.2.2.2 (h2.2.2.2.2 h)⟩

/-- The first scenery pass keeps the traffic of every segment. -/
lemma scatterSceneryFrom_keeps (rs : RandomSource) (assets : Assets) (i : ℤ) (t : ℕ)
    (lines : Track) (j : ℤ) :
    KeepsTraffic ((scatterSceneryFrom rs assets i t lines).1 j) (lines j) := by
  rcases scatterSceneryFrom_spec rs assets _ i t lines le_rfl j with h | ⟨_, _, t1, h⟩
  · rw [h]; exact ⟨rfl, rfl, rfl, rfl, fun h => h⟩
  · rw [h]; exact placeScenery_keeps rs assets t1 _

/-- The second scenery pass keeps the traffic of every segment. -/
lemma scatterPalmsFrom_keeps (rs : RandomSource) (assets : Assets) (i : ℤ) (t : ℕ)
    (lines : Track) (j : ℤ) :
    KeepsTraffic ((scatterPalmsFrom rs assets i t lines).1 j) (lines j) := by
  rcases scatterPalmsFrom_spec rs assets _ i t lines le_rfl j with h | ⟨_, _, _, t1, h⟩
  · rw [h]; exact ⟨rfl, rfl, rfl, rfl, fun h => h⟩
  · rw [h]; exact placePalm_keeps rs assets t1 _

/-- The two scenery passes in sequence keep the traffic of every segment. -/
lemma scenery_passes_keep (rs : RandomSource) (assets : Assets) (t : ℕ) (lines : Track)
    (j : ℤ) :
    KeepsTraffic ((scatterPalmsFrom rs assets 50 (scatterSceneryFrom rs assets 100 t lines).2
      (scatterSceneryFrom rs assets 100 t lines).1).1 j) (lines j) :=
  (scatterPalmsFrom_keeps rs assets 50 _ _ j).trans (scatterSceneryFrom_keeps rs assets 100 t lines j)

/-- What the population does to a track without traffic: the segments with a
traffic occupant form a set of at most 8 indices of `400..N-1` that contains
400, every occupant is in range, and the depth of every segment is kept. -/
lemma populate_spec (rs : RandomSource) (assets : Assets) (t : ℕ) (lines : Track)
    (h0 : ∀ j, (lines j).hasOpponent = false) :
    ∃ S : Finset ℤ, S.card ≤ 8 ∧ (400 : ℤ) ∈ S ∧
      (∀ j, ((populate rs assets t lines).1 j).hasOpponent = true ↔ j ∈ S) ∧
      (∀ j ∈ S, 400 ≤ j ∧ j < N) ∧
      (∀ j, TrafficInRange ((populate rs assets t lines).1 j)) ∧
      (∀ j, ((populate rs assets t lines).1 j).z = (lines j).z) := by
  obtain ⟨S, hS1, hS2, hS3, hS4⟩ := scatterTrafficFrom_spec rs assets _ 400 0 t lines le_rfl
  have hcard : S.card ≤ 8 := by
    rcases hS1 with h | h
    · have : (S.card : ℤ) ≤ 8 := by linarith
      exact_mod_cast this
    · rw [h]; simp
  have hT : ∀ j, ((scatterTrafficFrom rs assets 400 0 t lines).1 j).hasOpponent = true ↔ j ∈ S := by
    intro j
    by_cases hj : j ∈ S
    · obtain ⟨_, _, t', h⟩ := hS3 j hj
      rw [h]
      exact ⟨fun _ => hj, fun _ => rfl⟩
    · rw [hS4 j hj, h0 j]
      exact ⟨fun h => by simp at h, fun h => absurd h hj⟩
  have hR : ∀ j, TrafficInRange ((scatterTrafficFrom rs assets 400 0 t lines).1 j) := by
    intro j
    by_cases hj : j ∈ S
    · obtain ⟨_, _, t', h⟩ := hS3 j hj
      rw [h]
      exact placeOpponent_inRange rs assets t' _
    · rw [hS4 j hj]
      intro ho
      rw [h0 j] at ho
      simp at ho
  have hZ : ∀ j, ((scatterTrafficFrom rs assets 400 0 t lines).1 j).z = (lines j).z := by
    intro j
    by_cases hj : j ∈ S
    · obtain ⟨_, _, t', h⟩ := hS3 j hj
      rw [h]; rfl
    · rw [hS4 j hj]
  refine ⟨S, hcard, hS2 (by norm_num [N]) (by norm_num), ?_, fun j hj => ⟨(hS3 j hj).1,
    (hS3 j hj).2.1⟩, ?_, ?_⟩
  · intro j
    unfold populate
    simp only
    split_ifs
    · rw [(scenery_passes_keep rs assets _ _ j).1]; exact hT j
    · exact hT j
  · intro j
    unfold populate
    simp only
    split_ifs
    · exact (scenery_passes_keep rs assets _ _ j).2.2.2.2 (hR j)
    · exact hR j
  · intro j
    unfold populate
    simp only
    split_ifs
    · rw [(scenery_passes_keep rs assets _ _ j).2.2.2.1]; exact hZ j
    · exact hZ j

/-- The number of traffic occupants of a track whose occupants are the indices
of a set `S` inside the array that contains 400. -/
lemma trafficCount_bounds (lines : Track) (S : Finset ℤ) (hc : S.card ≤ 8)
    (h400 : (400 : ℤ) ∈ S) (hS : ∀ j, (lines j).hasOpponent = true ↔ j ∈ S) :
    1 ≤ trafficCount lines ∧ trafficCount lines ≤ 8 := by
  unfold trafficCount
  constructor
  · apply Finset.card_pos.mpr
    refine ⟨400, ?_⟩
    rw [Finset.mem_filter]
    exact ⟨by simp [N], (hS _).mpr (by exact_mod_cast h400)⟩
  · refine le_trans (Finset.card_le_card_of_injOn (fun i : ℕ => (i : ℤ)) ?_ ?_) hc
    · intro a ha
      exact (hS _).mp (Finset.mem_filter.mp ha).2
    · intro a _ b _ hab
      exact Int.ofNat.inj hab

/-- The constructed track carries no occupant. -/
lemma buildTrack_empty (hill : ℤ → ℚ) (j : ℤ) :
    (buildTrack hill j).hasOpponent = false ∧ (buildTrack hill j).hasScenery = false := by
  unfold buildTrack buildLine
  simp only
  split_ifs <;> exact ⟨rfl, rfl⟩

/-- C13 (as amended): for every outcome of the random source, after
construction and after every accepted reset, at least one and at most 8
segments carry a traffic occupant, and every traffic occupant has a lane in
`0..2` and a jitter in `[-0.8, 0.8]`.  (Nothing is promised on the number of
scenery occupants: each is placed only where a random draw succeeds.) -/
theorem population_size (rs : RandomSource) (assets : Assets) :
    (∀ hill : ℤ → ℚ,
      1 ≤ trafficCount (World.initial rs assets hill).lines ∧
      trafficCount (World.initial rs assets hill).lines ≤ 8 ∧
      ∀ j, TrafficInRange ((World.initial rs assets hill).lines j)) ∧
    (∀ w : World, w.game.isOver = true →
      1 ≤ trafficCount (worldKey rs assets Key.Y w).lines ∧
      trafficCount (worldKey rs assets Key.Y w).lines ≤ 8 ∧
      ∀ j, TrafficInRange ((worldKey rs assets Key.Y w).lines j)) := by
  constructor
  · intro hill
    obtain ⟨S, h1, h2, h3, _, h5, _⟩ := populate_spec rs assets 0 (buildTrack hill)
      (fun j => (buildTrack_empty hill j).1)
    obtain ⟨c1, c2⟩ := trafficCount_bounds (World.initial rs assets hill).lines S h1 h2 h3
    exact ⟨c1, c2, h5⟩
  · intro w hw
    obtain ⟨S, h1, h2, h3, _, h5, _⟩ := populate_spec rs assets w.drawn (clearOccupants w.lines)
      (fun j => rfl)
    have e : (worldKey rs assets Key.Y w).lines =
        (populate rs assets w.drawn (clearOccupants w.lines)).1 := by
      unfold worldKey
      rw [if_pos ⟨hw, rfl⟩]
    rw [e]
    obtain ⟨c1, c2⟩ := trafficCount_bounds _ S h1 h2 h3
    exact ⟨c1, c2, h5⟩

/-- C13 on the game-over state reached from the initial state by a frame that
ends in a collision. -/
theorem population_size_witness :
    1 ≤ trafficCount (worldKey unluckySource sampleAssets Key.Y
      { game := { GameState.initial with isOver := true },
        lines := buildTrack fun _ => 0, drawn := 0 }).lines ∧
    trafficCount (worldKey unluckySource sampleAssets Key.Y
      { game := { GameState.initial with isOver := true },
        lines := buildTrack fun _ => 0, drawn := 0 }).lines ≤ 8 :=
  ⟨((population_size unluckySource sampleAssets).2
      { game := { GameState.initial with isOver := true },
        lines := buildTrack fun _ => 0, drawn := 0 } rfl).1,
    ((population_size unluckySource sampleAssets).2
      { game := { GameState.initial with isOver := true },
        lines := buildTrack fun _ => 0, drawn := 0 } rfl).2.1⟩

/-- Every draw of `dist_spawn` from the unlucky source is 80. -/
lemma unlucky_spawn (t : ℕ) : dist_spawn unluckySource t = 80 := by
  unfold dist_spawn distInt unluckySource
  norm_num

/-- With the unlucky source the first scenery pass changes nothing. -/
lemma unlucky_scenery (assets : Assets) :
    ∀ (m : ℕ) (i : ℤ) (t : ℕ) (lines : Track), (N - i).toNat ≤ m →
      (scatterSceneryFrom unluckySource assets i t lines).1 = lines := by
  intro m
  induction m with
  | zero =>
    intro i t lines hm
    rw [scatterSceneryFrom, if_neg (by omega)]
  | succ m ih =>
    intro i t lines hm
    by_cases hi : i < N
    · have hb : sceneryBody unluckySource assets i t lines = (lines, t + 1) := by
        unfold sceneryBody
        rw [unlucky_spawn, if_neg (by decide)]
      rw [scatterSceneryFrom, if_pos hi, hb]
      simp only
      rw [unlucky_spawn]
      exact ih _ _ _ (by
        have : (80 : ℤ).tmod 40 = 0 := by decide
        omega)
    · rw [scatterSceneryFrom, if_neg hi]

/-- With the unlucky source the second scenery pass changes nothing. -/
lemma unlucky_palms (assets : Assets) :
    ∀ (m : ℕ) (i : ℤ) (t : ℕ) (lines : Track), (N - i).toNat ≤ m →
      (scatterPalmsFrom unluckySource assets i t lines).1 = lines := by
  intro m
  induction m with
  | zero =>
    intro i t lines hm
    rw [scatterPalmsFrom, if_neg (by omega)]
  | succ m ih =>
    intro i t lines hm
    by_cases hi : i < N
    · have hb : palmBody unluckySource assets i t lines = (lines, t + 1) := by
        unfold palmBody
        rw [unlucky_spawn, if_neg (by rintro ⟨h, _⟩; exact absurd h (by decide))]
      rw [scatterPalmsFrom, if_pos hi, hb]
      simp only
      rw [unlucky_spawn]
      exact ih _ _ _ (by
        have : (80 : ℤ).tmod 25 = 5 := by decide
        omega)
    · rw [scatterPalmsFrom, if_neg hi]


/-- With the unlucky source the population is the traffic scatter alone. -/
lemma unlucky_populate (assets : Assets) (t : ℕ) (lines : Track) :
    (populate unluckySource assets t lines).1 =
      (scatterTrafficFrom unluckySource assets 400 0 t lines).1 := by
  unfold populate
  by_cases h : assets.hasSceneryTextures = true
  · simp only [h, if_true]
    rw [unlucky_palms assets _ 50 _ _ le_rfl, unlucky_scenery assets _ 100 _ _ le_rfl]
  · simp only [h, if_false]
    simp

/-- With the unlucky source the constructed track has no scenery occupant. -/
lemma unlucky_no_scenery (assets : Assets) (hill : ℤ → ℚ) (j : ℤ) :
    ((World.initial unluckySource assets hill).lines j).hasScenery = false := by
  have e : (World.initial unluckySource assets hill).lines =
      (populate unluckySource assets 0 (buildTrack hill)).1 := rfl
  rw [e, unlucky_populate]
  obtain ⟨S, _, _, hS3, hS4⟩ := scatterTrafficFrom_spec unluckySource
    assets _ 400 0 0 (buildTrack hill) le_rfl
  by_cases hj : j ∈ S
  · obtain ⟨_, _, t', e⟩ := hS3 j hj
    rw [e]
    exact (buildTrack_empty _ j).2
  · rw [hS4 j hj]
    exact (buildTrack_empty _ j).2

/-- A track without scenery occupants counts none. -/
lemma sceneryCount_zero (lines : Track) (h : ∀ j, (lines j).hasScenery = false) :
    sceneryCount lines = 0 := by
  unfold sceneryCount
  rw [Finset.card_eq_zero, Finset.filter_eq_empty_iff]
  intro i _
  rw [h]
  exact Bool.false_ne_true

/-- C13 as stated fails: with the scenery textures loaded and a random source
whose every draw of `dist_spawn` is 80, every placement chance of the two
scenery passes fails and the constructed track carries no scenery occupant at
all. -/
theorem no_scenery_counterexample :
    sampleAssets.hasSceneryTextures = true ∧
    (∀ j, ((World.initial unluckySource sampleAssets fun _ => 0).lines j).hasScenery = false) ∧
    sceneryCount (World.initial unluckySource sampleAssets fun _ => 0).lines = 0 :=
  ⟨rfl, unlucky_no_scenery sampleAssets _, sceneryCount_zero _ (unlucky_no_scenery sampleAssets _)⟩

/-! ### Scenery placement and the traffic fields -/

/-- Every jitter drawn from `leftSource` is -0.8. -/
lemma leftSource_offset (t : ℕ) : dist_offset leftSource t = -(8 / 10) := by
  unfold dist_offset leftSource
  norm_num

/-- The traffic rectangle of `crossingCarProbe` before and after the scenery
placement. -/
lemma crossingCarProbe_rects :
    (crossingCarProbe.drawOpponent 0).1 = ⟨482, 590, 220, 110⟩ ∧
    (sceneryOnCarProbe.drawOpponent 0).1 = ⟨322, 590, 220, 110⟩ := by
  have hW : opponentDestW 600 2000 = 220 := by
    rw [opponentDestW_eq]
    norm_num [laneWidth, closeBoost, NUM_LANES, SEG_LEN, WIDTH]
  have hH : opponentDestH 220 100 50 = 110 := by
    norm_num [opponentDestH, HEIGHT]
  constructor
  · rw [drawOpponent_eq]
    simp only [crossingCarProbe, Line.init, opponentOriginalSize]
    norm_num [hW, hH, opponentCarX, laneWidth, NUM_LANES, HEIGHT, WIDTH]
    rw [if_neg (by norm_num [opponentCulled, HEIGHT, WIDTH])]
  · rw [drawOpponent_eq]
    simp only [sceneryOnCarProbe, placeScenery, leftSource_offset, crossingCarProbe, Line.init,
      opponentOriginalSize]
    norm_num [hW, hH, opponentCarX, laneWidth, NUM_LANES, HEIGHT, WIDTH]
    rw [if_neg (by norm_num [opponentCulled, HEIGHT, WIDTH])]

/-- C18 (as amended): at construction and on reset, the two scenery passes
leave every segment as the traffic scatter left it, or put a scenery occupant
on it, and then change only its scenery fields and the jitter `opponentOffset`,
which is overwritten by a fresh draw of `dist_offset`; `hasOpponent`,
`opponentLane`, the traffic sprite and all other fields are unchanged, and
`drawOpponent` on the segment with its former jitter put back gives the former
result. -/
theorem scenery_placement_effect (rs : RandomSource) (assets : Assets) (t : ℕ) (lines : Track)
    (j : ℤ) :
    ((populate rs assets t lines).1 j = (scatterTrafficFrom rs assets 400 0 t lines).1 j ∨
      ∃ (t' : ℕ) (kind : ℤ) (onLeft : Bool) (sp : Sprite),
        (populate rs assets t lines).1 j =
          { (scatterTrafficFrom rs assets 400 0 t lines).1 j with
            hasScenery := true, sceneryType := kind, sceneryOnLeft := onLeft,
            scenerySprite := sp, opponentOffset := dist_offset rs t' }) ∧
    ∀ playerZ : ℤ,
      Line.drawOpponent
        { (populate rs assets t lines).1 j with
          opponentOffset := ((scatterTrafficFrom rs assets 400 0 t lines).1 j).opponentOffset }
        playerZ = ((scatterTrafficFrom rs assets 400 0 t lines).1 j).drawOpponent playerZ := by
  have key : (populate rs assets t lines).1 j = (scatterTrafficFrom rs assets 400 0 t lines).1 j ∨
      ∃ (t' : ℕ) (kind : ℤ) (onLeft : Bool) (sp : Sprite),
        (populate rs assets t lines).1 j =
          { (scatterTrafficFrom rs assets 400 0 t lines).1 j with
            hasScenery := true, sceneryType := kind, sceneryOnLeft := onLeft,
            scenerySprite := sp, opponentOffset := dist_offset rs t' } := by
    unfold populate
    by_cases h : assets.hasSceneryTextures = true
    · simp only [h, if_true]
      rcases scatterPalmsFrom_spec rs assets _ 50 (scatterSceneryFrom rs assets 100
        (scatterTrafficFrom rs assets 400 0 t lines).2
        (scatterTrafficFrom rs assets 400 0 t lines).1).2
        (scatterSceneryFrom rs assets 100 (scatterTrafficFrom rs assets 400 0 t lines).2
        (scatterTrafficFrom rs assets 400 0 t lines).1).1 le_rfl j with h2 | ⟨_, _, hno, t2, h2⟩
      · rw [h2]
        rcases scatterSceneryFrom_spec rs assets _ 100
          (scatterTrafficFrom rs assets 400 0 t lines).2
          (scatterTrafficFrom rs assets 400 0 t lines).1 le_rfl j with h1 | ⟨_, _, t1, h1⟩
        · left; exact h1
        · right
          rw [h1]
          exact ⟨_, _, _, _, rfl⟩
      · rw [h2]
        rcases scatterSceneryFrom_spec rs assets _ 100
          (scatterTrafficFrom rs assets 400 0 t lines).2
          (scatterTrafficFrom rs assets 400 0 t lines).1 le_rfl j with h1 | ⟨_, _, t1, h1⟩
        · right
          rw [h1]
          exact ⟨_, _, _, _, rfl⟩
        · rw [h1] at hno
          exact absurd hno (by simp [placeScenery])
    · simp only [h, if_false]
      left; trivial
  refine ⟨key, ?_⟩
  intro playerZ
  rcases key with h | ⟨t', kind, onLeft, sp, h⟩
  · rw [h]
  · rw [h]
    rfl

/-- C18 as stated fails: a scenery placement on a segment that carries a traffic
occupant with jitter 0.8 overwrites the jitter (here with -0.8); the rectangle
`drawOpponent` returns moves from left edge 482 to left edge 322, and a player
in the same lane at `playerX = 0.51` collides with the former rectangle and not
with the latter. -/
theorem scenery_overwrites_jitter_counterexample :
    sceneryOnCarProbe = placeScenery leftSource sampleAssets 0 crossingCarProbe ∧
    crossingCarProbe.hasOpponent = true ∧
    crossingCarProbe.opponentOffset = 8 / 10 ∧
    sceneryOnCarProbe.opponentOffset = -(8 / 10) ∧
    (crossingCarProbe.drawOpponent 0).1 = ⟨482, 590, 220, 110⟩ ∧
    (sceneryOnCarProbe.drawOpponent 0).1 = ⟨322, 590, 220, 110⟩ ∧
    (collisionPass 1 (playerRect (51 / 100)) [((crossingCarProbe.drawOpponent 0).1, 1)]).isOver
      = true ∧
    (collisionPass 1 (playerRect (51 / 100)) [((sceneryOnCarProbe.drawOpponent 0).1, 1)]).isOver
      = false := by
  refine ⟨rfl, rfl, rfl, ?_, crossingCarProbe_rects.1, crossingCarProbe_rects.2, ?_, ?_⟩
  · simp only [sceneryOnCarProbe, placeScenery, leftSource_offset]
  · rw [crossingCarProbe_rects.1]
    simp only [collisionPass, collisionLoop, if_true, playerRect, FloatRect.intersects]
    norm_num [WIDTH, HEIGHT]
  · rw [crossingCarProbe_rects.2]
    simp only [collisionPass, collisionLoop, if_true, playerRect, FloatRect.intersects]
    norm_num [WIDTH, HEIGHT]

/-! ### The traffic index invariant -/

/-- A key press leaves the position unchanged or resets it to zero. -/
lemma keyPressed_pos_cases (k : Key) (s : GameState) :
    (keyPressed k s).pos = s.pos ∨ (keyPressed k s).pos = 0 := by
  by_cases hk : k = Key.Y
  · subst hk
    unfold keyPressed
    simp only [reduceCtorEq, if_false]
    by_cases ho : s.isOver = true
    · right
      rw [if_pos ⟨ho, trivial⟩]
      rfl
    · left
      rw [if_neg (fun h => ho h.1)]
  · exact Or.inl (keyPressed_pos k s hk).1

/-- The position after a frame of a running game whose position is a whole
number of segments inside one lap is again such a position. -/
lemma updateFrame_pos_inv (inp : FrameInput) (s : GameState) (hs : s.isOver = false)
    (h0 : 0 ≤ s.pos) (h1 : s.pos < N * SEG_LEN) (h2 : s.pos % SEG_LEN = 0) :
    0 ≤ (updateFrame inp s).pos ∧ (updateFrame inp s).pos < N * SEG_LEN ∧
    (updateFrame inp s).pos % SEG_LEN = 0 := by
  obtain ⟨e1, _, e3⟩ := updateFrame_pos inp s hs
  rw [e1]
  have hw : wrapPos (s.pos + (updateFrame inp s).speed) =
      (s.pos + (updateFrame inp s).speed) % (N * SEG_LEN) := by
    apply wrapPos_eq_emod
    · rcases e3 with e | e <;> rw [e] <;> linarith
    · rcases e3 with e | e <;> rw [e] <;> simp only [N, SEG_LEN] at * <;> omega
  rw [hw]
  simp only [N, SEG_LEN] at *
  rcases e3 with e | e <;> rw [e] <;> omega

/-- The initial state satisfies the invariant. -/
lemma initial_inv (rs : RandomSource) (assets : Assets) (hill : ℤ → ℚ) :
    (World.initial rs assets hill).Inv := by
  obtain ⟨S, _, _, h3, h4, _, h6⟩ := populate_spec rs assets 0 (buildTrack hill)
    (fun j => (buildTrack_empty hill j).1)
  refine ⟨fun j hj => h4 j ((h3 j).mp hj), ?_, le_rfl, ?_, ?_⟩
  · intro i hi0 hi1
    exact (h6 i).trans (buildTrack_depthByIndex hill i hi0 hi1)
  · show (0 : ℤ) < N * SEG_LEN
    simp [N, SEG_LEN]
  · show (0 : ℤ) % SEG_LEN = 0
    simp

/-- A key press keeps the invariant. -/
lemma worldKey_inv (rs : RandomSource) (assets : Assets) (k : Key) (w : World) (h : w.Inv) :
    (worldKey rs assets k w).Inv := by
  obtain ⟨hT, hZ, p0, p1, p2⟩ := h
  have hpos : 0 ≤ (keyPressed k w.game).pos ∧ (keyPressed k w.game).pos < N * SEG_LEN ∧
      (keyPressed k w.game).pos % SEG_LEN = 0 := by
    rcases keyPressed_pos_cases k w.game with e | e
    · rw [e]; exact ⟨p0, p1, p2⟩
    · rw [e]; simp [N, SEG_LEN]
  unfold worldKey
  by_cases hc : w.game.isOver = true ∧ k = Key.Y
  · rw [if_pos hc]
    obtain ⟨S, _, _, h3, h4, _, h6⟩ := populate_spec rs assets w.drawn (clearOccupants w.lines)
      (fun j => rfl)
    refine ⟨fun j hj => h4 j ((h3 j).mp hj), ?_, hpos⟩
    intro i hi0 hi1
    exact (h6 i).trans (hZ i hi0 hi1)
  · rw [if_neg hc]
    exact ⟨hT, hZ, hpos⟩

/-- The live injection changes a segment only by `placeOpponent`, at an index
from `pos / SEG_LEN + 500` on inside the array. -/
lemma injectTraffic_spec (rs : RandomSource) (assets : Assets) (pos score : ℤ) (t : ℕ)
    (lines : Track) (hp : 0 ≤ pos) (j : ℤ) :
    (injectTraffic rs assets pos score t lines).1 j = lines j ∨
      (startPosOf pos + 500 ≤ j ∧ j < N ∧ ∃ t' : ℕ,
        (injectTraffic rs assets pos score t lines).1 j =
          placeOpponent rs assets t' (lines j)) := by
  unfold injectTraffic
  by_cases hc : score > 50 ∧ score.tmod 100 = 0
  · rw [if_pos hc]
    have h0 : 0 ≤ pos.tdiv SEG_LEN + 500 := by
      have := Int.tdiv_nonneg hp (show (0 : ℤ) ≤ SEG_LEN by simp [SEG_LEN])
      linarith
    exact injectTrafficFrom_spec rs assets _ _ _ t lines le_rfl h0 j
  · rw [if_neg hc]
    left; rfl

/-- A frame keeps the invariant. -/
lemma worldFrame_inv (rs : RandomSource) (assets : Assets) (inp : FrameInput)
    (cache : ℤ → ProjectionCache) (w : World) (h : w.Inv) :
    (worldFrame rs assets inp cache w).Inv := by
  unfold worldFrame
  by_cases hc : w.game.isOver = true
  · rw [if_pos hc]; exact h
  · rw [if_neg hc]
    obtain ⟨hT, hZ, p0, p1, p2⟩ := h
    have hs : w.game.isOver = false := by simpa using hc
    have hp := updateFrame_pos_inv inp w.game hs p0 p1 p2
    refine ⟨?_, ?_, hp⟩
    · intro j hj
      have hj' : ((injectTraffic rs assets (updateFrame inp w.game).pos
          (updateFrame inp w.game).score w.drawn w.lines).1 j).hasOpponent = true := hj
      rcases injectTraffic_spec rs assets (updateFrame inp w.game).pos
        (updateFrame inp w.game).score w.drawn w.lines hp.1 j with e | ⟨e1, e2, _⟩
      · rw [e] at hj'; exact hT j hj'
      · have := (startPosOf_range _ hp.1 hp.2.1).1
        exact ⟨by linarith, e2⟩
    · intro i hi0 hi1
      show ((injectTraffic rs assets (updateFrame inp w.game).pos
          (updateFrame inp w.game).score w.drawn w.lines).1 i).z = _
      rcases injectTraffic_spec rs assets (updateFrame inp w.game).pos
        (updateFrame inp w.game).score w.drawn w.lines hp.1 i with e | ⟨_, _, t', e⟩
      · rw [e]; exact hZ i hi0 hi1
      · rw [e]; exact hZ i hi0 hi1

/-- Every reachable state satisfies the invariant. -/
lemma reachable_inv (rs : RandomSource) (assets : Assets) (hill : ℤ → ℚ) (w : World)
    (hw : WorldReachable rs assets hill w) : w.Inv := by
  obtain ⟨events, rfl⟩ := hw
  have gen : ∀ (es : List WorldEvent) (w0 : World), w0.Inv →
      (es.foldl (applyWorldEvent rs assets) w0).Inv := by
    intro es
    induction es with
    | nil => intro w0 h; exact h
    | cons e es ih =>
      intro w0 h
      rw [List.foldl_cons]
      apply ih
      cases e with
      | key k => exact worldKey_inv rs assets k w0 h
      | frame inp cache => exact worldFrame_inv rs assets inp cache w0 h
  exact gen events _ (initial_inv rs assets hill)

/-- The constructed track carries a traffic occupant at index 400. -/
lemma initial_traffic_at_400 (rs : RandomSource) (assets : Assets) (hill : ℤ → ℚ) :
    ((World.initial rs assets hill).lines 400).hasOpponent = true := by
  obtain ⟨S, _, h2, h3, _⟩ := populate_spec rs assets 0 (buildTrack hill)
    (fun j => (buildTrack_empty hill j).1)
  exact (h3 400).mpr h2

/-- C19: in every reachable state every segment with a traffic occupant has an
index in `400..N-1`; a frame changes the traffic occupancy only at indices from
`startPos + 500` on inside the array; the wrapped part of the traffic window
(window index `n ≥ N`, `n < startPos + 300`) contains no traffic occupant; and
for every traffic occupant met in the traffic pass (`startPos ≤ n <
startPos + 300`) the depth difference `z - pos` is `(n - startPos) * SEG_LEN`. -/
theorem traffic_index_invariant (rs : RandomSource) (assets : Assets) (hill : ℤ → ℚ)
    (w : World) (hw : WorldReachable rs assets hill w) :
    (∀ j, (w.lines j).hasOpponent = true → 400 ≤ j ∧ j < N) ∧
    (∀ (inp : FrameInput) (cache : ℤ → ProjectionCache) (j : ℤ),
      ((worldFrame rs assets inp cache w).lines j).hasOpponent ≠ (w.lines j).hasOpponent →
      startPosOf (worldFrame rs assets inp cache w).game.pos + 500 ≤ j ∧ j < N) ∧
    (∀ n : ℤ, (N : ℤ) ≤ n → n < startPosOf w.game.pos + 300 →
      (w.lines (n.tmod N)).hasOpponent = false) ∧
    (∀ n : ℤ, startPosOf w.game.pos ≤ n → n < startPosOf w.game.pos + 300 →
      (w.lines (n.tmod N)).hasOpponent = true →
      (w.lines (n.tmod N)).z - w.game.pos = (((n - startPosOf w.game.pos) * SEG_LEN : ℤ) : ℚ)) := by
  obtain ⟨hT, hZ, p0, p1, p2⟩ := reachable_inv rs assets hill w hw
  obtain ⟨s0, s1⟩ := startPosOf_range _ p0 p1
  have wrapped : ∀ n : ℤ, (N : ℤ) ≤ n → n < startPosOf w.game.pos + 300 →
      (w.lines (n.tmod N)).hasOpponent = false := by
    intro n hn1 hn2
    have e : n.tmod N = n - N := by
      rw [Int.tmod_eq_emod (by linarith) (by simp [N])]
      simp only [N] at *
      omega
    rw [e]
    by_contra hne
    have := (hT (n - N) (by simpa using hne)).1
    linarith
  refine ⟨hT, ?_, wrapped, ?_⟩
  · intro inp cache j hne
    unfold worldFrame at hne ⊢
    by_cases hc : w.game.isOver = true
    · rw [if_pos hc] at hne
      exact absurd rfl hne
    · rw [if_neg hc] at hne ⊢
      have hs : w.game.isOver = false := by simpa using hc
      have hp := updateFrame_pos_inv inp w.game hs p0 p1 p2
      have hne' : ((injectTraffic rs assets (updateFrame inp w.game).pos
          (updateFrame inp w.game).score w.drawn w.lines).1 j).hasOpponent ≠
          (w.lines j).hasOpponent := hne
      rcases injectTraffic_spec rs assets (updateFrame inp w.game).pos
        (updateFrame inp w.game).score w.drawn w.lines hp.1 j with e | ⟨e1, e2, _⟩
      · rw [e] at hne'
        exact absurd rfl hne'
      · exact ⟨e1, e2⟩
  · intro n hn1 hn2 ho
    have hnN : n < N := by
      by_contra hge
      have := wrapped n (by linarith) hn2
      rw [this] at ho
      exact Bool.false_ne_true ho
    have e : n.tmod N = n := by
      rw [Int.tmod_eq_emod (by linarith) (by simp [N])]
      exact Int.emod_eq_of_lt (by linarith) hnN
    rw [e, hZ n (by linarith) hnN]
    have hpos : w.game.pos = startPosOf w.game.pos * SEG_LEN := by
      unfold startPosOf
      rw [Int.tdiv_eq_ediv p0 (by simp [SEG_LEN])]
      simp only [SEG_LEN] at *
      omega
    have hq : (w.game.pos : ℚ) = ((startPosOf w.game.pos * SEG_LEN : ℤ) : ℚ) := by
      rw [← hpos]
    rw [hq]
    push_cast
    ring

/-- C19 on the initial state: it is reachable, segment 400 carries a traffic
occupant, and 400 is an index of `400..N-1`. -/
theorem traffic_index_invariant_witness :
    WorldReachable unluckySource sampleAssets (fun _ => 0)
      (World.initial unluckySource sampleAssets fun _ => 0) ∧
    ((World.initial unluckySource sampleAssets fun _ => 0).lines 400).hasOpponent = true ∧
    ((400 : ℤ) ≤ 400 ∧ (400 : ℤ) < N) :=
  ⟨⟨[], rfl⟩, initial_traffic_at_400 _ _ _,
    (traffic_index_invariant unluckySource sampleAssets (fun _ => 0) _ ⟨[], rfl⟩).1 400
      (initial_traffic_at_400 _ _ _)⟩

/-! ### Scenery at the track seam -/

/-- Beyond `SEG_LEN * 120` the scale chain selects no band. -/
lemma sceneryScale_far (d : ℚ) (h : 24000 < d) : sceneryScale d = none := by
  unfold sceneryScale
  rw [if_pos (by rw [segLen_cast]; norm_num; exact h)]

/-- Without a band `drawScenery` draws nothing. -/
lemma drawScenery_far (l : Line) (playerZ : ℤ) (h : sceneryScale |l.z - playerZ| = none) :
    l.drawScenery playerZ = [] := by
  unfold Line.drawScenery
  cases h1 : l.hasScenery
  · rfl
  · cases h2 : l.scenerySprite.texture with
    | none => rfl
    | some tex =>
      obtain ⟨texW, texH⟩ := tex
      simp only [h]

/-- The probe track has the construction depths. -/
lemma seamProbeTrack_depth : seamProbeTrack.DepthByIndex := by
  intro i hi0 hi1
  unfold seamProbeTrack
  by_cases h : i = 100
  · subst h
    rw [Function.update_same]
    exact buildTrack_depthByIndex (fun _ => 0) 100 hi0 hi1
  · rw [Function.update_noteq h]
    exact buildTrack_depthByIndex (fun _ => 0) i hi0 hi1

/-- C15 (the code diverges): for a camera position that is a whole number of
segments inside one lap, the distance `|z - pos|` that the placement pass feeds
to the scenery scale curve at window offset `k = n - startPos` is `k * SEG_LEN`
while the window index has not wrapped (`n < N`); once it has wrapped
(`n ≥ N`) the distance is `(N - k) * SEG_LEN`, which is beyond the visibility
limit `SEG_LEN * 120`, so that no band is selected and the scenery occupant is
not drawn. -/
theorem scenery_distance_at_seam (lines : Track) (hz : lines.DepthByIndex) (pos : ℤ)
    (h0 : 0 ≤ pos) (h1 : pos < N * SEG_LEN) (h2 : pos % SEG_LEN = 0) (n : ℤ)
    (hn1 : startPosOf pos ≤ n) (hn2 : n < startPosOf pos + 800) :
    (n < N → |(lines (n.tmod N)).z - pos| = (((n - startPosOf pos) * SEG_LEN : ℤ) : ℚ)) ∧
    ((N : ℤ) ≤ n →
      |(lines (n.tmod N)).z - pos| = (((N - (n - startPosOf pos)) * SEG_LEN : ℤ) : ℚ) ∧
      |(lines (n.tmod N)).z - pos| ≠ (((n - startPosOf pos) * SEG_LEN : ℤ) : ℚ) ∧
      sceneryScale |(lines (n.tmod N)).z - pos| = none ∧
      (placementStep lines pos (startPosOf pos) n).sceneryDraws = []) := by
  obtain ⟨s0, s1⟩ := startPosOf_range _ h0 h1
  have hpos : pos = startPosOf pos * SEG_LEN := by
    unfold startPosOf
    rw [Int.tdiv_eq_ediv h0 (by simp [SEG_LEN])]
    simp only [SEG_LEN] at *
    omega
  have hq : (pos : ℚ) = ((startPosOf pos * SEG_LEN : ℤ) : ℚ) := by
    rw [← hpos]
  constructor
  · intro hnN
    have e : n.tmod N = n := by
      rw [Int.tmod_eq_emod (by linarith) (by simp [N])]
      exact Int.emod_eq_of_lt (by linarith) hnN
    rw [e, hz n (by linarith) hnN, hq]
    have hk : (0 : ℚ) ≤ ((n - startPosOf pos : ℤ) : ℚ) := by
      exact_mod_cast (by linarith : 0 ≤ n - startPosOf pos)
    push_cast at hk ⊢
    rw [show ((n : ℚ) * (SEG_LEN : ℚ) - (startPosOf pos : ℚ) * (SEG_LEN : ℚ)) =
      ((n : ℚ) - (startPosOf pos : ℚ)) * (SEG_LEN : ℚ) by ring]
    apply abs_of_nonneg
    apply mul_nonneg hk
    simp [SEG_LEN]
  · intro hnN
    have e : n.tmod N = n - N := by
      rw [Int.tmod_eq_emod (by linarith) (by simp [N])]
      simp only [N] at *
      omega
    have hd : |(lines (n.tmod N)).z - pos| =
        (((N - (n - startPosOf pos)) * SEG_LEN : ℤ) : ℚ) := by
      rw [e, hz (n - N) (by linarith) (by simp only [N] at *; omega), hq]
      have hk : ((n - N : ℤ) : ℚ) ≤ ((startPosOf pos : ℤ) : ℚ) := by
        exact_mod_cast (by simp only [N] at *; omega : n - (N : ℤ) ≤ startPosOf pos)
      push_cast at hk ⊢
      rw [show (((n : ℚ) - (N : ℚ)) * (SEG_LEN : ℚ) - (startPosOf pos : ℚ) * (SEG_LEN : ℚ)) =
        -(((N : ℚ) - ((n : ℚ) - (startPosOf pos : ℚ))) * (SEG_LEN : ℚ)) by ring, abs_neg]
      apply abs_of_nonneg
      apply mul_nonneg
      · linarith
      · simp [SEG_LEN]
    have hbig : (24000 : ℚ) < (((N - (n - startPosOf pos)) * SEG_LEN : ℤ) : ℚ) := by
      have : (24000 : ℤ) < (N - (n - startPosOf pos)) * SEG_LEN := by
        simp only [N, SEG_LEN] at *
        omega
      exact_mod_cast this
    have hne : (((N - (n - startPosOf pos)) * SEG_LEN : ℤ) : ℚ) ≠
        (((n - startPosOf pos) * SEG_LEN : ℤ) : ℚ) := by
      intro h
      have h' : (N - (n - startPosOf pos)) * SEG_LEN = (n - startPosOf pos) * SEG_LEN := by
        exact_mod_cast h
      simp only [N, SEG_LEN] at *
      omega
    have hs : sceneryScale |(lines (n.tmod N)).z - pos| = none := by
      rw [hd]
      exact sceneryScale_far _ hbig
    refine ⟨hd, by rw [hd]; exact hne, hs, ?_⟩
    unfold placementStep
    have hdraw := drawScenery_far (lines (n.tmod N)) pos hs
    simp only [hdraw, ite_self]
    split_ifs <;> rfl

/-- C15 at the seam: with the camera in the last segment (position 319800), the
scenery occupant of segment 100 is met at window index 1700, that is 101
segments ahead; the distance fed to the scale curve is `1499 * SEG_LEN` and not
`101 * SEG_LEN`, and nothing is drawn. -/
theorem scenery_distance_at_seam_witness :
    seamProbeTrack.DepthByIndex ∧ (0 : ℤ) ≤ 319800 ∧ (319800 : ℤ) < N * SEG_LEN ∧
    (319800 : ℤ) % SEG_LEN = 0 ∧ startPosOf 319800 ≤ 1700 ∧ (1700 : ℤ) < startPosOf 319800 + 800 ∧
    (seamProbeTrack ((1700 : ℤ).tmod N)).hasScenery = true ∧
    |(seamProbeTrack ((1700 : ℤ).tmod N)).z - (319800 : ℤ)| =
      (((N - (1700 - startPosOf 319800)) * SEG_LEN : ℤ) : ℚ) ∧
    |(seamProbeTrack ((1700 : ℤ).tmod N)).z - (319800 : ℤ)| ≠
      (((1700 - startPosOf 319800) * SEG_LEN : ℤ) : ℚ) ∧
    (placementStep seamProbeTrack 319800 (startPosOf 319800) 1700).sceneryDraws = [] :=
  ⟨seamProbeTrack_depth, by decide, by decide, by decide, by decide, by decide, by
    rw [show (1700 : ℤ).tmod N = 100 by decide]
    unfold seamProbeTrack
    rw [Function.update_same]
    rfl,
    ((scenery_distance_at_seam seamProbeTrack seamProbeTrack_depth 319800 (by decide)
      (by decide) (by decide) 1700 (by decide) (by decide)).2 (by decide)).1,
    ((scenery_distance_at_seam seamProbeTrack seamProbeTrack_depth 319800 (by decide)
      (by decide) (by decide) 1700 (by decide) (by decide)).2 (by decide)).2.1,
    ((scenery_distance_at_seam seamProbeTrack seamProbeTrack_depth 319800 (by decide)
      (by decide) (by decide) 1700 (by decide) (by decide)).2 (by decide)).2.2.2⟩

/-! ### Scenery and the road edge -/

/-- A sprite drawn by `drawScenery` is at least 1.5 wide and its left edge is
`X` plus the side offset. -/
lemma drawScenery_sprite (l : Line) (playerZ : ℤ) (x y w h : ℚ)
    (hd : l.drawScenery playerZ = [DrawCall.sprite x y w h]) :
    3 / 2 ≤ w ∧ x = l.X + scenerySideOffset l w := by
  unfold Line.drawScenery at hd
  cases h1 : l.hasScenery
  · rw [h1] at hd
    exact absurd hd (by simp)
  · cases h2 : l.scenerySprite.texture with
    | none =>
      rw [h1, h2] at hd
      exact absurd hd (by simp)
    | some tex =>
      obtain ⟨texW, texH⟩ := tex
      rw [h1, h2] at hd
      simp only at hd
      cases h3 : sceneryScale |l.z - playerZ| with
      | none =>
        rw [h3] at hd
        exact absurd hd (by simp)
      | some scale0 =>
        rw [h3] at hd
        simp only at hd
        split_ifs at hd with hk hc hc
        all_goals
          simp only [List.cons.injEq, DrawCall.sprite.injEq, and_true] at hd
          obtain ⟨e1, _, e3, _⟩ := hd
          refine ⟨?_, ?_⟩
          · rw [← e3]
            by_contra hlt
            exact hc (Or.inr (Or.inr (Or.inr (Or.inr (not_le.mp hlt)))))
          · rw [← e1, ← e3]

/-- C16 (the code diverges): for every sprite `(x, y, w, h)` that `drawScenery`
draws, `w ≥ 1.5`; on the right side (a house, or a palm placed on the right) the
distance from the right road edge `X + W` to the sprite's left edge is the
kind's clearance plus `w / 2`; on the left side (grass, or a palm placed on the
left) the distance from the sprite's right edge `x + w` to the left road edge
`X - W` is the kind's clearance minus `w / 2`, which is less than the
clearance. -/
theorem scenery_clearance (l : Line) (playerZ : ℤ) (x y w h : ℚ)
    (hd : l.drawScenery playerZ = [DrawCall.sprite x y w h]) :
    3 / 2 ≤ w ∧
    (l.sceneryType = 2 → x - (l.X + l.W) = 200 + w / 2) ∧
    (l.sceneryType = 3 →
      (l.X - l.W) - (x + w) = 40 + 60 * |l.opponentOffset| - w / 2 ∧
      (l.X - l.W) - (x + w) < 40 + 60 * |l.opponentOffset|) ∧
    (l.sceneryType ≠ 2 → l.sceneryType ≠ 3 → l.sceneryOnLeft = false →
      x - (l.X + l.W) = 60 + 80 * |l.opponentOffset| + w / 2) ∧
    (l.sceneryType ≠ 2 → l.sceneryType ≠ 3 → l.sceneryOnLeft = true →
      (l.X - l.W) - (x + w) = 60 + 80 * |l.opponentOffset| - w / 2 ∧
      (l.X - l.W) - (x + w) < 60 + 80 * |l.opponentOffset|) := by
  obtain ⟨hw, hx⟩ := drawScenery_sprite l playerZ x y w h hd
  unfold scenerySideOffset at hx
  simp only at hx
  refine ⟨hw, ?_, ?_, ?_, ?_⟩
  · intro h2
    rw [if_pos h2] at hx
    rw [hx]; ring
  · intro h3
    rw [if_neg (by rw [h3]; decide), if_pos h3] at hx
    constructor
    · rw [hx]; ring
    · rw [hx]; linarith
  · intro h2 h3 hs
    rw [if_neg h2, if_neg h3, if_neg (by simp [hs])] at hx
    rw [hx]; ring
  · intro h2 h3 hs
    rw [if_neg h2, if_neg h3, if_pos hs] at hx
    constructor
    · rw [hx]; ring
    · rw [hx]; linarith

/-- What `drawScenery` draws for `grassProbe` seen from depth zero. -/
lemma grassProbe_draw :
    grassProbe.drawScenery 0 = [DrawCall.sprite (-(718 / 5)) (13698 / 25) 156 78] := by
  have hs : sceneryScale |grassProbe.z - ((0 : ℤ) : ℚ)| = some (65 / 100) := by
    have e : |grassProbe.z - ((0 : ℤ) : ℚ)| = 2000 := by
      norm_num [grassProbe, Line.init]
    rw [e]
    unfold sceneryScale
    rw [if_neg (by rw [segLen_cast]; norm_num), if_neg (by rw [segLen_cast]; norm_num),
      if_neg (by rw [segLen_cast]; norm_num), if_neg (by rw [segLen_cast]; norm_num),
      if_neg (by rw [segLen_cast]; norm_num), if_neg (by rw [segLen_cast]; norm_num),
      if_neg (by rw [segLen_cast]; norm_num), if_neg (by rw [segLen_cast]; norm_num),
      if_pos (by rw [segLen_cast]; norm_num)]
    simp only [sceneryBand, ↓reduceIte, OfNat.ofNat_ne_zero, OfNat.ofNat_ne_one,
      Nat.reduceEqDiff, one_ne_zero]
    norm_num [SEG_LEN]
  unfold Line.drawScenery
  have h1 : grassProbe.hasScenery = true := rfl
  have h2 : grassProbe.scenerySprite.texture = some (400, 200) := rfl
  rw [h1, h2]
  simp only [hs]
  norm_num [grassProbe, Line.init, scenerySideOffset, HEIGHT, WIDTH]

/-- C16 on a grass occupant ten segments ahead: the sprite drawn is 156 wide,
its right edge 12.4 lies to the right of the left road edge -25.6, so the
distance from the sprite to the road edge is `40 - 78 = -38`: the sprite
reaches 38 pixels into the road span. -/
theorem scenery_clearance_witness :
    grassProbe.drawScenery 0 = [DrawCall.sprite (-(718 / 5)) (13698 / 25) 156 78] ∧
    grassProbe.sceneryType = 3 ∧ (0 : ℚ) ≤ grassProbe.W ∧
    (grassProbe.X - grassProbe.W) - (-(718 / 5) + 156) = -38 ∧
    (grassProbe.X - grassProbe.W) - (-(718 / 5) + 156) <
      40 + 60 * |grassProbe.opponentOffset| := by
  have h := (scenery_clearance grassProbe 0 (-(718 / 5)) (13698 / 25) 156 78
    grassProbe_draw).2.2.1 rfl
  refine ⟨grassProbe_draw, rfl, by norm_num [grassProbe], ?_, h.2⟩
  rw [h.1]
  norm_num [grassProbe, Line.init]

end RaceCarGame
